import Mathlib

/-!
# RailControl: reservation and locking of layout items and routes

A shallow embedding of the lock protocol of `src/datamodel/block.cpp`,
`src/datamodel/track.cpp`, of the route operations and the persistence of
`src/DataModel/Street.cpp`, of the relation list built by
`src/WebServer/WebClient.cpp`, of the loco functions of `src/datamodel/loco.h`
and of the persistence of blocks, tracks and signals; of the release of a
signal (`src/DataModel/Signal.cpp`), of the commands of
`src/hardware/hardware_handler.cpp` to the driver, of the speeds of a saved
locomotive and the decoding of request arguments in
`src/WebServer/WebClient.cpp`, and of the updates that
`src/WebServer/WebServer.cpp` keeps for the web clients; followed by the
theorems about them.

Mutexes are not modelled: every operation below is the body that runs while
the item's mutex is held, so the theorems are about sequential executions.
-/

namespace RailControl

/-! ## Basic types (`src/datatypes.h`) -/

/-- Identifier of an object in the database (`typedef unsigned short objectID_t`). -/
abbrev objectID_t := Nat

/-- Identifier of a locomotive (`typedef objectID_t locoID_t`). -/
abbrev locoID_t := objectID_t

/-- Identifier of a track (`trackID_t`, the later name of `blockID_t`). -/
abbrev trackID_t := objectID_t

/-- Orientation of a track or loco (`typedef bool direction_t`). -/
abbrev direction_t := Bool

/-- The constant `static const locoID_t LocoNone = 0`. -/
def LocoNone : locoID_t := 0

/-- The constant `DirectionLeft = false` of `enum directionState`. -/
def DirectionLeft : direction_t := false

/-- The constant `DirectionRight = true` of `enum directionState`. -/
def DirectionRight : direction_t := true

/-- The enumeration `lockState` of `datatypes.h` (the same four values as
`LockableItem::lockState_t`). -/
inductive lockState_t where
  | LockStateFree
  | LockStateReserved
  | LockStateSoftLocked
  | LockStateHardLocked
  deriving DecidableEq, Repr

open lockState_t

/-- The enumeration `boosterStatus` of `datatypes.h`. -/
inductive boosterStatus_t where
  | BoosterStop
  | BoosterGo
  deriving DecidableEq, Repr

open boosterStatus_t

/-! ## Track and Block (`src/datamodel/track.cpp`, `src/datamodel/block.cpp`) -/

/-- The data members of `Track` that the lock protocol reads or writes,
together with the object id inherited from `LayoutItem`. -/
structure Track where
  objectID : objectID_t
  lockState : lockState_t
  locoID : locoID_t
  locoDirection : direction_t
  deriving DecidableEq, Repr

/-- The class `Block` of `block.h` declares the same data members as `Track`
(`lockState`, `locoID`, `locoDirection`); it is the earlier name of the class. -/
abbrev Block := Track

/-- The constructor `Track::Track(trackID, name, x, y, z, width, rotation)`:
the item starts free, with loco id 0 and direction left. -/
def Track.construct (trackID : trackID_t) : Track :=
  { objectID := trackID, lockState := LockStateFree, locoID := 0,
    locoDirection := DirectionLeft }

/-- The constructor `Block::Block(blockID, name, x, y, z, width, rotation)`. -/
def Block.construct (blockID : objectID_t) : Block :=
  { objectID := blockID, lockState := LockStateFree, locoID := 0,
    locoDirection := DirectionLeft }

/-- The method `Track::reserve`; the result is the returned flag and the
track after the call. -/
def Track.reserve (t : Track) (locoID : locoID_t) : Bool × Track :=
  if locoID = t.locoID then
    if t.lockState = LockStateFree then
      (true, { t with lockState := LockStateReserved })
    else
      (true, t)
  else if t.lockState ≠ LockStateFree then
    (false, t)
  else
    (true, { t with lockState := LockStateReserved, locoID := locoID })

/-- The method `Track::lock`. -/
def Track.lock (t : Track) (locoID : locoID_t) : Bool × Track :=
  if t.lockState ≠ LockStateReserved then
    (false, t)
  else if t.locoID ≠ locoID then
    (false, t)
  else
    (true, { t with lockState := LockStateHardLocked })

/-- The method `Track::release`. -/
def Track.release (t : Track) (locoID : locoID_t) : Bool × Track :=
  if t.lockState = LockStateFree then
    (true, t)
  else if t.locoID ≠ locoID then
    (false, t)
  else
    (true, { t with locoID := LocoNone, lockState := LockStateFree })

/-- The method `Block::reserve`. -/
def Block.reserve (b : Block) (locoID : locoID_t) : Bool × Block :=
  if locoID = b.locoID then
    if b.lockState = LockStateFree then
      (true, { b with lockState := LockStateReserved })
    else
      (true, b)
  else if b.lockState ≠ LockStateFree then
    (false, b)
  else
    (true, { b with lockState := LockStateReserved, locoID := locoID })

/-- The method `Block::lock`. -/
def Block.lock (b : Block) (locoID : locoID_t) : Bool × Block :=
  if b.lockState ≠ LockStateReserved then
    (false, b)
  else if b.locoID ≠ locoID then
    (false, b)
  else
    (true, { b with lockState := LockStateHardLocked })

/-- The method `Block::release`. -/
def Block.release (b : Block) (locoID : locoID_t) : Bool × Block :=
  if b.lockState = LockStateFree then
    (true, b)
  else if b.locoID ≠ locoID then
    (false, b)
  else
    (true, { b with locoID := LocoNone, lockState := LockStateFree })

/-- The two classes of `src/datamodel` that carry the lock protocol. -/
inductive ItemKind where
  | block
  | track
  deriving DecidableEq, Repr

/-- Constructor of an item of the given class. -/
def ItemKind.construct : ItemKind → objectID_t → Track
  | .block, id => Block.construct id
  | .track, id => Track.construct id

/-- Dispatch of `reserve` to the class of the item. -/
def ItemKind.reserve : ItemKind → Track → locoID_t → Bool × Track
  | .block, i, l => Block.reserve i l
  | .track, i, l => Track.reserve i l

/-- Dispatch of `lock` to the class of the item. -/
def ItemKind.lock : ItemKind → Track → locoID_t → Bool × Track
  | .block, i, l => Block.lock i l
  | .track, i, l => Track.lock i l

/-- Dispatch of `release` to the class of the item. -/
def ItemKind.release : ItemKind → Track → locoID_t → Bool × Track
  | .block, i, l => Block.release i l
  | .track, i, l => Track.release i l

/-- One call of the lock protocol, with the loco id passed to it. -/
inductive LockCall where
  | reserve (locoID : locoID_t)
  | lock (locoID : locoID_t)
  | release (locoID : locoID_t)
  deriving DecidableEq, Repr

/-- The loco id a call is made with. -/
def LockCall.loco : LockCall → locoID_t
  | .reserve l => l
  | .lock l => l
  | .release l => l

/-- Performs one call on an item of class `k`. -/
def ItemKind.call (k : ItemKind) (i : Track) : LockCall → Bool × Track
  | .reserve l => k.reserve i l
  | .lock l => k.lock i l
  | .release l => k.release i l

/-- One entry of an execution trace: the call made, the flag it returned and
the item after it. -/
structure TraceEntry where
  call : LockCall
  ret : Bool
  after : Track
  deriving DecidableEq, Repr

/-- Runs a sequence of calls on one item and records every call with its
result and the item it leaves. -/
def ItemKind.trace (k : ItemKind) (i : Track) : List LockCall → List TraceEntry
  | [] => []
  | c :: cs =>
    { call := c, ret := (k.call i c).1, after := (k.call i c).2 }
      :: k.trace (k.call i c).2 cs

/-- The item left by a sequence of calls made on one item. -/
def ItemKind.run (k : ItemKind) (i : Track) : List LockCall → Track
  | [] => i
  | c :: cs => k.run (k.call i c).2 cs

/-- The invariant of a lockable item: its lock state is free exactly when it
has no owner. -/
def Track.LockInvariant (t : Track) : Prop :=
  t.lockState = LockStateFree ↔ t.locoID = LocoNone

instance (t : Track) : Decidable t.LockInvariant := by
  unfold Track.LockInvariant; infer_instance

/-! ## Lockable item (`src/DataModel/LockableItem.h`) -/

/-- The data members of `LockableItem`. -/
structure LockableItem where
  lockState : lockState_t
  locoID : locoID_t
  deriving DecidableEq, Repr

/-- The constructor `LockableItem::LockableItem()`. -/
def LockableItem.construct : LockableItem :=
  { lockState := LockStateFree, locoID := LocoNone }

/-- The getter `LockableItem::GetLoco`. -/
def LockableItem.GetLoco (i : LockableItem) : locoID_t := i.locoID

/-- The getter `LockableItem::GetLockState`. -/
def LockableItem.GetLockState (i : LockableItem) : lockState_t := i.lockState

/-- The predicate `LockableItem::IsInUse`. -/
def LockableItem.IsInUse (i : LockableItem) : Bool :=
  i.lockState ≠ LockStateFree || i.locoID ≠ LocoNone

/-- Modelled from the spec: the body of `LockableItem::Reserve`, which the
header declares and `Street.cpp` calls, is not among the sources. "reserve(loco):
succeeds if state = Free, transitioning to Reserved with owner=loco; succeeds
idempotently if already owned by loco; otherwise fails." The statements are
those of `Track::reserve`, which implements the same protocol. -/
def LockableItem.Reserve (i : LockableItem) (locoID : locoID_t) : Bool × LockableItem :=
  if locoID = i.locoID then
    if i.lockState = LockStateFree then
      (true, { i with lockState := LockStateReserved })
    else
      (true, i)
  else if i.lockState ≠ LockStateFree then
    (false, i)
  else
    (true, { i with lockState := LockStateReserved, locoID := locoID })

/-- Modelled from the spec: the body of `LockableItem::Lock` is not among the
sources. "lock(loco): succeeds only if currently Reserved by the same loco →
HardLocked. Otherwise fails." The statements are those of `Track::lock`. -/
def LockableItem.Lock (i : LockableItem) (locoID : locoID_t) : Bool × LockableItem :=
  if i.lockState ≠ LockStateReserved then
    (false, i)
  else if i.locoID ≠ locoID then
    (false, i)
  else
    (true, { i with lockState := LockStateHardLocked })

/-- Modelled from the spec: the body of `LockableItem::Release` is not among
the sources. "release(loco): if state=Free, succeeds trivially; otherwise
requires owner=loco, transitions to Free, clears owner." The statements are
those of `Track::release`. -/
def LockableItem.Release (i : LockableItem) (locoID : locoID_t) : Bool × LockableItem :=
  if i.lockState = LockStateFree then
    (true, i)
  else if i.locoID ≠ locoID then
    (false, i)
  else
    (true, { i with locoID := LocoNone, lockState := LockStateFree })

/-! ## Manager, relations and locos as seen from `Street.cpp` -/

/-- Type tag of an object (`typedef unsigned char objectType_t`). -/
abbrev objectType_t := Nat

/-- The tag of tracks: `ObjectTypeBlock` in `enum objectType` of `datatypes.h`,
the slot that carries the name `ObjectTypeTrack` once `Block` is called `Track`. -/
def ObjectTypeTrack : objectType_t := 2

/-- The constant `ObjectTypeSwitch` of `enum objectType`. -/
def ObjectTypeSwitch : objectType_t := 5

/-- Modelled from the spec: the class `ObjectIdentifier` is not among the
sources. "ObjectIdentifier = (type tag, id)". -/
structure ObjectIdentifier where
  objectType : objectType_t
  objectID : objectID_t
  deriving DecidableEq, Repr

/-- Modelled from the spec: `Relation.h` is not among the sources. "Each
Relation = (target ObjectIdentifier, target state code, priority)". The field
names are those of the getters `ObjectType2`, `ObjectID2`, `GetPriority` and
`GetData` used by `WebClient.cpp`. -/
structure Relation where
  objectType2 : objectType_t
  objectID2 : objectID_t
  priority : Nat
  data : Nat
  deriving DecidableEq, Repr

/-- The identifier of the target of a relation. -/
def Relation.target (r : Relation) : ObjectIdentifier :=
  { objectType := r.objectType2, objectID := r.objectID2 }

/-- Modelled from the spec: `Manager.h` is not among the sources. The part of
the manager that `Street.cpp` uses: the booster state returned by
`Manager::Booster()` and the registry of lockable objects, "keyed by
(ObjectType, id)", in which `Manager::GetTrack` and the relations look up their
targets. A target that does not exist is `none` (a null pointer in the code).
The objects held here follow the plain lock protocol of `LockableItem`; a
relation whose target is itself a route is outside this model. -/
structure Manager where
  booster : boosterStatus_t
  objects : ObjectIdentifier → Option LockableItem
  /-- The state code each object was last set to ("set state" of a switch,
  signal or accessory); it is read only for objects that exist. -/
  states : ObjectIdentifier → Nat := fun _ => 0
  /-- The relations through which a method of the target (`Reserve`, `Lock`,
  `Release`, or the "set state" of `Execute`) has been called so far, in the
  order of the calls; a relation whose target does not exist makes no call. No
  operation reads this list: it is kept for the statements about the order in
  which the loops of a route visit its relations. -/
  calls : List Relation := []

/-- The getter `Manager::Booster`. -/
def Manager.Booster (m : Manager) : boosterStatus_t := m.booster

/-- The lookup `Manager::GetTrack`: the track with the given id, if any. The
class `Track` that `Street.cpp` calls (`Reserve`, `Lock`, `Release`) is not
among the sources; a track is held here as a lockable item, whose protocol is
statement for statement that of `Track::reserve`, `Track::lock` and
`Track::release` of `src/datamodel/track.cpp`. -/
def Manager.GetTrack (m : Manager) (trackID : trackID_t) : Option LockableItem :=
  m.objects { objectType := ObjectTypeTrack, objectID := trackID }

/-- Writes back the state of one object of the registry (the effect of a
method call through the pointer the lookup returned). -/
def Manager.SetObject (m : Manager) (k : ObjectIdentifier) (i : LockableItem) : Manager :=
  { m with objects := fun k2 => if k2 = k then some i else m.objects k2 }

/-- Records that a method of the target has been called through the relation. -/
def Manager.Called (m : Manager) (r : Relation) : Manager :=
  { m with calls := m.calls ++ [r] }

/-- Modelled from the spec: the lookup of a relation's target in the manager
(`Relation::GetObject2`), not among the sources. -/
def Relation.GetObject2 (m : Manager) (r : Relation) : Option LockableItem :=
  m.objects r.target

/-- The target of the relation exists in the manager. -/
def Relation.HasTarget (m : Manager) (r : Relation) : Bool :=
  (r.GetObject2 m).isSome

/-- Modelled from the spec: `Relation::Reserve` is not among the sources. "A
relation's reserve calls the target's reserve"; a missing target makes it fail,
as a missing destination track does in `Street::Reserve`. The call on the
target is recorded in `calls`. -/
def Relation.Reserve (m : Manager) (r : Relation) (locoID : locoID_t) : Bool × Manager :=
  match r.GetObject2 m with
  | none => (false, m)
  | some lockable =>
    ((lockable.Reserve locoID).1,
      (m.Called r).SetObject r.target (lockable.Reserve locoID).2)

/-- Modelled from the spec: `Relation::Lock` is not among the sources. "its
lock does likewise": it calls the target's lock. The call on the target is
recorded in `calls`. -/
def Relation.Lock (m : Manager) (r : Relation) (locoID : locoID_t) : Bool × Manager :=
  match r.GetObject2 m with
  | none => (false, m)
  | some lockable =>
    ((lockable.Lock locoID).1,
      (m.Called r).SetObject r.target (lockable.Lock locoID).2)

/-- Modelled from the spec: `Relation::Release` is not among the sources. "its
release calls target's release". The call on the target is recorded in
`calls`. -/
def Relation.Release (m : Manager) (r : Relation) (locoID : locoID_t) : Bool × Manager :=
  match r.GetObject2 m with
  | none => (false, m)
  | some lockable =>
    ((lockable.Release locoID).1,
      (m.Called r).SetObject r.target (lockable.Release locoID).2)

/-- The data members of `Loco` read by `Street::FromTrackDirection`
(`GetLength` and `GetPushpull` of `src/DataModel/Loco.h`). -/
structure Loco where
  length : Nat
  pushpull : Bool
  deriving DecidableEq, Repr

/-- The getter `Loco::GetLength`. -/
def Loco.GetLength (l : Loco) : Nat := l.length

/-- The getter `Loco::GetPushpull`. -/
def Loco.GetPushpull (l : Loco) : Bool := l.pushpull

/-! ## Street (`src/DataModel/Street.cpp`) -/

/-- The push-pull policy of a route, an enumeration over `unsigned char`. -/
abbrev pushpullType_t := Nat

/-- Modelled from the spec: the enumeration `pushpullType_t` is not among the
sources. "pushpull ∈ {No, Only, Both}", with "Only↔pushpull=true" and
"No↔pushpull=false": `No` is the value a `false` loco flag compares equal to. -/
def PushpullTypeNo : pushpullType_t := 0

/-- Modelled from the spec: `Only` is the value a `true` loco flag compares
equal to. -/
def PushpullTypeOnly : pushpullType_t := 1

/-- Modelled from the spec: the third value of "pushpull ∈ {No, Only, Both}". -/
def PushpullTypeBoth : pushpullType_t := 2

/-- The automode flag of a route, a boolean enumeration (`Deserialize` casts
the result of `GetBoolMapEntry` to it). -/
abbrev automode_t := Bool

/-- The constant `AutomodeNo`. -/
def AutomodeNo : automode_t := false

/-- The constant `AutomodeYes`. -/
def AutomodeYes : automode_t := true

/-- The integer a C++ `bool` is promoted to in a comparison with an
enumeration value. -/
def boolToNat (b : Bool) : Nat := if b then 1 else 0

/-- The data members of `Street` used by `Street.cpp`; the lock state and the
owner are those of the base class `LockableItem`. -/
structure Street extends LockableItem where
  delay : Nat
  pushpull : pushpullType_t
  minTrainLength : Nat
  maxTrainLength : Nat
  lastUsed : Nat
  counter : Nat
  automode : automode_t
  fromTrack : trackID_t
  fromDirection : direction_t
  toTrack : trackID_t
  toDirection : direction_t
  feedbackIdReduced : objectID_t
  feedbackIdCreep : objectID_t
  feedbackIdStop : objectID_t
  feedbackIdOver : objectID_t
  waitAfterRelease : Nat
  relations : List Relation
  deriving DecidableEq, Repr

/-- The method `Street::FromTrackDirection`; the logger calls have no effect on
the result. -/
def Street.FromTrackDirection (s : Street) (trackID : trackID_t)
    (trackDirection : direction_t) (loco : Loco) (allowLocoTurn : Bool) : Bool :=
  if s.automode = false then
    false
  else if s.fromTrack ≠ trackID then
    false
  else
    let locoLength := loco.GetLength
    if locoLength < s.minTrainLength then
      false
    else if s.maxTrainLength > 0 ∧ locoLength > s.maxTrainLength then
      false
    else
      let locoPushpull := loco.GetPushpull
      if s.pushpull ≠ boolToNat locoPushpull ∧ s.pushpull ≠ PushpullTypeBoth then
        false
      else if allowLocoTurn = true ∧ locoPushpull = true then
        true
      else
        let equalDirection : Bool := s.fromDirection == trackDirection
        if equalDirection then true else false

/-- The loop of `Street::ReleaseInternal`: every relation is released, in list
order, and the results are ignored. -/
def Street.ReleaseRelations (m : Manager) (locoID : locoID_t) : List Relation → Manager
  | [] => m
  | relation :: rest =>
    Street.ReleaseRelations (Relation.Release m relation locoID).2 locoID rest

/-- The method `Street::ReleaseInternal`. -/
def Street.ReleaseInternal (s : Street) (m : Manager) (locoID : locoID_t) :
    Bool × Street × Manager :=
  let m1 := Street.ReleaseRelations m locoID s.relations
  let ret := s.toLockableItem.Release locoID
  (ret.1, { s with toLockableItem := ret.2 }, m1)

/-- The method `Street::Release`. -/
def Street.Release (s : Street) (m : Manager) (locoID : locoID_t) :
    Bool × Street × Manager :=
  Street.ReleaseInternal s m locoID

/-- The method `Street::ReleaseInternalWithToTrack` (it returns nothing). -/
def Street.ReleaseInternalWithToTrack (s : Street) (m : Manager) (locoID : locoID_t) :
    Street × Manager :=
  let m1 :=
    match m.GetTrack s.toTrack with
    | none => m
    | some track =>
      m.SetObject { objectType := ObjectTypeTrack, objectID := s.toTrack }
        (track.Release locoID).2
  (Street.ReleaseInternal s m1 locoID).2

/-- The relation loop of `Street::Reserve`: it stops at the first relation
that cannot be reserved. -/
def Street.ReserveRelations (m : Manager) (locoID : locoID_t) : List Relation → Bool × Manager
  | [] => (true, m)
  | relation :: rest =>
    if (Relation.Reserve m relation locoID).1 = false then
      (false, (Relation.Reserve m relation locoID).2)
    else
      Street.ReserveRelations (Relation.Reserve m relation locoID).2 locoID rest

/-- The relation loop of `Street::Lock`: it stops at the first relation that
cannot be locked. -/
def Street.LockRelations (m : Manager) (locoID : locoID_t) : List Relation → Bool × Manager
  | [] => (true, m)
  | relation :: rest =>
    if (Relation.Lock m relation locoID).1 = false then
      (false, (Relation.Lock m relation locoID).2)
    else
      Street.LockRelations (Relation.Lock m relation locoID).2 locoID rest

/-- The block of `Street::Reserve` guarded by `automode == AutomodeYes`: the
flag is false when the destination track is missing or cannot be reserved. -/
def Street.ReserveToTrack (s : Street) (m : Manager) (locoID : locoID_t) : Bool × Manager :=
  if s.automode = AutomodeYes then
    match m.GetTrack s.toTrack with
    | none => (false, m)
    | some track =>
      ((track.Reserve locoID).1,
        m.SetObject { objectType := ObjectTypeTrack, objectID := s.toTrack }
          (track.Reserve locoID).2)
  else
    (true, m)

/-- The block of `Street::Lock` guarded by `automode == AutomodeYes`. -/
def Street.LockToTrack (s : Street) (m : Manager) (locoID : locoID_t) : Bool × Manager :=
  if s.automode = AutomodeYes then
    match m.GetTrack s.toTrack with
    | none => (false, m)
    | some track =>
      ((track.Lock locoID).1,
        m.SetObject { objectType := ObjectTypeTrack, objectID := s.toTrack }
          (track.Lock locoID).2)
  else
    (true, m)

/-- The method `Street::Reserve`: the returned flag, the route and the manager
after the call. -/
def Street.Reserve (s : Street) (m : Manager) (locoID : locoID_t) :
    Bool × Street × Manager :=
  if m.Booster = BoosterStop then
    (false, s, m)
  else
    let ret := s.toLockableItem.Reserve locoID
    let s1 : Street := { s with toLockableItem := ret.2 }
    if ret.1 = false then
      (false, s1, m)
    else
      let track := Street.ReserveToTrack s1 m locoID
      if track.1 = false then
        (false, (Street.ReleaseInternal s1 track.2 locoID).2)
      else
        let rel := Street.ReserveRelations track.2 locoID s1.relations
        if rel.1 = false then
          (false, (Street.ReleaseInternal s1 rel.2 locoID).2)
        else
          (true, s1, rel.2)

/-- The method `Street::Lock`. -/
def Street.Lock (s : Street) (m : Manager) (locoID : locoID_t) :
    Bool × Street × Manager :=
  if m.Booster = BoosterStop then
    (false, s, m)
  else
    let ret := s.toLockableItem.Lock locoID
    let s1 : Street := { s with toLockableItem := ret.2 }
    if ret.1 = false then
      (false, s1, m)
    else
      let track := Street.LockToTrack s1 m locoID
      if track.1 = false then
        (false, (Street.ReleaseInternal s1 track.2 locoID).2)
      else
        let rel := Street.LockRelations track.2 locoID s1.relations
        if rel.1 = false then
          (false, Street.ReleaseInternalWithToTrack s1 rel.2 locoID)
        else
          (true, s1, rel.2)

/-- Modelled from the spec: `Relation::Execute` is not among the sources. "its
execute sets the target's state": the state code carried by the relation
becomes the state of the target; the call fails when the target does not
exist. The pause of `delay` milliseconds after the command is not modelled.
The command to the target is recorded in `calls`. -/
def Relation.Execute (m : Manager) (r : Relation) (_delay : Nat) : Bool × Manager :=
  match r.GetObject2 m with
  | none => (false, m)
  | some _ =>
    (true,
      { m.Called r with states := fun k => if k = r.target then r.data else m.states k })

/-- The relation loop of `Street::Execute`: it stops at the first relation
whose execute fails. -/
def Street.ExecuteRelations (m : Manager) (delay : Nat) : List Relation → Bool × Manager
  | [] => (true, m)
  | relation :: rest =>
    if (Relation.Execute m relation delay).1 = false then
      (false, (Relation.Execute m relation delay).2)
    else
      Street.ExecuteRelations (Relation.Execute m relation delay).2 delay rest

/-- The method `Street::Execute`; `now` is the value `time(nullptr)` returns
when the loop has run through. -/
def Street.Execute (s : Street) (m : Manager) (now : Nat) : Bool × Street × Manager :=
  if m.Booster = BoosterStop then
    (false, s, m)
  else
    let rel := Street.ExecuteRelations m s.delay s.relations
    if rel.1 = false then
      (false, s, rel.2)
    else
      (true, { s with lastUsed := now, counter := s.counter + 1 }, rel.2)

/-- The loop of `Street::DeleteRelations`: while the vector is not empty, its
last element is deleted and popped. -/
def Street.DeleteRelationsLoop : List Relation → List Relation
  | [] => []
  | relation :: rest => Street.DeleteRelationsLoop (relation :: rest).dropLast
termination_by l => l.length
decreasing_by simp [List.length_dropLast]

/-- The method `Street::DeleteRelations`. -/
def Street.DeleteRelations (s : Street) : Street :=
  { s with relations := Street.DeleteRelationsLoop s.relations }

/-- The method `Street::AssignRelations`: the returned flag and the route
after the call. -/
def Street.AssignRelations (s : Street) (newRelations : List Relation) : Bool × Street :=
  if s.GetLockState ≠ LockStateFree then
    (false, s)
  else
    (true, { s.DeleteRelations with relations := newRelations })

/-! ## The relation list of a saved route -/

/-- The constant `ObjectTypeLoco` of `enum objectType`. -/
def ObjectTypeLoco : objectType_t := 1

/-- The loop of `WebClient::HandleRouteSave` that builds `relationsAtLock`
(`src/WebServer/WebClient.cpp`), with `remaining` relation ids still to read
from `relationId` on. The three functions give the entries
`relation_atlock_<id>_type`, `relation_atlock_<id>_id` and
`relation_atlock_<id>_state` of the request. The type `Priority` of the two
counters is not among the sources and is taken without a bound. -/
def HandleRouteSave.relationsAtLockLoop (relType relId relState : Nat → Nat)
    (fromTrack toTrack : ObjectIdentifier) : Nat → Nat → Nat → List Relation
  | 0, _, _ => []
  | remaining + 1, relationId, priorityAtLock =>
    if relId relationId = 0 ∧ relType relationId ≠ ObjectTypeLoco then
      HandleRouteSave.relationsAtLockLoop relType relId relState fromTrack toTrack
        remaining (relationId + 1) priorityAtLock
    else if relId relationId = fromTrack.objectID
        ∧ relType relationId = fromTrack.objectType then
      HandleRouteSave.relationsAtLockLoop relType relId relState fromTrack toTrack
        remaining (relationId + 1) priorityAtLock
    else if relId relationId = toTrack.objectID ∧ relType relationId = toTrack.objectType then
      HandleRouteSave.relationsAtLockLoop relType relId relState fromTrack toTrack
        remaining (relationId + 1) priorityAtLock
    else
      { objectType2 := relType relationId, objectID2 := relId relationId,
        priority := priorityAtLock, data := relState relationId }
        :: HandleRouteSave.relationsAtLockLoop relType relId relState fromTrack toTrack
            remaining (relationId + 1) (priorityAtLock + 1)

/-- The vector `relationsAtLock` that `WebClient::HandleRouteSave` hands to the
manager: relation ids 1 to `relationCountAtLock` are read, the first priority
is 1. -/
def HandleRouteSave.relationsAtLock (relationCountAtLock : Nat)
    (relType relId relState : Nat → Nat) (fromTrack toTrack : ObjectIdentifier) :
    List Relation :=
  HandleRouteSave.relationsAtLockLoop relType relId relState fromTrack toTrack
    relationCountAtLock 1 1

/-! ## Loco functions (`src/datamodel/loco.h`) -/

/-- Number or state of a loco function (`typedef unsigned char function_t`). -/
abbrev function_t := Nat

/-- The constant `LocoFunctions::maxFunctions = 32`. -/
def LocoFunctions.maxFunctions : function_t := 32

/-- The constant `LocoFunctions::maxCount = maxFunctions - 1`. -/
def LocoFunctions.maxCount : function_t := LocoFunctions.maxFunctions - 1

/-- The data members of `LocoFunctions`: the count and the array
`bool states[maxCount]`. -/
structure LocoFunctions where
  count : function_t
  states : Fin LocoFunctions.maxCount → Bool

/-- The constructor `LocoFunctions::LocoFunctions()`: `count(1)`, `states{0}`. -/
def LocoFunctions.construct : LocoFunctions :=
  { count := 1, states := fun _ => false }

/-- The method `LocoFunctions::SetFunction`. -/
def LocoFunctions.SetFunction (f : LocoFunctions) (nr : function_t) (state : Bool) :
    LocoFunctions :=
  if h : nr ≥ LocoFunctions.maxCount then
    f
  else
    { f with states := fun i => if i = ⟨nr, Nat.lt_of_not_ge h⟩ then state else f.states i }

/-- The method `LocoFunctions::GetFunction`. -/
def LocoFunctions.GetFunction (f : LocoFunctions) (nr : function_t) : Bool :=
  if h : nr ≥ LocoFunctions.maxCount then
    false
  else
    f.states ⟨nr, Nat.lt_of_not_ge h⟩

/-- The method `LocoFunctions::SetNrOfFunctions`: `count = nr + 1`, stored in
an `unsigned char`. -/
def LocoFunctions.SetNrOfFunctions (f : LocoFunctions) (nr : function_t) : LocoFunctions :=
  { f with count := (nr + 1) % 256 }

/-- The method `LocoFunctions::GetNrOfFunctions`: `count - 1`, returned as an
`unsigned char`. -/
def LocoFunctions.GetNrOfFunctions (f : LocoFunctions) : function_t :=
  (f.count + 255) % 256

/-- The read `states[i]` of the array `bool states[maxCount]`: `none` when the
index is outside the array. -/
def LocoFunctions.readState (f : LocoFunctions) (i : function_t) : Option Bool :=
  if h : i < LocoFunctions.maxCount then some (f.states ⟨i, h⟩) else none

/-- The loop of `LocoFunctions::Serialize`, for the indices `i` of the list:
each round appends `1` or `0` to `out`; `none` when a round reads outside the
array. -/
def LocoFunctions.SerializeLoop (f : LocoFunctions) : List function_t → String → Option String
  | [], out => some out
  | i :: rest, out =>
    match f.readState i with
    | some state => LocoFunctions.SerializeLoop f rest (out ++ (if state then "1" else "0"))
    | none => none

/-- The method `LocoFunctions::Serialize`: the string returned, or `none` when
the loop reads outside the array `states`. -/
def LocoFunctions.Serialize (f : LocoFunctions) : Option String :=
  LocoFunctions.SerializeLoop f (List.range f.count) ""

/-- The loop of `LocoFunctions::Deserialize`, for the indices `i` of the list:
`states[i] = serialized[i] == '1'`. The loop runs below `count`, which is at
most `maxCount` and at most the size of the string. -/
def LocoFunctions.DeserializeLoop (serialized : String) :
    List function_t → (Fin LocoFunctions.maxCount → Bool) → (Fin LocoFunctions.maxCount → Bool)
  | [], states => states
  | i :: rest, states =>
    LocoFunctions.DeserializeLoop serialized rest
      (fun j => if j.val = i then decide (serialized.data.getD i '0' = '1') else states j)

/-- The method `LocoFunctions::Deserialize`: `count = serialized.size()` keeps
the size modulo 256 (`count` is an `unsigned char`); then the count is cut to
`maxCount`. The strings of the model are strings of one-byte characters, so
that the size is the number of characters. -/
def LocoFunctions.Deserialize (f : LocoFunctions) (serialized : String) : LocoFunctions :=
  let count : function_t := serialized.length % 256
  let count := if count > LocoFunctions.maxCount then LocoFunctions.maxCount else count
  { count := count,
    states := LocoFunctions.DeserializeLoop serialized (List.range count) f.states }

/-- A call on a `LocoFunctions` object that changes it. -/
inductive LocoFunctionsCall where
  | SetNrOfFunctions (nr : function_t)
  | SetFunction (nr : function_t) (state : Bool)
  | Deserialize (serialized : String)

/-- Performs one call on a `LocoFunctions` object. The argument `nr` is an
`unsigned char`: the caller's value is kept modulo 256. -/
def LocoFunctions.call (f : LocoFunctions) : LocoFunctionsCall → LocoFunctions
  | .SetNrOfFunctions nr => f.SetNrOfFunctions (nr % 256)
  | .SetFunction nr state => f.SetFunction (nr % 256) state
  | .Deserialize serialized => f.Deserialize serialized

/-- The object that a sequence of calls leaves. -/
def LocoFunctions.run (f : LocoFunctions) : List LocoFunctionsCall → LocoFunctions
  | [] => f
  | c :: cs => LocoFunctions.run (f.call c) cs

/-! ## Candidate routes of a track (`src/datamodel/track.cpp`, `block.cpp`) -/

/-- The loop of `Track::getValidStreets` over the vector `streets`: a street
that passes `fromTrackDirection(objectID, locoDirection)` is pushed to the back
of `validStreets`. The class of the streets the vector points to is not among
the sources; its method is the parameter `fromTrackDirection`. -/
def Track.getValidStreetsLoop {σ : Type} (fromTrackDirection : σ → trackID_t → direction_t → Bool)
    (t : Track) : List σ → List σ → List σ
  | [], validStreets => validStreets
  | street :: rest, validStreets =>
    if fromTrackDirection street t.objectID t.locoDirection then
      Track.getValidStreetsLoop fromTrackDirection t rest (validStreets ++ [street])
    else
      Track.getValidStreetsLoop fromTrackDirection t rest validStreets

/-- The method `Track::getValidStreets`, with the member `streets` of the track
passed next to it: the returned flag, the vector `validStreets` after the call
and the member `streets` after the call. -/
def Track.getValidStreets {σ : Type} (fromTrackDirection : σ → trackID_t → direction_t → Bool)
    (t : Track) (streets : List σ) (validStreets : List σ) : Bool × List σ × List σ :=
  (true, Track.getValidStreetsLoop fromTrackDirection t streets validStreets, streets)

/-- The loop of `Block::getValidStreets`, with the method `fromBlockDirection`
of the streets as parameter. -/
def Block.getValidStreetsLoop {σ : Type} (fromBlockDirection : σ → objectID_t → direction_t → Bool)
    (b : Block) : List σ → List σ → List σ
  | [], validStreets => validStreets
  | street :: rest, validStreets =>
    if fromBlockDirection street b.objectID b.locoDirection then
      Block.getValidStreetsLoop fromBlockDirection b rest (validStreets ++ [street])
    else
      Block.getValidStreetsLoop fromBlockDirection b rest validStreets

/-- The method `Block::getValidStreets`. -/
def Block.getValidStreets {σ : Type} (fromBlockDirection : σ → objectID_t → direction_t → Bool)
    (b : Block) (streets : List σ) (validStreets : List σ) : Bool × List σ × List σ :=
  (true, Block.getValidStreetsLoop fromBlockDirection b streets validStreets, streets)

/-! ## Serialized entities -/

/-- A value of the argument map: a text, or a number written in decimal. -/
inductive ArgumentValue where
  | text (s : String)
  | number (n : Int)
  deriving DecidableEq, Repr

/-- Modelled from the spec: `ParseArguments` is not among the sources. "Each
object is serialized as a flat semicolon-delimited key=value string": the
string is modelled by the list of its `key=value` items, in the order in which
they are written, with the numbers kept as numbers; it is also the map
`ParseArguments` yields. -/
abbrev Arguments := List (String × ArgumentValue)

/-- The test `arguments.count(key)` of `std::map`. -/
def Arguments.count (arguments : Arguments) (key : String) : Bool :=
  (arguments.lookup key).isSome

/-- Modelled from the spec: `Utils::GetStringMapEntry` is not among the
sources. The entry as a text, the empty text when there is none ("missing keys
use documented defaults"). -/
def GetStringMapEntry (arguments : Arguments) (key : String) : String :=
  match arguments.lookup key with
  | some (.text s) => s
  | some (.number n) => toString n
  | none => ""

/-- Modelled from the spec: `Utils::GetIntegerMapEntry` is not among the
sources. The entry as a number, the default when there is none or when it is
not a number. -/
def GetIntegerMapEntry (arguments : Arguments) (key : String) (defaultValue : Int) : Int :=
  match arguments.lookup key with
  | some (.number n) => n
  | _ => defaultValue

/-- Modelled from the spec: `Utils::GetBoolMapEntry` is not among the sources.
The entry as a flag: a number other than 0, or the text `true`; the default
when there is no entry. -/
def GetBoolMapEntry (arguments : Arguments) (key : String) (defaultValue : Bool) : Bool :=
  match arguments.lookup key with
  | some (.number n) => n ≠ 0
  | some (.text s) => s = "true"
  | none => defaultValue

/-- The method `Street::Serialize`, without the output of
`LayoutItem::Serialize` and `LockableItem::Serialize`, which are not among the
sources: the item `objectType=Street` and the attributes that `Street.cpp`
writes itself. -/
def Street.Serialize (s : Street) : Arguments :=
  [("objectType", .text "Street"),
   ("delay", .number s.delay),
   ("pushpull", .number s.pushpull),
   ("mintrainlength", .number s.minTrainLength),
   ("maxtrainlength", .number s.maxTrainLength),
   ("lastused", .number s.lastUsed),
   ("counter", .number s.counter),
   ("automode", .number (boolToNat s.automode)),
   ("fromTrack", .number s.fromTrack),
   ("fromDirection", .number (boolToNat s.fromDirection)),
   ("toTrack", .number s.toTrack),
   ("toDirection", .number (boolToNat s.toDirection)),
   ("feedbackIdReduced", .number s.feedbackIdReduced),
   ("feedbackIdCreep", .number s.feedbackIdCreep),
   ("feedbackIdStop", .number s.feedbackIdStop),
   ("feedbackIdOver", .number s.feedbackIdOver),
   ("waitafterrelease", .number s.waitAfterRelease)]

/-- The method `Street::Deserialize` on the parsed arguments: the returned flag
and the route after the call. The calls `LayoutItem::Deserialize` and
`LockableItem::Deserialize`, not among the sources, write members of the base
classes and are left out. The constant `DefaultDelay` is not among the sources
and is a parameter. A cast to an unsigned type is `Int.toNat`: the widths of
the types are not among the sources. -/
def Street.Deserialize (defaultDelay : Int) (s : Street) (arguments : Arguments) :
    Bool × Street :=
  let objectType := GetStringMapEntry arguments "objectType"
  if objectType ≠ "Street" then
    (false, s)
  else
    let s1 : Street :=
      { s with
        delay := (GetIntegerMapEntry arguments "delay" defaultDelay).toNat,
        lastUsed := (GetIntegerMapEntry arguments "lastused" 0).toNat,
        counter := (GetIntegerMapEntry arguments "counter" 0).toNat,
        automode := GetBoolMapEntry arguments "automode" AutomodeNo }
    if s1.automode = AutomodeNo then
      (true, s1)
    else
      let pushpull := (GetIntegerMapEntry arguments "commuter" PushpullTypeBoth).toNat
      (true,
        { s1 with
          fromTrack := (GetIntegerMapEntry arguments "fromTrack" 0).toNat,
          fromDirection := GetBoolMapEntry arguments "fromDirection" DirectionRight,
          toTrack := (GetIntegerMapEntry arguments "toTrack" 0).toNat,
          toDirection := GetBoolMapEntry arguments "toDirection" DirectionLeft,
          feedbackIdReduced := (GetIntegerMapEntry arguments "feedbackIdReduced" 0).toNat,
          feedbackIdCreep := (GetIntegerMapEntry arguments "feedbackIdCreep" 0).toNat,
          feedbackIdStop := (GetIntegerMapEntry arguments "feedbackIdStop" 0).toNat,
          feedbackIdOver := (GetIntegerMapEntry arguments "feedbackIdOver" 0).toNat,
          pushpull := (GetIntegerMapEntry arguments "pushpull" pushpull).toNat,
          minTrainLength := (GetIntegerMapEntry arguments "mintrainlength" 0).toNat,
          maxTrainLength := (GetIntegerMapEntry arguments "maxtrainlength" 0).toNat,
          waitAfterRelease := (GetIntegerMapEntry arguments "waitafterrelease" 0).toNat })

/-- The number of a value of `enum lockState`. -/
def lockState_t.toNat : lockState_t → Nat
  | LockStateFree => 0
  | LockStateReserved => 1
  | LockStateSoftLocked => 2
  | LockStateHardLocked => 3

/-- The cast `static_cast<lockState_t>` of a number read from the arguments. A
number that names no value of the enumeration has no counterpart in the model:
the result is `none`. -/
def lockState_t.ofInt : Int → Option lockState_t
  | 0 => some LockStateFree
  | 1 => some LockStateReserved
  | 2 => some LockStateSoftLocked
  | 3 => some LockStateHardLocked
  | _ => none

/-- The call `stoi(arguments.at(key))`: `none` when there is no number to
convert (the call throws). -/
def Arguments.stoi (arguments : Arguments) (key : String) : Option Int :=
  match arguments.lookup key with
  | some (.number n) => some n
  | _ => none

/-- Modelled from the spec: `LayoutItem::serialize` (`layout_item.cpp`) is not
among the sources. "Each object is serialized as a flat semicolon-delimited
key=value string": the one member of `LayoutItem` that the model of `Track`
carries, the object id, is written under the key `objectID`. -/
def LayoutItem.serialize (t : Track) : Arguments :=
  [("objectID", .number t.objectID)]

/-- Modelled from the spec: `LayoutItem::deserialize` is not among the sources.
"Serialize ∘ deserialize is idempotent for every entity kind"; "missing keys
use documented defaults": the object id is read back from the key `objectID`
when the arguments have it as a number. -/
def LayoutItem.deserialize (t : Track) (arguments : Arguments) : Track :=
  match arguments.lookup "objectID" with
  | some (.number n) => { t with objectID := n.toNat }
  | _ => t

/-- The method `Block::serialize`. -/
def Block.serialize (b : Block) : Arguments :=
  [("objectType", .text "Block")] ++ LayoutItem.serialize b
    ++ [("lockState", .number b.lockState.toNat),
        ("locoID", .number b.locoID),
        ("locoDirection", .number (boolToNat b.locoDirection))]

/-- The method `Block::deserialize` on the parsed arguments: the returned flag
and the block after the call, or `none` when `stoi` throws or the lock state
read is outside the enumeration. -/
def Block.deserialize (b : Block) (arguments : Arguments) : Option (Bool × Block) :=
  let b0 := LayoutItem.deserialize b arguments
  if arguments.count "objectType" ∧ GetStringMapEntry arguments "objectType" = "Block" then
    let lockState : Option lockState_t :=
      if arguments.count "lockState" then
        (arguments.stoi "lockState").bind lockState_t.ofInt
      else some b0.lockState
    let locoID : Option locoID_t :=
      if arguments.count "locoID" then
        (arguments.stoi "locoID").map Int.toNat
      else some b0.locoID
    let locoDirection : Option direction_t :=
      if arguments.count "locoDirection" then
        (arguments.stoi "locoDirection").map (fun n => decide (n ≠ 0))
      else some b0.locoDirection
    match lockState, locoID, locoDirection with
    | some ls, some lo, some ld =>
      some (true, { b0 with lockState := ls, locoID := lo, locoDirection := ld })
    | _, _, _ => none
  else
    some (false, b0)

/-- The method `Track::serialize`. -/
def Track.serialize (t : Track) : Arguments :=
  [("objectType", .text "Track")] ++ LayoutItem.serialize t
    ++ [("lockState", .number t.lockState.toNat),
        ("locoID", .number t.locoID),
        ("locoDirection", .number (boolToNat t.locoDirection))]

/-- The method `Track::deserialize` on the parsed arguments: the returned flag
and the track after the call, or `none` when the lock state read is outside
the enumeration. -/
def Track.deserialize (t : Track) (arguments : Arguments) : Option (Bool × Track) :=
  let t0 := LayoutItem.deserialize t arguments
  if arguments.count "objectType" ∧ GetStringMapEntry arguments "objectType" = "Track" then
    match lockState_t.ofInt
      (GetIntegerMapEntry arguments "lockState" LockStateFree.toNat) with
    | some ls =>
      some (true,
        { t0 with
          lockState := ls,
          locoID := (GetIntegerMapEntry arguments "locoID" LocoNone).toNat,
          locoDirection := GetBoolMapEntry arguments "locoDirection" DirectionLeft })
    | none => none
  else
    some (false, t0)

/-- The method `Signal::Serialize`; the output of
`Accessory::SerializeWithoutType`, not among the sources, is a parameter. -/
def Signal.Serialize (accessorySerializeWithoutType : Arguments) : Arguments :=
  [("objectType", .text "Signal")] ++ accessorySerializeWithoutType

/-- The method `Signal::Deserialize` on the parsed arguments, for a signal
object of type `σ`; the method `Accessory::Deserialize`, not among the sources,
is a parameter. -/
def Signal.Deserialize {σ : Type} (accessoryDeserialize : σ → Arguments → Bool × σ)
    (signal : σ) (arguments : Arguments) : Bool × σ :=
  let objectType := GetStringMapEntry arguments "objectType"
  if objectType ≠ "Signal" then
    (false, signal)
  else
    accessoryDeserialize signal arguments

/-! ## Signal (`src/DataModel/Signal.cpp`) -/

/-- The call `manager->SignalState(controlType, this, signalState, force)` as
the manager receives it from a signal. The types of the control type and of
the signal state are not among the sources and are parameters. -/
structure SignalStateCall (κ ς : Type) where
  controlType : κ
  signalState : ς
  force : Bool
  deriving DecidableEq, Repr

/-- The method `Signal::Release`: the returned flag, the lockable part of the
signal after the call and the calls made on the manager. The constants
`ControlTypeInternal` and `SignalStateRed` are not among the sources and are
parameters. -/
def Signal.Release {κ ς : Type} (ControlTypeInternal : κ) (SignalStateRed : ς)
    (signal : LockableItem) (locoID : locoID_t) :
    Bool × LockableItem × List (SignalStateCall κ ς) :=
  let ret := LockableItem.Release signal locoID
  if ret.1 = false then
    (false, ret.2, [])
  else
    (true, ret.2,
      [{ controlType := ControlTypeInternal, signalState := SignalStateRed, force := true }])

/-! ## Hardware handler (`src/hardware/hardware_handler.cpp`) -/

/-- Identifier of a control (`typedef unsigned char controlID_t`). -/
abbrev controlID_t := Nat

/-- Protocol of a decoder (`typedef unsigned char protocol_t`). -/
abbrev protocol_t := Nat

/-- Address of a decoder (`typedef unsigned short address_t`). -/
abbrev address_t := Nat

/-- Speed of a loco (`typedef unsigned short speed_t`). -/
abbrev speed_t := Nat

/-- The value `ProtocolMM2` of `enum protocols`. -/
def ProtocolMM2 : protocol_t := 3

/-- The value `ProtocolDCC` of `enum protocols`. -/
def ProtocolDCC : protocol_t := 5

/-- A call that the handler makes on the loaded driver (`instance->go()`,
`instance->stop()`, `instance->locoSpeed(protocol, address, speed)`). -/
inductive DriverCall where
  | go
  | stop
  | locoSpeed (protocol : protocol_t) (address : address_t) (speed : speed_t)
  deriving DecidableEq, Repr

/-- The method `HardwareHandler::go`: the calls made on the driver. The macro
`CONTROL_ID_HARDWARE` is not among the sources and is a parameter. -/
def HardwareHandler.go (CONTROL_ID_HARDWARE : controlID_t) (controlID : controlID_t) :
    List DriverCall :=
  if controlID ≠ CONTROL_ID_HARDWARE then [DriverCall.go] else []

/-- The method `HardwareHandler::stop`. -/
def HardwareHandler.stop (CONTROL_ID_HARDWARE : controlID_t) (controlID : controlID_t) :
    List DriverCall :=
  if controlID ≠ CONTROL_ID_HARDWARE then [DriverCall.stop] else []

/-- The method `HardwareHandler::locoSpeed`: the calls made on the driver. The
macros `CONTROL_ID_HARDWARE` and `PROTOCOL_DCC` are not among the sources and
are parameters. The call `manager.getProtocolAddress(locoID, ...)` stands in a
comment in the source and is not executed: the local variables keep the values
they are initialised with. -/
def HardwareHandler.locoSpeed (CONTROL_ID_HARDWARE : controlID_t) (PROTOCOL_DCC : protocol_t)
    (controlID : controlID_t) (_locoID : locoID_t) (speed : speed_t) : List DriverCall :=
  if controlID ≠ CONTROL_ID_HARDWARE then
    let protocol : protocol_t := PROTOCOL_DCC
    let address : address_t := 1028
    [DriverCall.locoSpeed protocol address speed]
  else
    []

/-- The attributes of a locomotive that a speed command needs: the "protocol
address triple" of the locomotive, without the control id. -/
structure LocoAddress where
  protocol : protocol_t
  address : address_t
  deriving DecidableEq, Repr

/-! ## Speeds of a saved locomotive (`src/WebServer/WebClient.cpp`) -/

/-- The constant `MaxSpeed = 1023` of `datatypes.h`. -/
def MaxSpeed : speed_t := 1023

/-- The conversion of the `int` that `GetIntegerMapEntry` returns to the speed
type, which keeps the value modulo 65536: `datatypes.h` declares the speed
type as `unsigned short` (`typedef unsigned short speed_t`); the declaration of
its later name `Speed` is not among the sources. -/
def toSpeed (value : Int) : speed_t :=
  (value % 65536).toNat

/-- The four speeds that `WebClient::HandleLocoSave` hands to
`manager.LocoSave`. -/
structure LocoSpeeds where
  maxSpeed : speed_t
  travelSpeed : speed_t
  reducedSpeed : speed_t
  creepingSpeed : speed_t
  deriving DecidableEq, Repr

/-- The statements of `WebClient::HandleLocoSave` that compute the speeds of
the locomotive from the arguments of the request. The constants
`DefaultTravelSpeed`, `DefaultReducedSpeed` and `DefaultCreepingSpeed` are not
among the sources and are parameters. -/
def WebClient.HandleLocoSave (DefaultTravelSpeed DefaultReducedSpeed DefaultCreepingSpeed : speed_t)
    (arguments : Arguments) : LocoSpeeds :=
  let maxSpeed := toSpeed (GetIntegerMapEntry arguments "maxspeed" MaxSpeed)
  let travelSpeed := toSpeed (GetIntegerMapEntry arguments "travelspeed" DefaultTravelSpeed)
  let travelSpeed := if travelSpeed > maxSpeed then maxSpeed else travelSpeed
  let reducedSpeed := toSpeed (GetIntegerMapEntry arguments "reducedspeed" DefaultReducedSpeed)
  let reducedSpeed := if reducedSpeed > travelSpeed then travelSpeed else reducedSpeed
  let creepingSpeed := toSpeed (GetIntegerMapEntry arguments "creepingspeed" DefaultCreepingSpeed)
  let creepingSpeed := if creepingSpeed > reducedSpeed then reducedSpeed else creepingSpeed
  { maxSpeed := maxSpeed, travelSpeed := travelSpeed, reducedSpeed := reducedSpeed,
    creepingSpeed := creepingSpeed }

/-- The arguments of a request that submits the four speeds. -/
def speedArguments (maxspeed travelspeed reducedspeed creepingspeed : Int) : Arguments :=
  [("maxspeed", .number maxspeed), ("travelspeed", .number travelspeed),
   ("reducedspeed", .number reducedspeed), ("creepingspeed", .number creepingspeed)]

/-! ## Decoding of request arguments (`src/WebServer/WebClient.cpp`) -/

/-- The value of a `char` that holds the byte `b`; whether `char` is signed is
left to the implementation and is the parameter `signedChar`. -/
def charValue (signedChar : Bool) (b : Nat) : Int :=
  if signedChar ∧ b % 256 ≥ 128 then (b % 256 : Nat) - 256 else (b % 256 : Nat)

/-- The byte that a `char` holds after an `int` is stored in it. -/
def toByte (value : Int) : Nat :=
  (value % 256).toNat

/-- The conversion of an `int` to `char`. -/
def toChar (signedChar : Bool) (value : Int) : Int :=
  charValue signedChar (toByte value)

/-- The method `WebClient::ConvertHexToInt`, on the value of its `char`
argument. The character constants are those of ASCII. -/
def WebClient.ConvertHexToInt (signedChar : Bool) (c : Int) : Int :=
  let c :=
    if c ≥ 97 then toChar signedChar (c - (97 - 10))
    else if c ≥ 65 then toChar signedChar (c - (65 - 10))
    else if c ≥ 48 then toChar signedChar (c - 48)
    else c
  if c > 15 then 0 else c

/-- The call `argumentValue.find(c)` of `std::string`: the first position of
the byte, `none` for `npos`. -/
def bytesFind (c : Nat) : List Nat → Option Nat
  | [] => none
  | x :: rest => if x = c then some 0 else (bytesFind c rest).map (· + 1)

/-- One round of the loop of `WebClient::UrlDecode`: `none` when the loop is
left at `break`, otherwise the string after `replace(pos, 3, 1, c)`. -/
def WebClient.UrlDecodeRound (signedChar : Bool) (argumentValue : List Nat) :
    Option (List Nat) :=
  match bytesFind 37 argumentValue with
  | none => none
  | some pos =>
    if pos + 3 > argumentValue.length then
      none
    else
      let c := toChar signedChar
        (WebClient.ConvertHexToInt signedChar
            (charValue signedChar (argumentValue.getD (pos + 1) 0)) * 16
          + WebClient.ConvertHexToInt signedChar
            (charValue signedChar (argumentValue.getD (pos + 2) 0)))
      some (argumentValue.take pos ++ [toByte c] ++ argumentValue.drop (pos + 3))

/-- The method `WebClient::UrlDecode`: the string that the loop leaves. -/
def WebClient.UrlDecode (signedChar : Bool) (argumentValue : List Nat) : List Nat :=
  if h : (WebClient.UrlDecodeRound signedChar argumentValue).isSome then
    WebClient.UrlDecode signedChar ((WebClient.UrlDecodeRound signedChar argumentValue).get h)
  else
    argumentValue
termination_by argumentValue.length
decreasing_by
  have hround : ∀ next, WebClient.UrlDecodeRound signedChar argumentValue = some next →
      next.length < argumentValue.length := by
    intro next hnext
    unfold WebClient.UrlDecodeRound at hnext
    split at hnext
    · cases hnext
    · split_ifs at hnext with hlen
      cases hnext
      simp only [List.length_append, List.length_take, List.length_drop, List.length_singleton]
      omega
  exact hround _ (Option.some_get h).symm

/-- The ASCII code of the hexadecimal digit `d`, with the letters in upper or
in lower case. -/
def hexDigit (upper : Bool) (d : Nat) : Nat :=
  if d < 10 then 48 + d else if upper then 55 + d else 87 + d

/-! ## Updates for the web clients (`src/WebServer/WebServer.cpp`, `WebClient.cpp`) -/

/-- Sum of two `unsigned int` values. -/
def uintAdd (a b : Nat) : Nat :=
  (a + b) % 4294967296

/-- Difference of two `unsigned int` values. -/
def uintSub (a b : Nat) : Nat :=
  (a + (4294967296 - b % 4294967296)) % 4294967296

/-- The members of `WebServer` that hold the updates: the counter `updateID`
and the map `updates` from update ids to texts. Their declarations are not
among the sources; the counter is an `unsigned int` like the client's id that
it is compared with and assigned to. -/
structure WebServer where
  updateID : Nat
  updates : Nat → Option String

/-- The statements of the constructor of `WebServer` on these members:
`updateID(1)` and `updates[updateID] = GetStatus(...)`; the status text is a
parameter. -/
def WebServer.construct (started : String) : WebServer :=
  { updateID := 1, updates := fun k => if k = 1 then some started else none }

/-- The text that `WebServer::AddUpdate` builds in `ss`. -/
def WebServer.updateText (command status : String) : String :=
  "data: command=" ++ command ++ ";status=" ++ status ++ "\r\n\r\n"

/-- The method `WebServer::AddUpdate`. The constant `MaxUpdates` is not among
the sources and is a parameter. -/
def WebServer.AddUpdate (MaxUpdates : Nat) (w : WebServer) (command status : String) :
    WebServer :=
  let updateID := uintAdd w.updateID 1
  let updates : Nat → Option String :=
    fun k => if k = updateID then some (WebServer.updateText command status) else w.updates k
  { updateID := updateID,
    updates := fun k => if k = uintSub updateID MaxUpdates then none else updates k }

/-- The method `WebServer::NextUpdate`: the returned flag and the two reference
arguments `updateIDClient` and `s` after the call. -/
def WebServer.NextUpdate (MaxUpdates : Nat) (w : WebServer) (updateIDClient : Nat)
    (s : String) : Bool × Nat × String :=
  let updateIDClient :=
    if uintAdd updateIDClient MaxUpdates ≤ w.updateID then
      uintAdd (uintSub w.updateID MaxUpdates) 1
    else
      updateIDClient
  match w.updates updateIDClient with
  | some text => (true, updateIDClient, text)
  | none => (false, updateIDClient, s)

/-- What happens next while a client is served by `WebClient::HandleUpdater`:
the server adds an update (another thread calls `WebServer::AddUpdate`), or the
loop of `HandleUpdater` makes one round. Each of the two runs under the mutex
`updateMutex`. -/
inductive UpdaterEvent where
  | AddUpdate (command status : String)
  | round
  deriving DecidableEq, Repr

/-- A reply that `WebClient::HandleUpdater` sends: the id and the text of the
update. For the statements the record also keeps the id that the client asked
for (its id at the start of the loop or after the last `++updateID`) and the
server at the time of the call of `NextUpdate`. -/
structure UpdaterReply where
  updateID : Nat
  text : String
  requested : Nat
  server : WebServer

/-- The text of a reply: `id: <updateID>`, a line break, the text and two line
breaks. -/
def UpdaterReply.reply (r : UpdaterReply) : String :=
  "id: " ++ toString r.updateID ++ "\r\n" ++ r.text ++ "\r\n\r\n"

/-- The loop of `WebClient::HandleUpdater` from the first call of `NextUpdate`
on, interleaved with the updates that the server adds: the replies sent, in the
order in which they are sent. `updateID` is the local variable of the loop,
`requested` the id the client asked for. -/
def WebClient.HandleUpdaterLoop (MaxUpdates : Nat) :
    WebServer → Nat → Nat → List UpdaterEvent → List UpdaterReply
  | _, _, _, [] => []
  | server, updateID, requested, .AddUpdate command status :: events =>
    WebClient.HandleUpdaterLoop MaxUpdates (server.AddUpdate MaxUpdates command status)
      updateID requested events
  | server, updateID, requested, .round :: events =>
    let next := server.NextUpdate MaxUpdates updateID ""
    if next.1 = false then
      WebClient.HandleUpdaterLoop MaxUpdates server next.2.1 requested events
    else
      { updateID := next.2.1, text := next.2.2, requested := requested, server := server }
        :: WebClient.HandleUpdaterLoop MaxUpdates server (uintAdd next.2.1 1)
            (uintAdd next.2.1 1) events

/-- The method `WebClient::HandleUpdater` for a client whose header
`Last-Event-ID` gives the id `lastEventID`. -/
def WebClient.HandleUpdater (MaxUpdates : Nat) (server : WebServer) (lastEventID : Nat)
    (events : List UpdaterEvent) : List UpdaterReply :=
  WebClient.HandleUpdaterLoop MaxUpdates server lastEventID lastEventID events

/-- The item is owned by loco `L`: `L` is its owner and it is not free. -/
def LockableItem.OwnedBy (i : LockableItem) (L : locoID_t) : Prop :=
  i.locoID = L ∧ i.lockState ≠ LockStateFree

/-- The item is hard-locked with owner `L`. -/
def LockableItem.HardLockedBy (i : LockableItem) (L : locoID_t) : Prop :=
  i.lockState = LockStateHardLocked ∧ i.locoID = L

/-- The object with identifier `k` exists in the manager and satisfies `P`. -/
def Manager.Holds (m : Manager) (P : LockableItem → Prop) (k : ObjectIdentifier) : Prop :=
  ∃ li, m.objects k = some li ∧ P li

instance (i : LockableItem) (L : locoID_t) : Decidable (i.OwnedBy L) := by
  unfold LockableItem.OwnedBy; infer_instance

instance (i : LockableItem) (L : locoID_t) : Decidable (i.HardLockedBy L) := by
  unfold LockableItem.HardLockedBy; infer_instance

instance (m : Manager) (P : LockableItem → Prop) [DecidablePred P] (k : ObjectIdentifier) :
    Decidable (m.Holds P k) :=
  match h : m.objects k with
  | none => isFalse (by rintro ⟨li, hli, -⟩; rw [h] at hli; cases hli)
  | some li =>
    if hp : P li then isTrue ⟨li, h, hp⟩
    else isFalse (by rintro ⟨li2, hli, hp2⟩; rw [h] at hli; cases hli; exact hp hp2)

/-- An object that loco `L` does not hold: it does not exist, or it is free
with no owner, or it is not free and owned by a loco other than `L`. -/
def NotHeldBy (L : locoID_t) : Option LockableItem → Prop
  | none => True
  | some li =>
    (li.lockState = LockStateFree ∧ li.locoID = LocoNone)
      ∨ (li.lockState ≠ LockStateFree ∧ li.locoID ≠ L)

instance (L : locoID_t) (o : Option LockableItem) : Decidable (NotHeldBy L o) := by
  cases o <;> unfold NotHeldBy <;> infer_instance

/-- The value `cur` stored under a key is the value `pre`, or `pre` is a free
object with no owner and `cur` is that object reserved by `L`. -/
def ReservedFrom (L : locoID_t) (pre cur : Option LockableItem) : Prop :=
  cur = pre
    ∨ (pre = some { lockState := LockStateFree, locoID := LocoNone }
      ∧ cur = some { lockState := LockStateReserved, locoID := L })

/-- The identifier of the destination track of a route. -/
def Street.toTrackIdentifier (s : Street) : ObjectIdentifier :=
  { objectType := ObjectTypeTrack, objectID := s.toTrack }

/-- A route from track 1 to track 2 with no relations, free, with the given
automode flag. -/
def plainStreet (automode : automode_t) : Street :=
  { lockState := LockStateFree, locoID := LocoNone, delay := 0,
    pushpull := PushpullTypeBoth, minTrainLength := 0, maxTrainLength := 0,
    lastUsed := 0, counter := 0, automode := automode, fromTrack := 1,
    fromDirection := DirectionRight, toTrack := 2, toDirection := DirectionLeft,
    feedbackIdReduced := 0, feedbackIdCreep := 0, feedbackIdStop := 0,
    feedbackIdOver := 0, waitAfterRelease := 0, relations := [] }

/-- Scenario S3 of the spec: the automode route `R` from track 1 to track 2
with `at_lock = [Sw1 (priority 1), Sw2 (priority 2)]`. -/
def rollbackStreet : Street :=
  { plainStreet AutomodeYes with
    relations := [{ objectType2 := ObjectTypeSwitch, objectID2 := 1, priority := 1, data := 0 },
                  { objectType2 := ObjectTypeSwitch, objectID2 := 2, priority := 2, data := 1 }] }

/-- The layout of scenario S3 with switch 1 in the given state: the booster is
on, track 2 is free, switch 2 is reserved by loco 2; nothing else exists. -/
def rollbackManagerWith (sw1 : LockableItem) : Manager :=
  { booster := BoosterGo,
    objects := fun k =>
      if k = { objectType := ObjectTypeTrack, objectID := 2 } then
        some { lockState := LockStateFree, locoID := LocoNone }
      else if k = { objectType := ObjectTypeSwitch, objectID := 1 } then
        some sw1
      else if k = { objectType := ObjectTypeSwitch, objectID := 2 } then
        some { lockState := LockStateReserved, locoID := 2 }
      else none }

/-- Scenario S3 of the spec: the booster is on, track 2 and switch 1 are free,
switch 2 is reserved by loco 2; nothing else exists. -/
def rollbackManager : Manager :=
  rollbackManagerWith { lockState := LockStateFree, locoID := LocoNone }

/-- Scenario S2 of the spec: the automode route `R` from track 1 to track 2
with `at_lock = [S1:Straight]`. -/
def contentionStreet : Street :=
  { plainStreet AutomodeYes with
    relations := [{ objectType2 := ObjectTypeSwitch, objectID2 := 1, priority := 1, data := 0 }] }

/-- Scenario S2 of the spec: the booster is on, track 2 and switch 1 are free;
nothing else exists. -/
def contentionManager : Manager :=
  { booster := BoosterGo,
    objects := fun k =>
      if k = { objectType := ObjectTypeTrack, objectID := 2 } then
        some { lockState := LockStateFree, locoID := LocoNone }
      else if k = { objectType := ObjectTypeSwitch, objectID := 1 } then
        some { lockState := LockStateFree, locoID := LocoNone }
      else none }

/-- Scenario S2 after loco 1 has reserved the route: the route and the manager
left by that call. -/
def reservedScenario : Street × Manager :=
  (contentionStreet.Reserve contentionManager 1).2

/-- A route from track 1 to track 2 with no relations and the given automode
flag, reserved by loco 1. -/
def reservedStreet (automode : automode_t) : Street :=
  { plainStreet automode with lockState := LockStateReserved, locoID := 1 }

/-- A manager with the booster on that holds one object, track 2, in the given
state. -/
def oneTrackManager (track : LockableItem) : Manager :=
  { booster := BoosterGo,
    objects := fun k =>
      if k = { objectType := ObjectTypeTrack, objectID := 2 } then some track else none }

/-- The registry after the relations of the list have been executed one after
the other, in list order, whatever each call returns. -/
def Street.ExecuteAll (m : Manager) (delay : Nat) (rs : List Relation) : Manager :=
  rs.foldl (fun m2 r => (Relation.Execute m2 r delay).2) m

/-- Scenario S2 after loco 1 has reserved the route, with the booster switched
off afterwards. -/
def stoppedManager : Manager :=
  { reservedScenario.2 with booster := BoosterStop }

/-- Scenario S2 after loco 1 has reserved the route and loco 2 has then come to
own switch 1: the route and the manager before a call of `Lock` that fails at
the relation. -/
def lostSwitchScenario : Street × Manager :=
  (reservedScenario.1,
    reservedScenario.2.SetObject { objectType := ObjectTypeSwitch, objectID := 1 }
      { lockState := LockStateReserved, locoID := 2 })

/-- A route from track 1 to track 2, not in automode, whose only relation
targets track 2 itself. -/
def aliasStreet : Street :=
  { plainStreet AutomodeNo with
    relations := [{ objectType2 := ObjectTypeTrack, objectID2 := 2, priority := 1, data := 0 }] }

/-- The route `aliasStreet` and the manager after loco 1 has reserved it, with
track 2 free before. -/
def aliasReserved : Street × Manager :=
  (aliasStreet.Reserve (oneTrackManager LockableItem.construct) 1).2

/-- The route `aliasStreet` and the manager after loco 1 has reserved and
locked it. -/
def aliasLocked : Street × Manager :=
  (aliasReserved.1.Lock aliasReserved.2 1).2

/-- A route without automode, from track 5 to track 6, with push-pull policy
Only, train lengths from 10 to 20 and the four feedback ids 1 to 4. -/
def manualStreet : Street :=
  { plainStreet AutomodeNo with
    delay := 250, pushpull := PushpullTypeOnly, minTrainLength := 10, maxTrainLength := 20,
    lastUsed := 1000, counter := 3, fromTrack := 5, toTrack := 6,
    feedbackIdReduced := 1, feedbackIdCreep := 2, feedbackIdStop := 3, feedbackIdOver := 4,
    waitAfterRelease := 7 }

/-- Scenario S3 with the route already hard-locked by loco 1. -/
def hardLockedStreet : Street :=
  { rollbackStreet with lockState := LockStateHardLocked, locoID := 1 }

/-- Scenario S3 after loco 1 has reserved the route, the destination track and
switch 1, with switch 2 still reserved by loco 2. -/
def lockRollbackManager : Manager :=
  { booster := BoosterGo,
    objects := fun k =>
      if k = { objectType := ObjectTypeTrack, objectID := 2 } then
        some { lockState := LockStateReserved, locoID := 1 }
      else if k = { objectType := ObjectTypeSwitch, objectID := 1 } then
        some { lockState := LockStateReserved, locoID := 1 }
      else if k = { objectType := ObjectTypeSwitch, objectID := 2 } then
        some { lockState := LockStateReserved, locoID := 2 }
      else none }

/-! ## Proof devices: a call on one object of the registry, and the two loops -/

/-- Calls the operation `f` on the target of the relation and records the
call: the call fails, and nothing is recorded, when the target does not exist.
`Relation.Reserve`, `Relation.Lock` and `Relation.Release` are instances of
it. -/
def Manager.CallOn (m : Manager) (relation : Relation)
    (f : LockableItem → Bool × LockableItem) : Bool × Manager :=
  match m.objects relation.target with
  | none => (false, m)
  | some lockable =>
    ((f lockable).1, (m.Called relation).SetObject relation.target (f lockable).2)

/-- Calls `f` on the targets of the relations, in list order, and stops at the
first call that fails: the shape of the loops of `Street::Reserve` and
`Street::Lock`. -/
def Manager.CallUntilFailure (f : LockableItem → Bool × LockableItem) (m : Manager) :
    List Relation → Bool × Manager
  | [] => (true, m)
  | relation :: rest =>
    if (m.CallOn relation f).1 = false then
      (false, (m.CallOn relation f).2)
    else
      Manager.CallUntilFailure f (m.CallOn relation f).2 rest

/-- Calls `f` on the targets of all the relations, in list order: the shape of
the loop of `Street::ReleaseInternal`. -/
def Manager.CallAll (f : LockableItem → Bool × LockableItem) (m : Manager) :
    List Relation → Manager
  | [] => m
  | relation :: rest => Manager.CallAll f (m.CallOn relation f).2 rest

/-! ## The lock protocol of a single item -/

/-- C1: `reserve(L)` on a block or track. A free item is reserved for `L` and
the call returns true; an item that is not free and whose owner is `L` is left
as it is (a hard-locked item stays hard-locked) and the call returns true; an
item that is not free and owned by another loco is left as it is and the call
returns false. -/
theorem reserve_contract (k : ItemKind) (i : Track) (L : locoID_t) :
    (i.lockState = LockStateFree →
      (k.reserve i L).1 = true ∧ (k.reserve i L).2.lockState = LockStateReserved
        ∧ (k.reserve i L).2.locoID = L) ∧
    (i.lockState ≠ LockStateFree → i.locoID = L →
      (k.reserve i L).1 = true ∧ (k.reserve i L).2.lockState = i.lockState
        ∧ (k.reserve i L).2.locoID = i.locoID) ∧
    (i.lockState ≠ LockStateFree → i.locoID ≠ L →
      (k.reserve i L).1 = false ∧ (k.reserve i L).2.lockState = i.lockState
        ∧ (k.reserve i L).2.locoID = i.locoID) := by
  cases k <;> simp only [ItemKind.reserve, Block.reserve, Track.reserve] <;>
    refine ⟨?_, ?_, ?_⟩ <;> intros <;> split_ifs <;> simp_all

/-- Instances of C1: a free track, a track hard-locked by loco 7 and a block
reserved by loco 3, each asked for by loco 7. -/
theorem reserve_contract_witness :
    ((ItemKind.track.reserve (Track.construct 1) 7).1 = true
      ∧ (ItemKind.track.reserve (Track.construct 1) 7).2.lockState = LockStateReserved
      ∧ (ItemKind.track.reserve (Track.construct 1) 7).2.locoID = 7) ∧
    ((ItemKind.track.reserve ⟨1, LockStateHardLocked, 7, false⟩ 7).1 = true
      ∧ (ItemKind.track.reserve ⟨1, LockStateHardLocked, 7, false⟩ 7).2.lockState
          = LockStateHardLocked
      ∧ (ItemKind.track.reserve ⟨1, LockStateHardLocked, 7, false⟩ 7).2.locoID = 7) ∧
    ((ItemKind.block.reserve ⟨1, LockStateReserved, 3, false⟩ 7).1 = false
      ∧ (ItemKind.block.reserve ⟨1, LockStateReserved, 3, false⟩ 7).2.lockState
          = LockStateReserved
      ∧ (ItemKind.block.reserve ⟨1, LockStateReserved, 3, false⟩ 7).2.locoID = 3) :=
  ⟨(reserve_contract ItemKind.track (Track.construct 1) 7).1 (by decide),
   (reserve_contract ItemKind.track ⟨1, LockStateHardLocked, 7, false⟩ 7).2.1
     (by decide) (by decide),
   (reserve_contract ItemKind.block ⟨1, LockStateReserved, 3, false⟩ 7).2.2
     (by decide) (by decide)⟩

/-- C2: `lock(L)` on a block or track returns true exactly when the item is
reserved and its owner is `L`; then the item is hard-locked with owner `L`;
when it returns false the item is left as it is. -/
theorem lock_contract (k : ItemKind) (i : Track) (L : locoID_t) :
    ((k.lock i L).1 = true ↔ (i.lockState = LockStateReserved ∧ i.locoID = L)) ∧
    ((k.lock i L).1 = true →
      (k.lock i L).2.lockState = LockStateHardLocked ∧ (k.lock i L).2.locoID = L) ∧
    ((k.lock i L).1 = false → (k.lock i L).2 = i) := by
  cases k <;> simp only [ItemKind.lock, Block.lock, Track.lock] <;>
    refine ⟨?_, ?_, ?_⟩ <;> split_ifs <;> simp_all

/-- Instances of C2: a track reserved by loco 7 is hard-locked by `lock(7)`,
and `lock(7)` leaves a free block as it is. -/
theorem lock_contract_witness :
    ((ItemKind.track.lock ⟨1, LockStateReserved, 7, false⟩ 7).2.lockState
        = LockStateHardLocked
      ∧ (ItemKind.track.lock ⟨1, LockStateReserved, 7, false⟩ 7).2.locoID = 7) ∧
    (ItemKind.block.lock (Block.construct 2) 7).2 = Block.construct 2 :=
  ⟨(lock_contract ItemKind.track ⟨1, LockStateReserved, 7, false⟩ 7).2.1 (by decide),
   (lock_contract ItemKind.block (Block.construct 2) 7).2.2 (by decide)⟩

/-- C3: `release(L)` on a block or track. On a free item it returns true and
changes nothing. On an item that is not free it returns true exactly when the
owner is `L`, and then the item is free with owner `LocoNone`; when the owner
is another loco it returns false and the item is left as it is. -/
theorem release_contract (k : ItemKind) (i : Track) (L : locoID_t) :
    (i.lockState = LockStateFree → (k.release i L).1 = true ∧ (k.release i L).2 = i) ∧
    (i.lockState ≠ LockStateFree → ((k.release i L).1 = true ↔ i.locoID = L)) ∧
    (i.lockState ≠ LockStateFree → i.locoID = L →
      (k.release i L).2.lockState = LockStateFree ∧ (k.release i L).2.locoID = LocoNone) ∧
    (i.lockState ≠ LockStateFree → i.locoID ≠ L →
      (k.release i L).1 = false ∧ (k.release i L).2 = i) := by
  cases k <;> simp only [ItemKind.release, Block.release, Track.release] <;>
    refine ⟨?_, ?_, ?_, ?_⟩ <;> intros <;> split_ifs <;> simp_all

/-- Instances of C3: a free track, a track hard-locked by loco 7 released by
loco 7, and a block hard-locked by loco 3 that loco 7 tries to release. -/
theorem release_contract_witness :
    ((ItemKind.track.release (Track.construct 1) 7).1 = true
      ∧ (ItemKind.track.release (Track.construct 1) 7).2 = Track.construct 1) ∧
    ((ItemKind.track.release ⟨1, LockStateHardLocked, 7, false⟩ 7).1 = true ↔ 7 = 7) ∧
    ((ItemKind.track.release ⟨1, LockStateHardLocked, 7, false⟩ 7).2.lockState
        = LockStateFree
      ∧ (ItemKind.track.release ⟨1, LockStateHardLocked, 7, false⟩ 7).2.locoID = LocoNone) ∧
    ((ItemKind.block.release ⟨1, LockStateHardLocked, 3, false⟩ 7).1 = false
      ∧ (ItemKind.block.release ⟨1, LockStateHardLocked, 3, false⟩ 7).2
          = ⟨1, LockStateHardLocked, 3, false⟩) :=
  ⟨(release_contract ItemKind.track (Track.construct 1) 7).1 (by decide),
   (release_contract ItemKind.track ⟨1, LockStateHardLocked, 7, false⟩ 7).2.1 (by decide),
   (release_contract ItemKind.track ⟨1, LockStateHardLocked, 7, false⟩ 7).2.2.1
     (by decide) (by decide),
   (release_contract ItemKind.block ⟨1, LockStateHardLocked, 3, false⟩ 7).2.2.2
     (by decide) (by decide)⟩

/-- C4, as stated, fails: a newly constructed block or track satisfies the
invariant, and `reserve(LocoNone)` on it returns true and leaves it reserved
with owner `LocoNone`, which breaks the invariant. -/
theorem lock_invariant_broken_by_reserve_none :
    (ItemKind.track.construct 1).LockInvariant
      ∧ (ItemKind.track.reserve (ItemKind.track.construct 1) LocoNone).1 = true
      ∧ ¬ (ItemKind.track.reserve (ItemKind.track.construct 1) LocoNone).2.LockInvariant
      ∧ (ItemKind.block.construct 1).LockInvariant
      ∧ (ItemKind.block.reserve (ItemKind.block.construct 1) LocoNone).1 = true
      ∧ ¬ (ItemKind.block.reserve (ItemKind.block.construct 1) LocoNone).2.LockInvariant := by
  decide

/-- C4, amended: the invariant "free exactly when the owner is `LocoNone`"
holds for a newly constructed block or track; `lock` and `release` preserve it
for every loco id, `LocoNone` included, and `reserve` preserves it for every
loco id other than `LocoNone`. -/
theorem lock_invariant_preserved (k : ItemKind) (id : objectID_t) (i : Track)
    (L R : locoID_t) (hinv : i.LockInvariant) (hR : R ≠ LocoNone) :
    (k.construct id).LockInvariant
      ∧ (k.lock i L).2.LockInvariant
      ∧ (k.release i L).2.LockInvariant
      ∧ (k.reserve i R).2.LockInvariant := by
  unfold Track.LockInvariant at *
  refine ⟨?_, ?_, ?_, ?_⟩
  · cases k <;> simp [ItemKind.construct, Block.construct, Track.construct, LocoNone]
  · cases k <;> simp only [ItemKind.lock, Block.lock, Track.lock] <;>
      split_ifs <;> simp_all
  · cases k <;> simp only [ItemKind.release, Block.release, Track.release] <;>
      split_ifs <;> simp_all
  · cases k <;> simp only [ItemKind.reserve, Block.reserve, Track.reserve] <;>
      split_ifs <;> simp_all

/-- Instance of amended C4: a track reserved by loco 4, with `lock` and
`release` called for `LocoNone` and `reserve` for loco 9. -/
theorem lock_invariant_preserved_witness :
    (ItemKind.track.construct 1).LockInvariant
      ∧ (ItemKind.track.lock ⟨1, LockStateReserved, 4, false⟩ LocoNone).2.LockInvariant
      ∧ (ItemKind.track.release ⟨1, LockStateReserved, 4, false⟩ LocoNone).2.LockInvariant
      ∧ (ItemKind.track.reserve ⟨1, LockStateReserved, 4, false⟩ 9).2.LockInvariant :=
  lock_invariant_preserved ItemKind.track 1 ⟨1, LockStateReserved, 4, false⟩ LocoNone 9
    (by decide) (by decide)

/-- One call changes the owner of an item only when the item is free before
the call or free after it. -/
theorem call_owner_change (k : ItemKind) (j : Track) (c : LockCall)
    (h : (k.call j c).2.locoID ≠ j.locoID) :
    j.lockState = LockStateFree ∨ (k.call j c).2.lockState = LockStateFree := by
  revert h
  cases k <;> cases c <;>
    simp only [ItemKind.call, ItemKind.reserve, ItemKind.lock, ItemKind.release,
      Block.reserve, Block.lock, Block.release, Track.reserve, Track.lock, Track.release] <;>
    split_ifs <;> simp_all

/-- On an item hard-locked by `L1`, every call other than a successful
`release(L1)` leaves the item as it is, and returns false when it is made by
another loco. -/
theorem call_on_hardlocked (k : ItemKind) (j : Track) (c : LockCall) (L1 : locoID_t)
    (hs : j.lockState = LockStateHardLocked) (ho : j.locoID = L1)
    (hc : ¬ (c = LockCall.release L1 ∧ (k.call j c).1 = true)) :
    (k.call j c).2 = j ∧ (c.loco ≠ L1 → (k.call j c).1 = false) := by
  revert hc
  cases k <;> cases c <;>
    simp only [ItemKind.call, ItemKind.reserve, ItemKind.lock, ItemKind.release,
      Block.reserve, Block.lock, Block.release, Track.reserve, Track.lock, Track.release,
      LockCall.loco] <;>
    split_ifs <;> simp_all

/-- A successful `lock(L1)` leaves the item hard-locked with owner `L1`. -/
theorem lock_true_hardlocked (k : ItemKind) (i : Track) (L1 : locoID_t)
    (h : (k.lock i L1).1 = true) :
    (k.lock i L1).2.lockState = LockStateHardLocked ∧ (k.lock i L1).2.locoID = L1 := by
  revert h
  cases k <;> simp only [ItemKind.lock, Block.lock, Track.lock] <;>
    split_ifs <;> simp_all

/-- C5: take a block or track on which `lock(L1)` has just succeeded and any
sequence of calls made on it afterwards that contains no successful
`release(L1)`. After every call of the sequence the item is hard-locked with
owner `L1`, and every call of the sequence made by a loco other than `L1`
returned false. Hence, over any sequence of calls on any item, the owner at the
end differs from the owner at the start only if the item was free at the start
or after one of the calls. -/
theorem hardlock_exclusive (k : ItemKind) (i : Track) (L1 : locoID_t)
    (calls : List LockCall)
    (hlock : (k.lock i L1).1 = true)
    (hrel : ∀ e ∈ k.trace (k.lock i L1).2 calls,
      ¬ (e.call = LockCall.release L1 ∧ e.ret = true)) :
    (∀ e ∈ k.trace (k.lock i L1).2 calls,
      e.after.lockState = LockStateHardLocked ∧ e.after.locoID = L1
        ∧ (e.call.loco ≠ L1 → e.ret = false)) ∧
    (∀ (j : Track) (cs : List LockCall), (k.run j cs).locoID ≠ j.locoID →
      j.lockState = LockStateFree ∨ ∃ e ∈ k.trace j cs, e.after.lockState = LockStateFree) := by
  constructor
  · have hstart : (k.lock i L1).2.lockState = LockStateHardLocked
        ∧ (k.lock i L1).2.locoID = L1 := lock_true_hardlocked k i L1 hlock
    generalize (k.lock i L1).2 = j at hrel hstart
    induction calls generalizing j with
    | nil => intro e he; simp [ItemKind.trace] at he
    | cons c cs ih =>
      have hc : ¬ (c = LockCall.release L1 ∧ (k.call j c).1 = true) :=
        hrel ⟨c, (k.call j c).1, (k.call j c).2⟩ (by simp [ItemKind.trace])
      obtain ⟨hsame, hret⟩ := call_on_hardlocked k j c L1 hstart.1 hstart.2 hc
      intro e he
      simp only [ItemKind.trace, List.mem_cons] at he
      rcases he with he | he
      · subst he
        simp only [hsame]
        exact ⟨hstart.1, hstart.2, hret⟩
      · refine ih j ?_ hstart e (by rw [hsame] at he; exact he)
        intro e2 he2
        exact hrel e2 (by simp only [ItemKind.trace, List.mem_cons, hsame]; exact Or.inr he2)
  · intro j cs
    induction cs generalizing j with
    | nil => intro h; exact absurd rfl h
    | cons c cs ih =>
      intro h
      simp only [ItemKind.run] at h
      by_cases hstep : (k.call j c).2.locoID = j.locoID
      · rw [← hstep] at h
        rcases ih (k.call j c).2 h with hfree | ⟨e, he, hfree⟩
        · exact Or.inr ⟨⟨c, (k.call j c).1, (k.call j c).2⟩,
            by simp [ItemKind.trace], hfree⟩
        · exact Or.inr ⟨e, by simp only [ItemKind.trace, List.mem_cons]; exact Or.inr he,
            hfree⟩
      · rcases call_owner_change k j c hstep with hfree | hfree
        · exact Or.inl hfree
        · exact Or.inr ⟨⟨c, (k.call j c).1, (k.call j c).2⟩,
            by simp [ItemKind.trace], hfree⟩

/-- Instance of C5: track 1, reserved by loco 1, is locked by loco 1; then
loco 2 tries `reserve`, `lock` and `release`, and loco 1 calls `reserve`. -/
theorem hardlock_exclusive_witness :
    (∀ e ∈ ItemKind.track.trace
        (ItemKind.track.lock ⟨1, LockStateReserved, 1, false⟩ 1).2
        [LockCall.reserve 2, LockCall.lock 2, LockCall.release 2, LockCall.reserve 1],
      e.after.lockState = LockStateHardLocked ∧ e.after.locoID = 1
        ∧ (e.call.loco ≠ 1 → e.ret = false)) ∧
    (∀ (j : Track) (cs : List LockCall), (ItemKind.track.run j cs).locoID ≠ j.locoID →
      j.lockState = LockStateFree
        ∨ ∃ e ∈ ItemKind.track.trace j cs, e.after.lockState = LockStateFree) :=
  hardlock_exclusive ItemKind.track ⟨1, LockStateReserved, 1, false⟩ 1
    [LockCall.reserve 2, LockCall.lock 2, LockCall.release 2, LockCall.reserve 1]
    (by decide) (by decide)

/-! ## Route admissibility -/

/-- C6, as stated, fails: the automode route from track 1, asked about track 2
for a push-pull loco of length 10 that is allowed to turn, is refused by
`FromTrackDirection`, although the conditions (a) to (d) of the claim hold
(condition (b) through "allow_turn is true and the loco is pushpull"). -/
theorem fromTrackDirection_other_track_refused :
    (plainStreet AutomodeYes).FromTrackDirection 2 DirectionRight
        { length := 10, pushpull := true } true = false
      ∧ ((plainStreet AutomodeYes).automode = true
        ∧ (((plainStreet AutomodeYes).fromTrack = 2
              ∧ (plainStreet AutomodeYes).fromDirection = DirectionRight)
            ∨ (true = true ∧ (Loco.mk 10 true).pushpull = true))
        ∧ ((plainStreet AutomodeYes).minTrainLength ≤ (Loco.mk 10 true).length
            ∧ ((plainStreet AutomodeYes).maxTrainLength = 0
              ∨ (Loco.mk 10 true).length ≤ (plainStreet AutomodeYes).maxTrainLength))
        ∧ ((plainStreet AutomodeYes).pushpull = PushpullTypeBoth
            ∨ ((plainStreet AutomodeYes).pushpull = PushpullTypeOnly
              ∧ (Loco.mk 10 true).pushpull = true)
            ∨ ((plainStreet AutomodeYes).pushpull = PushpullTypeNo
              ∧ (Loco.mk 10 true).pushpull = false))) := by
  decide

/-- C6, amended: `FromTrackDirection` returns true if and only if (a) the
automode flag of the route is set; (b) the from track of the route is the
requested track, and the from orientation is the requested orientation or
`allowLocoTurn` is true and the loco is pushpull; (c) the loco length is at
least `minTrainLength` and, unless `maxTrainLength` is 0, at most
`maxTrainLength`; (d) the pushpull policy is Both, or Only with a pushpull
loco, or No with a loco that is not pushpull. -/
theorem fromTrackDirection_iff (s : Street) (trackID : trackID_t)
    (trackDirection : direction_t) (loco : Loco) (allowLocoTurn : Bool) :
    s.FromTrackDirection trackID trackDirection loco allowLocoTurn = true ↔
      (s.automode = true
        ∧ (s.fromTrack = trackID
            ∧ (s.fromDirection = trackDirection
              ∨ (allowLocoTurn = true ∧ loco.pushpull = true)))
        ∧ (s.minTrainLength ≤ loco.length
            ∧ (s.maxTrainLength = 0 ∨ loco.length ≤ s.maxTrainLength))
        ∧ (s.pushpull = PushpullTypeBoth
            ∨ (s.pushpull = PushpullTypeOnly ∧ loco.pushpull = true)
            ∨ (s.pushpull = PushpullTypeNo ∧ loco.pushpull = false))) := by
  have hpp : (s.pushpull ≠ boolToNat loco.pushpull ∧ s.pushpull ≠ PushpullTypeBoth) ↔
      ¬ (s.pushpull = PushpullTypeBoth
          ∨ (s.pushpull = PushpullTypeOnly ∧ loco.pushpull = true)
          ∨ (s.pushpull = PushpullTypeNo ∧ loco.pushpull = false)) := by
    cases hl : loco.pushpull <;>
      simp [boolToNat, PushpullTypeBoth, PushpullTypeOnly, PushpullTypeNo] <;> tauto
  have hlen : (s.maxTrainLength > 0 ∧ loco.length > s.maxTrainLength) ↔
      ¬ (s.maxTrainLength = 0 ∨ loco.length ≤ s.maxTrainLength) := by
    constructor
    · rintro ⟨h1, h2⟩ h3
      omega
    · intro h
      omega
  simp only [Street.FromTrackDirection, Loco.GetLength, Loco.GetPushpull]
  by_cases h1 : s.automode = true
  swap
  · simp [h1]
  by_cases h2 : s.fromTrack = trackID
  swap
  · simp [h1, h2]
  by_cases h3 : loco.length < s.minTrainLength
  · simp [h1, h2, h3]
  by_cases h4 : s.maxTrainLength > 0 ∧ loco.length > s.maxTrainLength
  · have h4n := hlen.mp h4
    rw [if_neg (by simp [h1]), if_neg (by simp [h2]), if_neg h3, if_pos h4]
    simp only [Bool.false_eq_true, false_iff]
    rintro ⟨-, -, ⟨-, h⟩, -⟩
    exact h4n h
  by_cases h5 : s.pushpull ≠ boolToNat loco.pushpull ∧ s.pushpull ≠ PushpullTypeBoth
  · have h5n := hpp.mp h5
    rw [if_neg (by simp [h1]), if_neg (by simp [h2]), if_neg h3, if_neg h4, if_pos h5]
    simp only [Bool.false_eq_true, false_iff]
    rintro ⟨-, -, -, h⟩
    exact h5n h
  have h3p : s.minTrainLength ≤ loco.length := Nat.le_of_not_lt h3
  have h4p : s.maxTrainLength = 0 ∨ loco.length ≤ s.maxTrainLength :=
    Classical.not_not.mp (fun h => h4 (hlen.mpr h))
  have h5p : s.pushpull = PushpullTypeBoth
      ∨ (s.pushpull = PushpullTypeOnly ∧ loco.pushpull = true)
      ∨ (s.pushpull = PushpullTypeNo ∧ loco.pushpull = false) :=
    Classical.not_not.mp (fun h => h5 (hpp.mpr h))
  rw [if_neg (by simp [h1]), if_neg (by simp [h2]), if_neg h3, if_neg h4, if_neg h5]
  by_cases h6 : allowLocoTurn = true ∧ loco.pushpull = true
  · rw [if_pos h6]
    simp only [true_iff]
    exact ⟨h1, ⟨h2, Or.inr h6⟩, ⟨h3p, h4p⟩, h5p⟩
  · rw [if_neg h6]
    by_cases h7 : s.fromDirection = trackDirection
    · have hb : (s.fromDirection == trackDirection) = true := by simp [h7]
      rw [if_pos hb]
      exact ⟨fun _ => ⟨h1, ⟨h2, Or.inl h7⟩, ⟨h3p, h4p⟩, h5p⟩, fun _ => rfl⟩
    · have hb : (s.fromDirection == trackDirection) = false := by simpa using h7
      simp only [hb, Bool.false_eq_true, if_false, false_iff]
      rintro ⟨-, ⟨-, h | h⟩, -, -⟩
      · exact h7 h
      · exact h6 h

/-! ## Lemmas on the lock protocol of `LockableItem` -/

theorem LockableItem.Reserve_true_owned (i : LockableItem) (L : locoID_t)
    (h : (i.Reserve L).1 = true) : (i.Reserve L).2.OwnedBy L := by
  revert h
  simp only [LockableItem.Reserve, LockableItem.OwnedBy]
  split_ifs <;> simp_all

theorem LockableItem.Reserve_owned_same (i : LockableItem) (L : locoID_t)
    (h : i.OwnedBy L) : (i.Reserve L).2 = i := by
  obtain ⟨h1, h2⟩ := h
  simp only [LockableItem.Reserve]
  split_ifs <;> simp_all

theorem LockableItem.Reserve_false_same (i : LockableItem) (L : locoID_t)
    (h : (i.Reserve L).1 = false) : (i.Reserve L).2 = i := by
  revert h
  simp only [LockableItem.Reserve]
  split_ifs <;> simp_all

theorem LockableItem.Reserve_other_false (i : LockableItem) (L1 L2 : locoID_t)
    (h : i.OwnedBy L1) (hne : L1 ≠ L2) : (i.Reserve L2).1 = false := by
  obtain ⟨h1, h2⟩ := h
  simp only [LockableItem.Reserve]
  split_ifs <;> simp_all

theorem LockableItem.Lock_true_iff (i : LockableItem) (L : locoID_t) :
    (i.Lock L).1 = true ↔ (i.lockState = LockStateReserved ∧ i.locoID = L) := by
  simp only [LockableItem.Lock]
  split_ifs <;> simp_all

theorem LockableItem.Lock_true_hardLocked (i : LockableItem) (L : locoID_t)
    (h : (i.Lock L).1 = true) : (i.Lock L).2.HardLockedBy L := by
  revert h
  simp only [LockableItem.Lock, LockableItem.HardLockedBy]
  split_ifs <;> simp_all

theorem LockableItem.Lock_hardLocked_same (i : LockableItem) (L : locoID_t)
    (h : i.HardLockedBy L) : (i.Lock L).2 = i := by
  obtain ⟨h1, h2⟩ := h
  simp only [LockableItem.Lock]
  split_ifs <;> simp_all

theorem LockableItem.Lock_false_same (i : LockableItem) (L : locoID_t)
    (h : (i.Lock L).1 = false) : (i.Lock L).2 = i := by
  revert h
  simp only [LockableItem.Lock]
  split_ifs <;> simp_all

/-- The modelled `LockableItem.Reserve` does to the lock state and owner what
`Track.reserve` does. -/
theorem LockableItem.Reserve_as_track (t : Track) (L : locoID_t) :
    (LockableItem.Reserve { lockState := t.lockState, locoID := t.locoID } L).1
        = (t.reserve L).1
      ∧ (LockableItem.Reserve { lockState := t.lockState, locoID := t.locoID } L).2
        = { lockState := (t.reserve L).2.lockState, locoID := (t.reserve L).2.locoID } := by
  simp only [LockableItem.Reserve, Track.reserve]
  split_ifs <;> simp_all

/-- The modelled `LockableItem.Lock` does to the lock state and owner what
`Track.lock` does. -/
theorem LockableItem.Lock_as_track (t : Track) (L : locoID_t) :
    (LockableItem.Lock { lockState := t.lockState, locoID := t.locoID } L).1
        = (t.lock L).1
      ∧ (LockableItem.Lock { lockState := t.lockState, locoID := t.locoID } L).2
        = { lockState := (t.lock L).2.lockState, locoID := (t.lock L).2.locoID } := by
  simp only [LockableItem.Lock, Track.lock]
  split_ifs <;> simp_all

/-- The modelled `LockableItem.Release` does to the lock state and owner what
`Track.release` does. -/
theorem LockableItem.Release_as_track (t : Track) (L : locoID_t) :
    (LockableItem.Release { lockState := t.lockState, locoID := t.locoID } L).1
        = (t.release L).1
      ∧ (LockableItem.Release { lockState := t.lockState, locoID := t.locoID } L).2
        = { lockState := (t.release L).2.lockState, locoID := (t.release L).2.locoID } := by
  simp only [LockableItem.Release, Track.release]
  split_ifs <;> simp_all

/-! ## Lemmas on the registry and on the two loops -/

theorem Manager.CallOn_objects (m : Manager) (r : Relation)
    (f : LockableItem → Bool × LockableItem) (k2 : ObjectIdentifier) :
    (m.CallOn r f).2.objects k2
      = if k2 = r.target then (m.objects k2).map (fun li => (f li).2) else m.objects k2 := by
  unfold Manager.CallOn
  by_cases hk : k2 = r.target
  · subst hk
    cases h : m.objects r.target <;> simp [Manager.SetObject, Manager.Called, h]
  · cases h : m.objects r.target <;> simp [Manager.SetObject, Manager.Called, hk]

theorem Manager.CallOn_booster (m : Manager) (r : Relation)
    (f : LockableItem → Bool × LockableItem) : (m.CallOn r f).2.booster = m.booster := by
  unfold Manager.CallOn
  cases h : m.objects r.target <;> simp [Manager.SetObject, Manager.Called]

theorem Manager.CallOn_true (m : Manager) (r : Relation)
    (f : LockableItem → Bool × LockableItem) (h : (m.CallOn r f).1 = true) :
    ∃ li, m.objects r.target = some li ∧ (f li).1 = true := by
  unfold Manager.CallOn at h
  cases hk : m.objects r.target with
  | none => simp [hk] at h
  | some li => exact ⟨li, rfl, by simpa [hk] using h⟩

/-- A call through a relation records the relation after the calls recorded so
far, when the target exists. -/
theorem Manager.CallOn_calls (m : Manager) (r : Relation)
    (f : LockableItem → Bool × LockableItem) :
    (m.CallOn r f).2.calls
      = m.calls ++ (if (m.objects r.target).isSome then [r] else []) := by
  unfold Manager.CallOn
  cases h : m.objects r.target <;> simp [Manager.SetObject, Manager.Called]

/-- A property of the value stored under a key that every call of `f`
preserves still holds after the loop that stops at the first failure. -/
theorem Manager.CallUntilFailure_pointwise (f : LockableItem → Bool × LockableItem)
    (Q : Option LockableItem → Prop)
    (hQ : ∀ o, Q o → Q (o.map (fun li => (f li).2)))
    (rs : List Relation) (m : Manager) (k : ObjectIdentifier) (h : Q (m.objects k)) :
    Q ((Manager.CallUntilFailure f m rs).2.objects k) := by
  induction rs generalizing m with
  | nil => exact h
  | cons r rest ih =>
    have hstep : Q ((m.CallOn r f).2.objects k) := by
      rw [Manager.CallOn_objects]
      split_ifs
      · exact hQ _ h
      · exact h
    simp only [Manager.CallUntilFailure]
    split_ifs
    · exact hstep
    · exact ih _ hstep

/-- A property of the value stored under a key that every call of `f`
preserves still holds after the loop over all relations. -/
theorem Manager.CallAll_pointwise (f : LockableItem → Bool × LockableItem)
    (Q : Option LockableItem → Prop)
    (hQ : ∀ o, Q o → Q (o.map (fun li => (f li).2)))
    (rs : List Relation) (m : Manager) (k : ObjectIdentifier) (h : Q (m.objects k)) :
    Q ((Manager.CallAll f m rs).objects k) := by
  induction rs generalizing m with
  | nil => exact h
  | cons r rest ih =>
    have hstep : Q ((m.CallOn r f).2.objects k) := by
      rw [Manager.CallOn_objects]
      split_ifs
      · exact hQ _ h
      · exact h
    simp only [Manager.CallAll]
    exact ih _ hstep

/-- After the loop over all relations, the target of each relation has been
through at least one call of `f`. -/
theorem Manager.CallAll_target (f : LockableItem → Bool × LockableItem)
    (Q S : Option LockableItem → Prop)
    (hS : ∀ o, S o → S (o.map (fun li => (f li).2)))
    (hQS : ∀ o, Q o → S (o.map (fun li => (f li).2)))
    (rs : List Relation) (m : Manager) (r : Relation) (hr : r ∈ rs)
    (h : Q (m.objects r.target)) :
    S ((Manager.CallAll f m rs).objects r.target) := by
  induction rs generalizing m with
  | nil => simp at hr
  | cons r0 rest ih =>
    simp only [Manager.CallAll]
    by_cases hk : r.target = r0.target
    · apply Manager.CallAll_pointwise f S hS
      rw [Manager.CallOn_objects, if_pos hk]
      exact hQS _ h
    · have hmem : r ∈ rest := by
        rcases List.mem_cons.mp hr with h0 | h0
        · exact absurd (by rw [h0]) hk
        · exact h0
      apply ih _ hmem
      rw [Manager.CallOn_objects, if_neg hk]
      exact h

/-- When the loop that stops at the first failure runs to the end, the target
of every relation satisfies what a successful call of `f` establishes and every
call of `f` preserves. -/
theorem Manager.CallUntilFailure_true (f : LockableItem → Bool × LockableItem)
    (P : LockableItem → Prop)
    (hP : ∀ li, (f li).1 = true → P (f li).2)
    (hkeep : ∀ li, P li → P (f li).2)
    (rs : List Relation) (m : Manager)
    (h : (Manager.CallUntilFailure f m rs).1 = true) :
    ∀ r ∈ rs, (Manager.CallUntilFailure f m rs).2.Holds P r.target := by
  have hstable : ∀ o : Option LockableItem, (∃ li, o = some li ∧ P li) →
      ∃ li, o.map (fun li => (f li).2) = some li ∧ P li := by
    rintro o ⟨li, rfl, hli⟩
    exact ⟨(f li).2, rfl, hkeep li hli⟩
  induction rs generalizing m with
  | nil => intro r hr; simp at hr
  | cons r0 rest ih =>
    simp only [Manager.CallUntilFailure] at h ⊢
    by_cases h0 : (m.CallOn r0 f).1 = false
    · rw [if_pos h0] at h
      simp at h
    · rw [if_neg h0] at h ⊢
      intro r hr
      rcases List.mem_cons.mp hr with hr0 | hr0
      · subst hr0
        obtain ⟨li, hli, hf⟩ := Manager.CallOn_true m r f (by simpa using h0)
        apply Manager.CallUntilFailure_pointwise f (fun o => ∃ li, o = some li ∧ P li) hstable
        rw [Manager.CallOn_objects, if_pos rfl, hli]
        exact ⟨(f li).2, rfl, hP li hf⟩
      · exact ih _ h r hr0

theorem Manager.CallUntilFailure_booster (f : LockableItem → Bool × LockableItem)
    (rs : List Relation) (m : Manager) :
    (Manager.CallUntilFailure f m rs).2.booster = m.booster := by
  induction rs generalizing m with
  | nil => rfl
  | cons r rest ih =>
    simp only [Manager.CallUntilFailure]
    split_ifs
    · exact Manager.CallOn_booster m _ f
    · rw [ih, Manager.CallOn_booster]

theorem Street.ReserveRelations_eq (m : Manager) (L : locoID_t) (rs : List Relation) :
    Street.ReserveRelations m L rs
      = Manager.CallUntilFailure (fun i => i.Reserve L) m rs := by
  induction rs generalizing m with
  | nil => rfl
  | cons r rest ih =>
    simp only [Street.ReserveRelations, Manager.CallUntilFailure]
    have hr : Relation.Reserve m r L = m.CallOn r (fun i => i.Reserve L) := rfl
    rw [hr, ih]

theorem Street.LockRelations_eq (m : Manager) (L : locoID_t) (rs : List Relation) :
    Street.LockRelations m L rs
      = Manager.CallUntilFailure (fun i => i.Lock L) m rs := by
  induction rs generalizing m with
  | nil => rfl
  | cons r rest ih =>
    simp only [Street.LockRelations, Manager.CallUntilFailure]
    have hr : Relation.Lock m r L = m.CallOn r (fun i => i.Lock L) := rfl
    rw [hr, ih]

theorem Street.ReleaseRelations_eq (m : Manager) (L : locoID_t) (rs : List Relation) :
    Street.ReleaseRelations m L rs
      = Manager.CallAll (fun i => i.Release L) m rs := by
  induction rs generalizing m with
  | nil => rfl
  | cons r rest ih =>
    simp only [Street.ReleaseRelations, Manager.CallAll]
    have hr : Relation.Release m r L = m.CallOn r (fun i => i.Release L) := rfl
    rw [hr, ih]

/-! ## Reserving and locking a route -/

/-- What a successful `Street.Reserve` went through: the booster was on, the
route, the destination track block and the relation loop all succeeded, and
the result is the route with its own reservation and the manager left by the
relation loop. -/
theorem Street.Reserve_true (s : Street) (m : Manager) (L : locoID_t)
    (h : (s.Reserve m L).1 = true) :
    m.booster ≠ BoosterStop
      ∧ (s.toLockableItem.Reserve L).1 = true
      ∧ (Street.ReserveToTrack s m L).1 = true
      ∧ (Street.ReserveRelations (Street.ReserveToTrack s m L).2 L s.relations).1 = true
      ∧ (s.Reserve m L).2.1 = { s with toLockableItem := (s.toLockableItem.Reserve L).2 }
      ∧ (s.Reserve m L).2.2
          = (Street.ReserveRelations (Street.ReserveToTrack s m L).2 L s.relations).2 := by
  have htrack : Street.ReserveToTrack
      { s with toLockableItem := (s.toLockableItem.Reserve L).2 } m L
        = Street.ReserveToTrack s m L := rfl
  simp only [Street.Reserve, Manager.Booster, htrack] at h ⊢
  by_cases h1 : m.booster = BoosterStop
  · rw [if_pos h1] at h
    exact (Bool.false_ne_true h).elim
  by_cases h2 : (s.toLockableItem.Reserve L).1 = false
  · rw [if_neg h1, if_pos h2] at h
    exact (Bool.false_ne_true h).elim
  by_cases h3 : (Street.ReserveToTrack s m L).1 = false
  · rw [if_neg h1, if_neg h2, if_pos h3] at h
    exact (Bool.false_ne_true h).elim
  by_cases h4 : (Street.ReserveRelations (Street.ReserveToTrack s m L).2 L s.relations).1 = false
  · rw [if_neg h1, if_neg h2, if_neg h3, if_pos h4] at h
    exact (Bool.false_ne_true h).elim
  rw [if_neg h1, if_neg h2, if_neg h3, if_neg h4]
  exact ⟨h1, by simpa using h2, by simpa using h3, by simpa using h4, rfl, rfl⟩

/-- What a successful `Street.Lock` went through. -/
theorem Street.Lock_true (s : Street) (m : Manager) (L : locoID_t)
    (h : (s.Lock m L).1 = true) :
    m.booster ≠ BoosterStop
      ∧ (s.toLockableItem.Lock L).1 = true
      ∧ (Street.LockToTrack s m L).1 = true
      ∧ (Street.LockRelations (Street.LockToTrack s m L).2 L s.relations).1 = true
      ∧ (s.Lock m L).2.1 = { s with toLockableItem := (s.toLockableItem.Lock L).2 }
      ∧ (s.Lock m L).2.2
          = (Street.LockRelations (Street.LockToTrack s m L).2 L s.relations).2 := by
  have htrack : Street.LockToTrack
      { s with toLockableItem := (s.toLockableItem.Lock L).2 } m L
        = Street.LockToTrack s m L := rfl
  simp only [Street.Lock, Manager.Booster, htrack] at h ⊢
  by_cases h1 : m.booster = BoosterStop
  · rw [if_pos h1] at h
    exact (Bool.false_ne_true h).elim
  by_cases h2 : (s.toLockableItem.Lock L).1 = false
  · rw [if_neg h1, if_pos h2] at h
    exact (Bool.false_ne_true h).elim
  by_cases h3 : (Street.LockToTrack s m L).1 = false
  · rw [if_neg h1, if_neg h2, if_pos h3] at h
    exact (Bool.false_ne_true h).elim
  by_cases h4 : (Street.LockRelations (Street.LockToTrack s m L).2 L s.relations).1 = false
  · rw [if_neg h1, if_neg h2, if_neg h3, if_pos h4] at h
    exact (Bool.false_ne_true h).elim
  rw [if_neg h1, if_neg h2, if_neg h3, if_neg h4]
  exact ⟨h1, by simpa using h2, by simpa using h3, by simpa using h4, rfl, rfl⟩

/-- When the destination track block of `Street.Reserve` succeeds on an
automode route, the destination track exists afterwards and is owned by `L`. -/
theorem Street.ReserveToTrack_true (s : Street) (m : Manager) (L : locoID_t)
    (hauto : s.automode = AutomodeYes) (h : (Street.ReserveToTrack s m L).1 = true) :
    (Street.ReserveToTrack s m L).2.Holds (fun i => i.OwnedBy L) s.toTrackIdentifier := by
  unfold Street.ReserveToTrack at h ⊢
  rw [if_pos hauto] at h ⊢
  cases ht : m.GetTrack s.toTrack with
  | none => simp [ht] at h
  | some track =>
    simp only [ht] at h ⊢
    exact ⟨(track.Reserve L).2, by simp [Manager.SetObject, Street.toTrackIdentifier],
      LockableItem.Reserve_true_owned track L h⟩

/-- When the destination track block of `Street.Lock` succeeds on an automode
route, the destination track exists afterwards and is hard-locked by `L`. -/
theorem Street.LockToTrack_true (s : Street) (m : Manager) (L : locoID_t)
    (hauto : s.automode = AutomodeYes) (h : (Street.LockToTrack s m L).1 = true) :
    (Street.LockToTrack s m L).2.Holds (fun i => i.HardLockedBy L) s.toTrackIdentifier := by
  unfold Street.LockToTrack at h ⊢
  rw [if_pos hauto] at h ⊢
  cases ht : m.GetTrack s.toTrack with
  | none => simp [ht] at h
  | some track =>
    simp only [ht] at h ⊢
    exact ⟨(track.Lock L).2, by simp [Manager.SetObject, Street.toTrackIdentifier],
      LockableItem.Lock_true_hardLocked track L h⟩

/-- The relation loop of `Street.Reserve` keeps every object owned by `L`. -/
theorem Street.ReserveRelations_keeps (m : Manager) (L : locoID_t) (rs : List Relation)
    (k : ObjectIdentifier) (h : m.Holds (fun i => i.OwnedBy L) k) :
    (Street.ReserveRelations m L rs).2.Holds (fun i => i.OwnedBy L) k := by
  rw [Street.ReserveRelations_eq]
  refine Manager.CallUntilFailure_pointwise (fun i => i.Reserve L)
    (fun o => ∃ li, o = some li ∧ li.OwnedBy L) ?_ rs m k h
  rintro o ⟨li, rfl, hli⟩
  exact ⟨(li.Reserve L).2, rfl, by rw [LockableItem.Reserve_owned_same li L hli]; exact hli⟩

/-- The relation loop of `Street.Lock` keeps every object hard-locked by `L`. -/
theorem Street.LockRelations_keeps (m : Manager) (L : locoID_t) (rs : List Relation)
    (k : ObjectIdentifier) (h : m.Holds (fun i => i.HardLockedBy L) k) :
    (Street.LockRelations m L rs).2.Holds (fun i => i.HardLockedBy L) k := by
  rw [Street.LockRelations_eq]
  refine Manager.CallUntilFailure_pointwise (fun i => i.Lock L)
    (fun o => ∃ li, o = some li ∧ li.HardLockedBy L) ?_ rs m k h
  rintro o ⟨li, rfl, hli⟩
  exact ⟨(li.Lock L).2, rfl, by rw [LockableItem.Lock_hardLocked_same li L hli]; exact hli⟩

/-- C7: for an automode route, if `Street.Reserve` returns true for loco `L`
then the route, its destination track and the target of every relation are
owned by `L` (with `L` as owner and a lock state other than free). -/
theorem reserve_success_owns_all (s : Street) (m : Manager) (L : locoID_t)
    (hauto : s.automode = AutomodeYes) (h : (s.Reserve m L).1 = true) :
    (s.Reserve m L).2.1.toLockableItem.OwnedBy L
      ∧ (s.Reserve m L).2.2.Holds (fun i => i.OwnedBy L) s.toTrackIdentifier
      ∧ ∀ r ∈ s.relations, (s.Reserve m L).2.2.Holds (fun i => i.OwnedBy L) r.target := by
  obtain ⟨-, hself, htrack, hrel, hs, hm⟩ := Street.Reserve_true s m L h
  rw [hs, hm]
  refine ⟨LockableItem.Reserve_true_owned _ L hself, ?_, ?_⟩
  · exact Street.ReserveRelations_keeps _ L _ _ (Street.ReserveToTrack_true s m L hauto htrack)
  · rw [Street.ReserveRelations_eq] at hrel ⊢
    exact Manager.CallUntilFailure_true (fun i => i.Reserve L) (fun i => i.OwnedBy L)
      (fun li hli => LockableItem.Reserve_true_owned li L hli)
      (fun li hli => by rw [LockableItem.Reserve_owned_same li L hli]; exact hli)
      s.relations _ hrel

/-- Instance of C7, scenario S2: loco 1 reserves the route; the route, track 2
and switch 1 are then owned by loco 1. -/
theorem reserve_success_owns_all_witness :
    (contentionStreet.Reserve contentionManager 1).2.1.toLockableItem.OwnedBy 1
      ∧ (contentionStreet.Reserve contentionManager 1).2.2.Holds
          (fun i => i.OwnedBy 1) contentionStreet.toTrackIdentifier
      ∧ ∀ r ∈ contentionStreet.relations,
          (contentionStreet.Reserve contentionManager 1).2.2.Holds
            (fun i => i.OwnedBy 1) r.target :=
  reserve_success_owns_all contentionStreet contentionManager 1 (by decide) (by decide)

/-- C9: when `Street.Reserve` has returned true for loco `L1`, a following
`Street.Reserve` for another loco `L2` returns false and leaves the route and
the whole registry, hence the destination track and every relation target, as
the first call left them. -/
theorem reserve_contention (s : Street) (m : Manager) (L1 L2 : locoID_t)
    (hne : L1 ≠ L2) (h : (s.Reserve m L1).1 = true) :
    (s.Reserve m L1).2.1.Reserve (s.Reserve m L1).2.2 L2
      = (false, (s.Reserve m L1).2.1, (s.Reserve m L1).2.2) := by
  obtain ⟨-, hself, -, -, hs, -⟩ := Street.Reserve_true s m L1 h
  have howned : (s.Reserve m L1).2.1.toLockableItem.OwnedBy L1 := by
    rw [hs]
    exact LockableItem.Reserve_true_owned _ L1 hself
  generalize (s.Reserve m L1).2.1 = s1 at howned
  generalize (s.Reserve m L1).2.2 = m1
  have hfalse : (s1.toLockableItem.Reserve L2).1 = false :=
    LockableItem.Reserve_other_false _ L1 L2 howned hne
  have hsame : (s1.toLockableItem.Reserve L2).2 = s1.toLockableItem :=
    LockableItem.Reserve_false_same _ L2 hfalse
  simp only [Street.Reserve]
  split_ifs
  · rfl
  · rw [hsame]

/-- Instance of C9, scenario S2: loco 1 reserves the route, loco 2 is then
refused. -/
theorem reserve_contention_witness :
    (contentionStreet.Reserve contentionManager 1).2.1.Reserve
        (contentionStreet.Reserve contentionManager 1).2.2 2
      = (false, (contentionStreet.Reserve contentionManager 1).2.1,
          (contentionStreet.Reserve contentionManager 1).2.2) :=
  reserve_contention contentionStreet contentionManager 1 2 (by decide) (by decide)

/-- C10, as stated, fails: on the route from track 1 to track 2 that is not in
automode and is reserved by loco 1, with track 2 free, `Street.Lock` returns
true for loco 1 and the destination track is still free, not hard-locked by
loco 1. -/
theorem lock_skips_track_without_automode :
    ((reservedStreet AutomodeNo).Lock (oneTrackManager LockableItem.construct) 1).1 = true
      ∧ ((reservedStreet AutomodeNo).Lock (oneTrackManager LockableItem.construct) 1).2.2.GetTrack
            (reservedStreet AutomodeNo).toTrack
          = some { lockState := LockStateFree, locoID := LocoNone }
      ∧ ¬ ((reservedStreet AutomodeNo).Lock (oneTrackManager LockableItem.construct) 1).2.2.Holds
            (fun i => i.HardLockedBy 1) (reservedStreet AutomodeNo).toTrackIdentifier := by
  decide

/-- C10, amended: `Street.Lock` returns true for loco `L` only if the route was
reserved by `L` before the call; whenever it returns true the route and the
target of every relation are hard-locked with owner `L`, and so is the
destination track when the route is in automode; when the route is not
reserved by `L` the call returns false and changes neither the route nor the
registry. -/
theorem lock_route_contract (s : Street) (m : Manager) (L : locoID_t) :
    ((s.Lock m L).1 = true →
      (s.lockState = LockStateReserved ∧ s.locoID = L)
        ∧ (s.Lock m L).2.1.toLockableItem.HardLockedBy L
        ∧ (∀ r ∈ s.relations, (s.Lock m L).2.2.Holds (fun i => i.HardLockedBy L) r.target)
        ∧ (s.automode = AutomodeYes →
            (s.Lock m L).2.2.Holds (fun i => i.HardLockedBy L) s.toTrackIdentifier)) ∧
    (¬ (s.lockState = LockStateReserved ∧ s.locoID = L) → s.Lock m L = (false, s, m)) := by
  constructor
  · intro h
    obtain ⟨-, hself, htrack, hrel, hs, hm⟩ := Street.Lock_true s m L h
    rw [hs, hm]
    refine ⟨(LockableItem.Lock_true_iff _ L).mp hself,
      LockableItem.Lock_true_hardLocked _ L hself, ?_, ?_⟩
    · rw [Street.LockRelations_eq] at hrel ⊢
      exact Manager.CallUntilFailure_true (fun i => i.Lock L) (fun i => i.HardLockedBy L)
        (fun li hli => LockableItem.Lock_true_hardLocked li L hli)
        (fun li hli => by rw [LockableItem.Lock_hardLocked_same li L hli]; exact hli)
        s.relations _ hrel
    · intro hauto
      exact Street.LockRelations_keeps _ L _ _ (Street.LockToTrack_true s m L hauto htrack)
  · intro hn
    have hfalse : (s.toLockableItem.Lock L).1 = false := by
      cases hb : (s.toLockableItem.Lock L).1
      · rfl
      · exact absurd ((LockableItem.Lock_true_iff _ L).mp hb) hn
    have hsame : (s.toLockableItem.Lock L).2 = s.toLockableItem :=
      LockableItem.Lock_false_same _ L hfalse
    simp only [Street.Lock]
    split_ifs
    · rfl
    · rw [hsame]

/-- Instances of amended C10: the route of scenario S2, once reserved by loco
1, is locked by loco 1; the free route of scenario S2 is not locked and nothing
changes. -/
theorem lock_route_contract_witness :
    ((reservedScenario.1.lockState = LockStateReserved ∧ reservedScenario.1.locoID = 1)
      ∧ (reservedScenario.1.Lock reservedScenario.2 1).2.1.toLockableItem.HardLockedBy 1
      ∧ (∀ r ∈ reservedScenario.1.relations,
          (reservedScenario.1.Lock reservedScenario.2 1).2.2.Holds
            (fun i => i.HardLockedBy 1) r.target)
      ∧ (reservedScenario.1.automode = AutomodeYes →
          (reservedScenario.1.Lock reservedScenario.2 1).2.2.Holds
            (fun i => i.HardLockedBy 1) reservedScenario.1.toTrackIdentifier)) ∧
    contentionStreet.Lock contentionManager 1 = (false, contentionStreet, contentionManager) :=
  ⟨(lock_route_contract reservedScenario.1 reservedScenario.2 1).1 (by decide),
   (lock_route_contract contentionStreet contentionManager 1).2 (by decide)⟩

/-! ## Rollback of a failed reservation -/

theorem LockableItem.Release_notHeld_same (i : LockableItem) (L : locoID_t)
    (h : NotHeldBy L (some i)) : (i.Release L).2 = i := by
  simp only [NotHeldBy] at h
  simp only [LockableItem.Release]
  split_ifs <;> simp_all

theorem LockableItem.Release_reserve_false_same (i : LockableItem) (L : locoID_t)
    (h : (i.Reserve L).1 = false) : (i.Release L).2 = i := by
  revert h
  simp only [LockableItem.Reserve, LockableItem.Release]
  split_ifs <;> simp_all

theorem LockableItem.Reserve_notHeld (i : LockableItem) (L : locoID_t)
    (h : NotHeldBy L (some i)) (ht : (i.Reserve L).1 = true) :
    i = { lockState := LockStateFree, locoID := LocoNone }
      ∧ (i.Reserve L).2 = { lockState := LockStateReserved, locoID := L } := by
  revert ht
  simp only [NotHeldBy] at h
  obtain ⟨ls, lo⟩ := i
  simp only [LockableItem.Reserve]
  split_ifs <;> simp_all

theorem LockableItem.Release_reserved (L : locoID_t) :
    (LockableItem.Release { lockState := LockStateReserved, locoID := L } L).2
      = { lockState := LockStateFree, locoID := LocoNone } := by
  simp [LockableItem.Release]

theorem LockableItem.Reserve_reserved (L : locoID_t) :
    (LockableItem.Reserve { lockState := LockStateReserved, locoID := L } L).2
      = { lockState := LockStateReserved, locoID := L } := by
  simp [LockableItem.Reserve]

/-- A value that is `pre` or `pre` reserved by `L` stays so under `Reserve`,
when `L` did not hold `pre`. -/
theorem ReservedFrom.reserve (L : locoID_t) (pre cur : Option LockableItem)
    (hpre : NotHeldBy L pre) (h : ReservedFrom L pre cur) :
    ReservedFrom L pre (cur.map (fun li => (li.Reserve L).2)) := by
  rcases h with h | ⟨h1, h2⟩
  · subst h
    cases cur with
    | none => exact Or.inl rfl
    | some li =>
      cases hr : (li.Reserve L).1
      · exact Or.inl (by simp [LockableItem.Reserve_false_same li L hr])
      · obtain ⟨e1, e2⟩ := LockableItem.Reserve_notHeld li L hpre hr
        exact Or.inr ⟨by rw [e1], by simp [e2]⟩
  · subst h2
    exact Or.inr ⟨h1, by simp [LockableItem.Reserve_reserved]⟩

/-- Releasing a value that is `pre` or `pre` reserved by `L` gives `pre` back,
when `L` did not hold `pre`. -/
theorem ReservedFrom.release (L : locoID_t) (pre cur : Option LockableItem)
    (hpre : NotHeldBy L pre) (h : ReservedFrom L pre cur) :
    cur.map (fun li => (li.Release L).2) = pre := by
  rcases h with h | ⟨h1, h2⟩
  · subst h
    cases cur with
    | none => rfl
    | some li => simp [LockableItem.Release_notHeld_same li L hpre]
  · subst h1 h2
    simp [LockableItem.Release_reserved]

/-- The destination track block of `Street.Reserve` leaves under every key a
value that is the one before or the one before reserved by `L`, for keys whose
object `L` did not hold. -/
theorem Street.ReserveToTrack_reservedFrom (s : Street) (m : Manager) (L : locoID_t)
    (k : ObjectIdentifier) (hk : NotHeldBy L (m.objects k)) :
    ReservedFrom L (m.objects k) ((Street.ReserveToTrack s m L).2.objects k) := by
  unfold Street.ReserveToTrack
  split_ifs
  · cases ht : m.GetTrack s.toTrack with
    | none => exact Or.inl rfl
    | some track =>
      simp only [Manager.SetObject]
      split_ifs with hkey
      · have hpre : m.objects k = some track := by rw [hkey]; exact ht
        have h0 := ReservedFrom.reserve L (m.objects k) (m.objects k) hk (Or.inl rfl)
        rw [hpre] at h0 ⊢
        exact h0
      · exact Or.inl rfl
  · exact Or.inl rfl

/-- When the destination track block of `Street.Reserve` fails, the registry
holds the same objects as before, and releasing the destination track for `L`
would not change it. -/
theorem Street.ReserveToTrack_false (s : Street) (m : Manager) (L : locoID_t)
    (h : (Street.ReserveToTrack s m L).1 = false) :
    (∀ k, (Street.ReserveToTrack s m L).2.objects k = m.objects k)
      ∧ (m.GetTrack s.toTrack).map (fun li => (li.Release L).2) = m.GetTrack s.toTrack := by
  unfold Street.ReserveToTrack at h ⊢
  split_ifs at h ⊢
  · cases ht : m.GetTrack s.toTrack with
    | none => exact ⟨fun k => rfl, rfl⟩
    | some track =>
      simp only [ht] at h
      refine ⟨fun k => ?_, ?_⟩
      · simp only [Manager.SetObject]
        split_ifs with hkey
        · rw [LockableItem.Reserve_false_same track L h, hkey]
          exact ht.symm
        · rfl
      · simp [LockableItem.Release_reserve_false_same track L h]

/-- The three ways in which `Street.Reserve` returns false, with the route and
the manager each of them leaves. -/
theorem Street.Reserve_false (s : Street) (m : Manager) (L : locoID_t)
    (h : (s.Reserve m L).1 = false) :
    ((m.booster = BoosterStop ∨ (s.toLockableItem.Reserve L).1 = false)
        ∧ (s.Reserve m L).2 = (s, m))
      ∨ (m.booster ≠ BoosterStop
        ∧ (s.toLockableItem.Reserve L).1 = true
        ∧ (Street.ReserveToTrack s m L).1 = false
        ∧ (s.Reserve m L).2
            = (Street.ReleaseInternal { s with toLockableItem := (s.toLockableItem.Reserve L).2 }
                (Street.ReserveToTrack s m L).2 L).2)
      ∨ (m.booster ≠ BoosterStop
        ∧ (s.toLockableItem.Reserve L).1 = true
        ∧ (Street.ReserveToTrack s m L).1 = true
        ∧ (s.Reserve m L).2
            = (Street.ReleaseInternal { s with toLockableItem := (s.toLockableItem.Reserve L).2 }
                (Street.ReserveRelations (Street.ReserveToTrack s m L).2 L s.relations).2
                L).2) := by
  have htrack : Street.ReserveToTrack
      { s with toLockableItem := (s.toLockableItem.Reserve L).2 } m L
        = Street.ReserveToTrack s m L := rfl
  simp only [Street.Reserve, Manager.Booster, htrack] at h ⊢
  by_cases h1 : m.booster = BoosterStop
  · rw [if_pos h1]
    exact Or.inl ⟨Or.inl h1, rfl⟩
  by_cases h2 : (s.toLockableItem.Reserve L).1 = false
  · rw [if_neg h1, if_pos h2]
    refine Or.inl ⟨Or.inr h2, ?_⟩
    simp only [LockableItem.Reserve_false_same _ L h2]
  by_cases h3 : (Street.ReserveToTrack s m L).1 = false
  · rw [if_neg h1, if_neg h2, if_pos h3]
    exact Or.inr (Or.inl ⟨h1, by simpa using h2, h3, rfl⟩)
  by_cases h4 : (Street.ReserveRelations (Street.ReserveToTrack s m L).2 L s.relations).1 = false
  · rw [if_neg h1, if_neg h2, if_neg h3, if_pos h4]
    exact Or.inr (Or.inr ⟨h1, by simpa using h2, by simpa using h3, rfl⟩)
  · rw [if_neg h1, if_neg h2, if_neg h3, if_neg h4] at h
    exact (Bool.false_ne_true h.symm).elim

/-- The route part of the rollback: a route that `L` did not hold and that
`L` could reserve is, after reserve and release, the route it was. -/
theorem Street.release_after_reserve (s : Street) (L : locoID_t)
    (hs : NotHeldBy L (some s.toLockableItem))
    (hself : (s.toLockableItem.Reserve L).1 = true) :
    { s with toLockableItem :=
        (LockableItem.Release (s.toLockableItem.Reserve L).2 L).2 } = s := by
  obtain ⟨e1, e2⟩ := LockableItem.Reserve_notHeld s.toLockableItem L hs hself
  rw [e2, LockableItem.Release_reserved, ← e1]

/-- C8, as stated, fails. In scenario S3 `Street.Reserve` returns false for
loco 1 and the destination track, free before the call, is reserved by loco 1
after it. On the automode route that loco 1 had reserved before the call, with
the destination track held by loco 2, the call returns false and leaves the
route free. And in scenario S3 with switch 1 hard-locked by loco 1 before the
call, the call returns false and leaves switch 1 free. -/
theorem reserve_failure_not_identical :
    ((rollbackStreet.Reserve rollbackManager 1).1 = false
      ∧ rollbackManager.GetTrack rollbackStreet.toTrack
          = some { lockState := LockStateFree, locoID := LocoNone }
      ∧ (rollbackStreet.Reserve rollbackManager 1).2.2.GetTrack rollbackStreet.toTrack
          = some { lockState := LockStateReserved, locoID := 1 }) ∧
    (((reservedStreet AutomodeYes).Reserve
          (oneTrackManager { lockState := LockStateReserved, locoID := 2 }) 1).1 = false
      ∧ (reservedStreet AutomodeYes).toLockableItem
          = { lockState := LockStateReserved, locoID := 1 }
      ∧ ((reservedStreet AutomodeYes).Reserve
          (oneTrackManager { lockState := LockStateReserved, locoID := 2 }) 1).2.1.toLockableItem
          = { lockState := LockStateFree, locoID := LocoNone }) ∧
    ((rollbackStreet.Reserve
          (rollbackManagerWith { lockState := LockStateHardLocked, locoID := 1 }) 1).1 = false
      ∧ (rollbackManagerWith { lockState := LockStateHardLocked, locoID := 1 }).objects
          { objectType := ObjectTypeSwitch, objectID := 1 }
          = some { lockState := LockStateHardLocked, locoID := 1 }
      ∧ (rollbackStreet.Reserve
          (rollbackManagerWith { lockState := LockStateHardLocked, locoID := 1 }) 1).2.2.objects
          { objectType := ObjectTypeSwitch, objectID := 1 }
          = some { lockState := LockStateFree, locoID := LocoNone }) := by
  decide

/-- C8, amended: if `Street.Reserve` returns false for loco `L`, and before the
call `L` held neither the route nor any relation target (each was free with no
owner, or owned by another loco, or missing), then after the call the route is
the one it was and every relation target has the lock state and owner it had;
the destination track is as it was too when the call fails at the booster
check, at the route itself or at the destination track. In particular, in
scenario S3 the first switch has no owner and the route is free after the
failed call. What becomes of the destination track when a relation fails is
not part of this statement. -/
theorem reserve_failure_restores (s : Street) (m : Manager) (L : locoID_t)
    (hs : NotHeldBy L (some s.toLockableItem))
    (hr : ∀ r ∈ s.relations, NotHeldBy L (r.GetObject2 m))
    (hfail : (s.Reserve m L).1 = false) :
    (s.Reserve m L).2.1 = s
      ∧ (∀ r ∈ s.relations, r.GetObject2 (s.Reserve m L).2.2 = r.GetObject2 m)
      ∧ ((m.booster = BoosterStop ∨ (s.toLockableItem.Reserve L).1 = false
            ∨ (Street.ReserveToTrack s m L).1 = false) →
          (s.Reserve m L).2.2.GetTrack s.toTrack = m.GetTrack s.toTrack) := by
  have hstable : ∀ r ∈ s.relations, ∀ o : Option LockableItem, o = m.objects r.target →
      o.map (fun li => (li.Release L).2) = m.objects r.target := by
    intro r hmem o ho
    subst ho
    exact ReservedFrom.release L _ _ (hr r hmem) (Or.inl rfl)
  rcases Street.Reserve_false s m L hfail with ⟨-, h⟩ | ⟨hb, hself, htrack, h⟩
      | ⟨hb, hself, htrack, h⟩
  · rw [h]
    exact ⟨rfl, fun r _ => rfl, fun _ => rfl⟩
  · rw [h]
    obtain ⟨hobj, hrel⟩ := Street.ReserveToTrack_false s m L htrack
    simp only [Street.ReleaseInternal, Street.ReleaseRelations_eq]
    refine ⟨Street.release_after_reserve s L hs hself, ?_, ?_⟩
    · intro r hmem
      exact Manager.CallAll_pointwise (fun i => i.Release L) (fun o => o = m.objects r.target)
        (hstable r hmem) s.relations _ r.target (hobj r.target)
    · intro _
      refine Manager.CallAll_pointwise (fun i => i.Release L)
        (fun o => o = m.GetTrack s.toTrack) ?_ s.relations _
        { objectType := ObjectTypeTrack, objectID := s.toTrack } (hobj _)
      intro o ho
      subst ho
      exact hrel
  · rw [h]
    simp only [Street.ReleaseInternal, Street.ReleaseRelations_eq, Street.ReserveRelations_eq]
    refine ⟨Street.release_after_reserve s L hs hself, ?_, ?_⟩
    · intro r hmem
      refine Manager.CallAll_target (fun i => i.Release L)
        (ReservedFrom L (m.objects r.target)) (fun o => o = m.objects r.target)
        (hstable r hmem) (fun o ho => ReservedFrom.release L _ o (hr r hmem) ho)
        s.relations _ r hmem ?_
      exact Manager.CallUntilFailure_pointwise (fun i => i.Reserve L)
        (ReservedFrom L (m.objects r.target))
        (fun o ho => ReservedFrom.reserve L _ o (hr r hmem) ho) s.relations _ r.target
        (Street.ReserveToTrack_reservedFrom s m L r.target (hr r hmem))
    · rintro (h1 | h1 | h1)
      · exact absurd h1 hb
      · rw [hself] at h1
        exact (Bool.false_ne_true h1.symm).elim
      · rw [htrack] at h1
        exact (Bool.false_ne_true h1.symm).elim

/-- Instance of amended C8, scenario S3: loco 1 fails to reserve the route
because switch 2 is owned by loco 2; the route and both switches are as they
were before the call. -/
theorem reserve_failure_restores_witness :
    (rollbackStreet.Reserve rollbackManager 1).2.1 = rollbackStreet
      ∧ (∀ r ∈ rollbackStreet.relations,
          r.GetObject2 (rollbackStreet.Reserve rollbackManager 1).2.2
            = r.GetObject2 rollbackManager)
      ∧ ((rollbackManager.booster = BoosterStop
            ∨ (rollbackStreet.toLockableItem.Reserve 1).1 = false
            ∨ (Street.ReserveToTrack rollbackStreet rollbackManager 1).1 = false) →
          (rollbackStreet.Reserve rollbackManager 1).2.2.GetTrack rollbackStreet.toTrack
            = rollbackManager.GetTrack rollbackStreet.toTrack) :=
  reserve_failure_restores rollbackStreet rollbackManager 1
    (by decide) (by decide) (by decide)

/-! ## Assigning relations -/

/-- The loop of `Street.DeleteRelations` empties every list. -/
theorem Street.DeleteRelationsLoop_nil (rs : List Relation) :
    Street.DeleteRelationsLoop rs = [] := by
  generalize hn : rs.length = n
  induction n using Nat.strong_induction_on generalizing rs with
  | _ n ih =>
    cases rs with
    | nil => rw [Street.DeleteRelationsLoop]
    | cons r rest =>
      rw [Street.DeleteRelationsLoop]
      exact ih (r :: rest).dropLast.length (by rw [← hn]; simp [List.length_dropLast]) _ rfl

/-- C16: `AssignRelations` returns false and leaves the route, with its
relation list, as it is when the lock state of the route is not free; it
returns true and the relation list is the new list when the route is free
(the old relations are deleted first and nothing else of the route changes). -/
theorem assignRelations_contract (s : Street) (newRelations : List Relation) :
    (s.lockState ≠ LockStateFree → s.AssignRelations newRelations = (false, s)) ∧
    (s.lockState = LockStateFree →
      (s.AssignRelations newRelations).1 = true
        ∧ (s.AssignRelations newRelations).2.relations = newRelations
        ∧ s.DeleteRelations.relations = []
        ∧ (s.AssignRelations newRelations).2 = { s with relations := newRelations }) := by
  constructor
  · intro h
    simp only [Street.AssignRelations, LockableItem.GetLockState]
    rw [if_pos h]
  · intro h
    have hfree : ¬ s.toLockableItem.GetLockState ≠ LockStateFree := by
      simp [LockableItem.GetLockState, h]
    simp only [Street.AssignRelations]
    rw [if_neg hfree]
    exact ⟨rfl, rfl, Street.DeleteRelationsLoop_nil s.relations, rfl⟩

/-- Instances of C16: the relations of the route of scenario S3 cannot be
replaced while loco 1 has it reserved, and are replaced while it is free. -/
theorem assignRelations_contract_witness :
    ({ rollbackStreet with lockState := LockStateReserved, locoID := 1 } : Street).AssignRelations
        contentionStreet.relations
      = (false, { rollbackStreet with lockState := LockStateReserved, locoID := 1 }) ∧
    ((rollbackStreet.AssignRelations contentionStreet.relations).1 = true
      ∧ (rollbackStreet.AssignRelations contentionStreet.relations).2.relations
          = contentionStreet.relations
      ∧ rollbackStreet.DeleteRelations.relations = []
      ∧ (rollbackStreet.AssignRelations contentionStreet.relations).2
          = { rollbackStreet with relations := contentionStreet.relations }) :=
  ⟨(assignRelations_contract { rollbackStreet with lockState := LockStateReserved, locoID := 1 }
      contentionStreet.relations).1 (by decide),
   (assignRelations_contract rollbackStreet contentionStreet.relations).2 (by decide)⟩

/-! ## Executing a route, and the booster -/

theorem Relation.Execute_false (m : Manager) (r : Relation) (delay : Nat)
    (h : (Relation.Execute m r delay).1 = false) : (Relation.Execute m r delay).2 = m := by
  unfold Relation.Execute at h ⊢
  cases hk : r.GetObject2 m with
  | none => rfl
  | some li => simp [hk] at h

/-- When the execute of every relation succeeds in the registry left by the
relations before it, the loop of `Street.Execute` returns true and leaves the
registry in which all relations have been executed in list order. -/
theorem Street.ExecuteRelations_all (m : Manager) (delay : Nat) (rs : List Relation)
    (h : ∀ pre r post, rs = pre ++ r :: post →
      (Relation.Execute (Street.ExecuteAll m delay pre) r delay).1 = true) :
    Street.ExecuteRelations m delay rs = (true, Street.ExecuteAll m delay rs) := by
  induction rs generalizing m with
  | nil => rfl
  | cons r rest ih =>
    have h0 : (Relation.Execute m r delay).1 = true := h [] r rest rfl
    simp only [Street.ExecuteRelations, h0, Bool.true_eq_false, if_false]
    rw [ih (Relation.Execute m r delay).2]
    · rfl
    · intro pre r2 post hsplit
      have := h (r :: pre) r2 post (by rw [hsplit]; rfl)
      simpa [Street.ExecuteAll] using this

/-- When the relations of `pre` all succeed and the execute of the next
relation fails, the loop of `Street.Execute` returns false and leaves the
registry in which exactly the relations of `pre` have been executed. -/
theorem Street.ExecuteRelations_fail (m : Manager) (delay : Nat)
    (pre : List Relation) (r : Relation) (post : List Relation)
    (hpre : ∀ pre1 r1 post1, pre = pre1 ++ r1 :: post1 →
      (Relation.Execute (Street.ExecuteAll m delay pre1) r1 delay).1 = true)
    (hfail : (Relation.Execute (Street.ExecuteAll m delay pre) r delay).1 = false) :
    Street.ExecuteRelations m delay (pre ++ r :: post)
      = (false, Street.ExecuteAll m delay pre) := by
  induction pre generalizing m with
  | nil =>
    have hf : (Relation.Execute m r delay).1 = false := hfail
    simp only [List.nil_append, Street.ExecuteRelations, hf, if_true]
    rw [Relation.Execute_false m r delay hf]
    rfl
  | cons r0 rest ih =>
    have h0 : (Relation.Execute m r0 delay).1 = true := hpre [] r0 rest rfl
    have hrec := ih (Relation.Execute m r0 delay).2
      (by
        intro pre1 r1 post1 hsplit
        have := hpre (r0 :: pre1) r1 post1 (by rw [hsplit]; rfl)
        simpa [Street.ExecuteAll] using this)
      (by simpa [Street.ExecuteAll] using hfail)
    simp only [List.cons_append, Street.ExecuteRelations, h0, Bool.true_eq_false, if_false]
    exact hrec

/-- C15: with the booster on, `Street.Execute` executes the relations in list
order. If the execute of every relation succeeds (in the registry left by the
relations before it), it returns true, the counter is one higher, `lastUsed` is
the time of the call and the registry is the one in which all relations have
been executed in list order. If the relations of `pre` succeed and the relation
`r` after them fails, it returns false, the route (with counter and `lastUsed`)
is unchanged and the registry is the one in which exactly the relations of
`pre` have been executed: they stand, and none of `post` has been executed. -/
theorem execute_contract (s : Street) (m : Manager) (now : Nat)
    (hb : m.booster ≠ BoosterStop) :
    ((∀ pre r post, s.relations = pre ++ r :: post →
        (Relation.Execute (Street.ExecuteAll m s.delay pre) r s.delay).1 = true) →
      s.Execute m now
        = (true, { s with lastUsed := now, counter := s.counter + 1 },
            Street.ExecuteAll m s.delay s.relations)) ∧
    (∀ pre r post, s.relations = pre ++ r :: post →
      (∀ pre1 r1 post1, pre = pre1 ++ r1 :: post1 →
        (Relation.Execute (Street.ExecuteAll m s.delay pre1) r1 s.delay).1 = true) →
      (Relation.Execute (Street.ExecuteAll m s.delay pre) r s.delay).1 = false →
      s.Execute m now = (false, s, Street.ExecuteAll m s.delay pre)) := by
  constructor
  · intro h
    simp only [Street.Execute, Manager.Booster]
    rw [if_neg hb, Street.ExecuteRelations_all m s.delay s.relations h]
    simp
  · intro pre r post hsplit hpre hfail
    simp only [Street.Execute, Manager.Booster]
    rw [if_neg hb, hsplit, Street.ExecuteRelations_fail m s.delay pre r post hpre hfail]
    simp

theorem List.singleton_split {α : Type} (a : α) (pre : List α) (r : α) (post : List α)
    (h : [a] = pre ++ r :: post) : pre = [] ∧ r = a ∧ post = [] := by
  cases pre with
  | nil =>
    simp only [List.nil_append, List.cons.injEq] at h
    exact ⟨rfl, h.1.symm, h.2.symm⟩
  | cons x rest => simp at h

/-- Instances of C15: in scenario S2 the route is executed: switch 1 is set,
the counter goes from 0 to 1 and `lastUsed` is the time 1000 of the call. The
route of scenario S3, executed where switch 2 does not exist, fails at its
second relation: switch 1 stays set and the route is unchanged. -/
theorem execute_contract_witness :
    contentionStreet.Execute contentionManager 1000
      = (true, { contentionStreet with lastUsed := 1000, counter := contentionStreet.counter + 1 },
          Street.ExecuteAll contentionManager contentionStreet.delay contentionStreet.relations) ∧
    rollbackStreet.Execute contentionManager 1000
      = (false, rollbackStreet,
          Street.ExecuteAll contentionManager rollbackStreet.delay
            [{ objectType2 := ObjectTypeSwitch, objectID2 := 1, priority := 1, data := 0 }]) :=
  ⟨(execute_contract contentionStreet contentionManager 1000 (by decide)).1
      (by
        intro pre r post h
        obtain ⟨h1, h2, -⟩ := List.singleton_split _ pre r post h
        subst h1 h2
        decide),
   (execute_contract rollbackStreet contentionManager 1000 (by decide)).2
      [{ objectType2 := ObjectTypeSwitch, objectID2 := 1, priority := 1, data := 0 }]
      { objectType2 := ObjectTypeSwitch, objectID2 := 2, priority := 2, data := 1 } []
      (by decide)
      (by
        intro pre r post h
        obtain ⟨h1, h2, -⟩ := List.singleton_split _ pre r post h
        subst h1 h2
        decide)
      (by decide)⟩

theorem Manager.CallAll_objects_congr (f : LockableItem → Bool × LockableItem)
    (rs : List Relation) (m1 m2 : Manager) (h : m1.objects = m2.objects) :
    (Manager.CallAll f m1 rs).objects = (Manager.CallAll f m2 rs).objects := by
  induction rs generalizing m1 m2 with
  | nil => exact h
  | cons r rest ih =>
    simp only [Manager.CallAll]
    apply ih
    funext k
    rw [Manager.CallOn_objects, Manager.CallOn_objects, h]

theorem LockableItem.Release_owned (i : LockableItem) (L : locoID_t) (h : i.OwnedBy L) :
    (i.Release L).1 = true
      ∧ (i.Release L).2 = { lockState := LockStateFree, locoID := LocoNone } := by
  obtain ⟨h1, h2⟩ := h
  simp only [LockableItem.Release]
  split_ifs <;> simp_all

/-- C14: while the booster state is Stop, `Street.Reserve`, `Street.Lock` and
`Street.Execute` return false and leave the route (lock state, owner, counter,
`lastUsed`) and the registry (lock states, owners and states of all objects)
unchanged. `Street.Release` is not blocked: it returns the flag and leaves the
route and the objects it would with the booster on, and a route owned by `L`
is released by it. -/
theorem booster_stop_blocks (s : Street) (m : Manager) (L : locoID_t) (now : Nat)
    (h : m.booster = BoosterStop) :
    s.Reserve m L = (false, s, m)
      ∧ s.Lock m L = (false, s, m)
      ∧ s.Execute m now = (false, s, m)
      ∧ (s.Release m L).1 = (s.Release { m with booster := BoosterGo } L).1
      ∧ (s.Release m L).2.1 = (s.Release { m with booster := BoosterGo } L).2.1
      ∧ (s.Release m L).2.2.objects
          = (s.Release { m with booster := BoosterGo } L).2.2.objects
      ∧ (s.toLockableItem.OwnedBy L →
          (s.Release m L).1 = true
            ∧ (s.Release m L).2.1.toLockableItem
                = { lockState := LockStateFree, locoID := LocoNone }) := by
  refine ⟨?_, ?_, ?_, rfl, rfl, ?_, ?_⟩
  · simp only [Street.Reserve, Manager.Booster]
    rw [if_pos h]
  · simp only [Street.Lock, Manager.Booster]
    rw [if_pos h]
  · simp only [Street.Execute, Manager.Booster]
    rw [if_pos h]
  · simp only [Street.Release, Street.ReleaseInternal, Street.ReleaseRelations_eq]
    exact Manager.CallAll_objects_congr _ _ _ _ rfl
  · intro ho
    exact LockableItem.Release_owned _ L ho

/-- Instance of C14: scenario S2 with the route reserved by loco 1 and the
booster off. -/
theorem booster_stop_blocks_witness :
    reservedScenario.1.Reserve stoppedManager 1 = (false, reservedScenario.1, stoppedManager)
      ∧ reservedScenario.1.Lock stoppedManager 1 = (false, reservedScenario.1, stoppedManager)
      ∧ reservedScenario.1.Execute stoppedManager 1000
          = (false, reservedScenario.1, stoppedManager)
      ∧ (reservedScenario.1.Release stoppedManager 1).1
          = (reservedScenario.1.Release { stoppedManager with booster := BoosterGo } 1).1
      ∧ (reservedScenario.1.Release stoppedManager 1).2.1
          = (reservedScenario.1.Release { stoppedManager with booster := BoosterGo } 1).2.1
      ∧ (reservedScenario.1.Release stoppedManager 1).2.2.objects
          = (reservedScenario.1.Release { stoppedManager with booster := BoosterGo } 1).2.2.objects
      ∧ (reservedScenario.1.toLockableItem.OwnedBy 1 →
          (reservedScenario.1.Release stoppedManager 1).1 = true
            ∧ (reservedScenario.1.Release stoppedManager 1).2.1.toLockableItem
                = { lockState := LockStateFree, locoID := LocoNone }) :=
  booster_stop_blocks reservedScenario.1 stoppedManager 1 1000 rfl

/-! ## Rollback of a failed lock, and release -/

theorem LockableItem.Release_not_owned (i : LockableItem) (L : locoID_t) :
    ¬ (i.Release L).2.OwnedBy L := by
  simp only [LockableItem.Release, LockableItem.OwnedBy]
  split_ifs <;> simp_all

/-- An object that has been through `Release` for `L` is not owned by `L`,
whatever it was before. -/
theorem LockableItem.Release_map_not_owned (o : Option LockableItem) (L : locoID_t) :
    ¬ ∃ li, o.map (fun i => (i.Release L).2) = some li ∧ li.OwnedBy L := by
  rintro ⟨li, hli, ho⟩
  cases o with
  | none => simp at hli
  | some i =>
    simp only [Option.map_some', Option.some.injEq] at hli
    subst hli
    exact LockableItem.Release_not_owned i L ho

/-- After the release loop no relation target is owned by `L`. -/
theorem Street.ReleaseRelations_not_owned (m : Manager) (L : locoID_t) (rs : List Relation)
    (r : Relation) (hr : r ∈ rs) :
    ¬ (Street.ReleaseRelations m L rs).Holds (fun i => i.OwnedBy L) r.target := by
  rw [Street.ReleaseRelations_eq]
  exact Manager.CallAll_target (fun i => i.Release L) (fun _ => True)
    (fun o => ¬ ∃ li, o = some li ∧ li.OwnedBy L)
    (fun o _ => LockableItem.Release_map_not_owned o L)
    (fun o _ => LockableItem.Release_map_not_owned o L) rs m r hr trivial

/-- The release loop does not make `L` the owner of anything. -/
theorem Street.ReleaseRelations_keeps_not_owned (m : Manager) (L : locoID_t)
    (rs : List Relation) (k : ObjectIdentifier)
    (h : ¬ m.Holds (fun i => i.OwnedBy L) k) :
    ¬ (Street.ReleaseRelations m L rs).Holds (fun i => i.OwnedBy L) k := by
  rw [Street.ReleaseRelations_eq]
  exact Manager.CallAll_pointwise (fun i => i.Release L)
    (fun o => ¬ ∃ li, o = some li ∧ li.OwnedBy L)
    (fun o _ => LockableItem.Release_map_not_owned o L) rs m k h

/-- The release loop leaves alone every object that is the target of no
relation of the list. -/
theorem Manager.CallAll_frame (f : LockableItem → Bool × LockableItem)
    (rs : List Relation) (m : Manager) (k : ObjectIdentifier)
    (h : ∀ r ∈ rs, r.target ≠ k) :
    (Manager.CallAll f m rs).objects k = m.objects k := by
  induction rs generalizing m with
  | nil => rfl
  | cons r rest ih =>
    simp only [Manager.CallAll]
    rw [ih _ (fun r2 hr2 => h r2 (List.mem_cons_of_mem _ hr2)), Manager.CallOn_objects,
      if_neg (fun hk => h r (List.mem_cons_self _ _) hk.symm)]

/-- The three ways in which `Street.Lock` returns false, with the route and the
manager each of them leaves. -/
theorem Street.Lock_false (s : Street) (m : Manager) (L : locoID_t)
    (h : (s.Lock m L).1 = false) :
    ((m.booster = BoosterStop ∨ (s.toLockableItem.Lock L).1 = false)
        ∧ (s.Lock m L).2 = (s, m))
      ∨ (m.booster ≠ BoosterStop
        ∧ (s.toLockableItem.Lock L).1 = true
        ∧ (Street.LockToTrack s m L).1 = false
        ∧ (s.Lock m L).2
            = (Street.ReleaseInternal { s with toLockableItem := (s.toLockableItem.Lock L).2 }
                (Street.LockToTrack s m L).2 L).2)
      ∨ (m.booster ≠ BoosterStop
        ∧ (s.toLockableItem.Lock L).1 = true
        ∧ (Street.LockToTrack s m L).1 = true
        ∧ (s.Lock m L).2
            = Street.ReleaseInternalWithToTrack
                { s with toLockableItem := (s.toLockableItem.Lock L).2 }
                (Street.LockRelations (Street.LockToTrack s m L).2 L s.relations).2 L) := by
  have htrack : Street.LockToTrack
      { s with toLockableItem := (s.toLockableItem.Lock L).2 } m L
        = Street.LockToTrack s m L := rfl
  simp only [Street.Lock, Manager.Booster, htrack] at h ⊢
  by_cases h1 : m.booster = BoosterStop
  · rw [if_pos h1]
    exact Or.inl ⟨Or.inl h1, rfl⟩
  by_cases h2 : (s.toLockableItem.Lock L).1 = false
  · rw [if_neg h1, if_pos h2]
    refine Or.inl ⟨Or.inr h2, ?_⟩
    simp only [LockableItem.Lock_false_same _ L h2]
  by_cases h3 : (Street.LockToTrack s m L).1 = false
  · rw [if_neg h1, if_neg h2, if_pos h3]
    exact Or.inr (Or.inl ⟨h1, by simpa using h2, h3, rfl⟩)
  by_cases h4 : (Street.LockRelations (Street.LockToTrack s m L).2 L s.relations).1 = false
  · rw [if_neg h1, if_neg h2, if_neg h3, if_pos h4]
    exact Or.inr (Or.inr ⟨h1, by simpa using h2, by simpa using h3, rfl⟩)
  · rw [if_neg h1, if_neg h2, if_neg h3, if_neg h4] at h
    exact (Bool.false_ne_true h.symm).elim

/-- When the destination track block of `Street.Lock` fails, the registry holds
the same objects as before. -/
theorem Street.LockToTrack_false (s : Street) (m : Manager) (L : locoID_t)
    (h : (Street.LockToTrack s m L).1 = false) :
    ∀ k, (Street.LockToTrack s m L).2.objects k = m.objects k := by
  unfold Street.LockToTrack at h ⊢
  split_ifs at h ⊢
  · cases ht : m.GetTrack s.toTrack with
    | none => exact fun k => rfl
    | some track =>
      simp only [ht] at h
      intro k
      simp only [Manager.SetObject]
      split_ifs with hkey
      · rw [LockableItem.Lock_false_same track L h, hkey]
        exact ht.symm
      · rfl

/-- After `Street.ReleaseInternalWithToTrack` the destination track is not
owned by `L`. -/
theorem Street.ReleaseInternalWithToTrack_track (s : Street) (m : Manager) (L : locoID_t) :
    ¬ (Street.ReleaseInternalWithToTrack s m L).2.Holds (fun i => i.OwnedBy L)
        s.toTrackIdentifier := by
  simp only [Street.ReleaseInternalWithToTrack, Street.ReleaseInternal]
  apply Street.ReleaseRelations_keeps_not_owned
  cases ht : m.GetTrack s.toTrack with
  | none =>
    rintro ⟨li, hli, -⟩
    rw [show m.objects s.toTrackIdentifier = m.GetTrack s.toTrack from rfl, ht] at hli
    cases hli
  | some track =>
    rintro ⟨li, hli, ho⟩
    simp only [Manager.SetObject, Street.toTrackIdentifier, if_true, Option.some.injEq] at hli
    subst hli
    exact LockableItem.Release_not_owned track L ho

/-- C11, as stated, fails: the automode route reserved by loco 1 whose
destination track loco 1 has hard-locked already is not locked by
`Street.Lock` (the call fails at the destination track), and after the call
the destination track is still owned by loco 1. -/
theorem lock_failure_keeps_track :
    ((reservedStreet AutomodeYes).Lock
        (oneTrackManager { lockState := LockStateHardLocked, locoID := 1 }) 1).1 = false
      ∧ (Street.LockToTrack (reservedStreet AutomodeYes)
          (oneTrackManager { lockState := LockStateHardLocked, locoID := 1 }) 1).1 = false
      ∧ ((reservedStreet AutomodeYes).Lock
          (oneTrackManager { lockState := LockStateHardLocked, locoID := 1 }) 1).2.2.Holds
            (fun i => i.OwnedBy 1) (reservedStreet AutomodeYes).toTrackIdentifier := by
  decide

/-- C11, amended: take a route reserved by `L`, with the booster on, on which
`Street.Lock` returns false. After the call neither the route nor any relation
target is owned by `L`. When the call fails at a relation, the rollback is that
of `ReleaseInternalWithToTrack` and the destination track is not owned by `L`
either. When the call fails at the destination track, the rollback is that of
`ReleaseInternal`, which does not release the destination track: the track is
as it was before the call unless it is the target of a relation. -/
theorem lock_failure_rollback (s : Street) (m : Manager) (L : locoID_t)
    (hb : m.booster ≠ BoosterStop)
    (hres : s.lockState = LockStateReserved ∧ s.locoID = L)
    (hfail : (s.Lock m L).1 = false) :
    ¬ (s.Lock m L).2.1.toLockableItem.OwnedBy L
      ∧ (∀ r ∈ s.relations, ¬ (s.Lock m L).2.2.Holds (fun i => i.OwnedBy L) r.target)
      ∧ ((Street.LockToTrack s m L).1 = true →
          (s.Lock m L).2
              = Street.ReleaseInternalWithToTrack
                  { s with toLockableItem := (s.toLockableItem.Lock L).2 }
                  (Street.LockRelations (Street.LockToTrack s m L).2 L s.relations).2 L
            ∧ ¬ (s.Lock m L).2.2.Holds (fun i => i.OwnedBy L) s.toTrackIdentifier)
      ∧ ((Street.LockToTrack s m L).1 = false →
          (s.Lock m L).2
              = (Street.ReleaseInternal
                  { s with toLockableItem := (s.toLockableItem.Lock L).2 }
                  (Street.LockToTrack s m L).2 L).2
            ∧ ((∀ r ∈ s.relations, r.target ≠ s.toTrackIdentifier) →
                (s.Lock m L).2.2.GetTrack s.toTrack = m.GetTrack s.toTrack)) := by
  have hself : (s.toLockableItem.Lock L).1 = true := (LockableItem.Lock_true_iff _ L).mpr hres
  rcases Street.Lock_false s m L hfail with ⟨h0 | h0, -⟩ | ⟨-, -, htrack, h⟩ | ⟨-, -, htrack, h⟩
  · exact absurd h0 hb
  · rw [hself] at h0
    exact (Bool.false_ne_true h0.symm).elim
  · rw [h]
    refine ⟨?_, ?_, ?_, ?_⟩
    · exact LockableItem.Release_not_owned _ L
    · intro r hr
      exact Street.ReleaseRelations_not_owned _ L _ r hr
    · intro ht
      rw [htrack] at ht
      exact (Bool.false_ne_true ht).elim
    · intro _
      refine ⟨rfl, fun hne => ?_⟩
      simp only [Street.ReleaseInternal, Street.ReleaseRelations_eq, Manager.GetTrack]
      have hframe := Manager.CallAll_frame (fun i => i.Release L) s.relations
        (Street.LockToTrack s m L).2 s.toTrackIdentifier hne
      exact hframe.trans (Street.LockToTrack_false s m L htrack _)
  · rw [h]
    refine ⟨?_, ?_, ?_, ?_⟩
    · exact LockableItem.Release_not_owned _ L
    · intro r hr
      exact Street.ReleaseRelations_not_owned _ L _ r hr
    · intro _
      exact ⟨rfl, Street.ReleaseInternalWithToTrack_track _ _ L⟩
    · intro ht
      rw [htrack] at ht
      exact (Bool.false_ne_true ht.symm).elim

/-- Instance of amended C11: in scenario S2 loco 1 has reserved the route and
switch 1 has come to be owned by loco 2; `Lock` for loco 1 fails at the
relation and rolls back with the destination track. -/
theorem lock_failure_rollback_witness :
    ¬ (lostSwitchScenario.1.Lock lostSwitchScenario.2 1).2.1.toLockableItem.OwnedBy 1
      ∧ (∀ r ∈ lostSwitchScenario.1.relations,
          ¬ (lostSwitchScenario.1.Lock lostSwitchScenario.2 1).2.2.Holds
              (fun i => i.OwnedBy 1) r.target)
      ∧ ((Street.LockToTrack lostSwitchScenario.1 lostSwitchScenario.2 1).1 = true →
          (lostSwitchScenario.1.Lock lostSwitchScenario.2 1).2
              = Street.ReleaseInternalWithToTrack
                  { lostSwitchScenario.1 with
                    toLockableItem := (lostSwitchScenario.1.toLockableItem.Lock 1).2 }
                  (Street.LockRelations
                    (Street.LockToTrack lostSwitchScenario.1 lostSwitchScenario.2 1).2 1
                    lostSwitchScenario.1.relations).2 1
            ∧ ¬ (lostSwitchScenario.1.Lock lostSwitchScenario.2 1).2.2.Holds
                (fun i => i.OwnedBy 1) lostSwitchScenario.1.toTrackIdentifier)
      ∧ ((Street.LockToTrack lostSwitchScenario.1 lostSwitchScenario.2 1).1 = false →
          (lostSwitchScenario.1.Lock lostSwitchScenario.2 1).2
              = (Street.ReleaseInternal
                  { lostSwitchScenario.1 with
                    toLockableItem := (lostSwitchScenario.1.toLockableItem.Lock 1).2 }
                  (Street.LockToTrack lostSwitchScenario.1 lostSwitchScenario.2 1).2 1).2
            ∧ ((∀ r ∈ lostSwitchScenario.1.relations,
                  r.target ≠ lostSwitchScenario.1.toTrackIdentifier) →
                (lostSwitchScenario.1.Lock lostSwitchScenario.2 1).2.2.GetTrack
                    lostSwitchScenario.1.toTrack
                  = lostSwitchScenario.2.GetTrack lostSwitchScenario.1.toTrack)) :=
  lock_failure_rollback lostSwitchScenario.1 lostSwitchScenario.2 1
    (by decide) (by decide) (by decide)

theorem LockableItem.Release_hardLocked (i : LockableItem) (L : locoID_t)
    (h : i.HardLockedBy L) :
    (i.Release L).1 = true
      ∧ (i.Release L).2 = { lockState := LockStateFree, locoID := LocoNone } := by
  obtain ⟨h1, h2⟩ := h
  simp only [LockableItem.Release]
  split_ifs <;> simp_all

theorem LockableItem.Release_free (L : locoID_t) :
    (LockableItem.Release { lockState := LockStateFree, locoID := LocoNone } L).2
      = { lockState := LockStateFree, locoID := LocoNone } := by
  simp [LockableItem.Release]

/-- When the relation loop of `Street.Lock` runs to the end, no relation
targets an object that was hard-locked by `L` before the loop. -/
theorem Street.LockRelations_true_ne (m : Manager) (L : locoID_t) (rs : List Relation)
    (k : ObjectIdentifier) (hk : m.Holds (fun i => i.HardLockedBy L) k)
    (h : (Street.LockRelations m L rs).1 = true) : ∀ r ∈ rs, r.target ≠ k := by
  induction rs generalizing m with
  | nil => intro r hr; simp at hr
  | cons r0 rest ih =>
    simp only [Street.LockRelations] at h
    by_cases h0 : (Relation.Lock m r0 L).1 = false
    · rw [if_pos h0] at h
      exact (Bool.false_ne_true h).elim
    · rw [if_neg h0] at h
      have hcall : (m.CallOn r0 (fun i => i.Lock L)).1 = true := by simpa using h0
      obtain ⟨li, hli, hlock⟩ := Manager.CallOn_true m r0 _ hcall
      have hne0 : r0.target ≠ k := by
        intro heq
        obtain ⟨li2, hli2, hhard⟩ := hk
        rw [← heq, hli] at hli2
        cases hli2
        have := (LockableItem.Lock_true_iff li L).mp hlock
        rw [hhard.1] at this
        exact absurd this.1 (by decide)
      have hk2 : (Relation.Lock m r0 L).2.Holds (fun i => i.HardLockedBy L) k := by
        obtain ⟨li2, hli2, hhard⟩ := hk
        refine ⟨li2, ?_, hhard⟩
        have : (Relation.Lock m r0 L).2 = (m.CallOn r0 (fun i => i.Lock L)).2 := rfl
        rw [this, Manager.CallOn_objects, if_neg (fun hkk => hne0 hkk.symm)]
        exact hli2
      intro r hr
      rcases List.mem_cons.mp hr with hr0 | hr0
      · rw [hr0]
        exact hne0
      · exact ih _ hk2 h r hr0

/-- C12, as stated, fails. On the route from track 1 to track 2 that is not in
automode, reserved by loco 1, `Lock` succeeds for loco 1; before and after the
`Release` that follows, track 2 is free, not owned by loco 1. And on the route
without automode whose relation targets its own destination track, loco 1
reserves and locks the route, track 2 is then hard-locked by loco 1, and
`Release` leaves track 2 free: the destination track is changed. -/
theorem release_changes_aliased_track :
    (((reservedStreet AutomodeNo).Lock (oneTrackManager LockableItem.construct) 1).1 = true
      ∧ ¬ (((reservedStreet AutomodeNo).Lock (oneTrackManager LockableItem.construct) 1).2.1.Release
            ((reservedStreet AutomodeNo).Lock (oneTrackManager LockableItem.construct) 1).2.2
            1).2.2.Holds (fun i => i.OwnedBy 1) (reservedStreet AutomodeNo).toTrackIdentifier) ∧
    ((aliasStreet.Reserve (oneTrackManager LockableItem.construct) 1).1 = true
      ∧ (aliasReserved.1.Lock aliasReserved.2 1).1 = true
      ∧ aliasLocked.2.GetTrack aliasStreet.toTrack
          = some { lockState := LockStateHardLocked, locoID := 1 }
      ∧ (aliasLocked.1.Release aliasLocked.2 1).2.2.GetTrack aliasStreet.toTrack
          = some { lockState := LockStateFree, locoID := LocoNone }) := by
  decide

/-- C12, amended: when `Street.Lock` has returned true for loco `L`, the
`Release` for `L` that follows returns true and leaves the route and the
target of every relation free with no owner. For a route in automode the
destination track is as it was before the release, hard-locked by `L`. For a
route without automode the destination track is as it was before the release
when no relation targets it. -/
theorem release_after_lock (s : Street) (m : Manager) (L : locoID_t)
    (h : (s.Lock m L).1 = true) :
    ((s.Lock m L).2.1.Release (s.Lock m L).2.2 L).1 = true
      ∧ ((s.Lock m L).2.1.Release (s.Lock m L).2.2 L).2.1.toLockableItem
          = { lockState := LockStateFree, locoID := LocoNone }
      ∧ (∀ r ∈ s.relations,
          ((s.Lock m L).2.1.Release (s.Lock m L).2.2 L).2.2.objects r.target
            = some { lockState := LockStateFree, locoID := LocoNone })
      ∧ (s.automode = AutomodeYes →
          ((s.Lock m L).2.1.Release (s.Lock m L).2.2 L).2.2.GetTrack s.toTrack
              = (s.Lock m L).2.2.GetTrack s.toTrack
            ∧ (s.Lock m L).2.2.Holds (fun i => i.HardLockedBy L) s.toTrackIdentifier)
      ∧ ((∀ r ∈ s.relations, r.target ≠ s.toTrackIdentifier) →
          ((s.Lock m L).2.1.Release (s.Lock m L).2.2 L).2.2.GetTrack s.toTrack
            = (s.Lock m L).2.2.GetTrack s.toTrack) := by
  obtain ⟨-, hself, htrack, hrel, hs, hm⟩ := Street.Lock_true s m L h
  have hroute := LockableItem.Release_hardLocked _ L (LockableItem.Lock_true_hardLocked _ L hself)
  have htargets : ∀ r ∈ s.relations,
      (Street.LockRelations (Street.LockToTrack s m L).2 L s.relations).2.Holds
        (fun i => i.HardLockedBy L) r.target := by
    rw [Street.LockRelations_eq] at hrel ⊢
    exact Manager.CallUntilFailure_true (fun i => i.Lock L) (fun i => i.HardLockedBy L)
      (fun li hli => LockableItem.Lock_true_hardLocked li L hli)
      (fun li hli => by rw [LockableItem.Lock_hardLocked_same li L hli]; exact hli)
      s.relations _ hrel
  rw [hs, hm]
  simp only [Street.Release, Street.ReleaseInternal, Street.ReleaseRelations_eq,
    Manager.GetTrack]
  refine ⟨hroute.1, hroute.2, ?_, ?_, ?_⟩
  · intro r hr
    refine Manager.CallAll_target (fun i => i.Release L)
      (fun o => ∃ li, o = some li ∧ li.HardLockedBy L)
      (fun o => o = some { lockState := LockStateFree, locoID := LocoNone }) ?_ ?_
      s.relations _ r hr (htargets r hr)
    · rintro o rfl
      simp [LockableItem.Release_free]
    · rintro o ⟨li, rfl, hli⟩
      simp [(LockableItem.Release_hardLocked li L hli).2]
  · intro hauto
    have hlocked := Street.LockToTrack_true s m L hauto htrack
    have hne := Street.LockRelations_true_ne _ L s.relations _ hlocked hrel
    exact ⟨Manager.CallAll_frame (fun i => i.Release L) s.relations _ s.toTrackIdentifier hne,
      Street.LockRelations_keeps _ L _ _ hlocked⟩
  · intro hne
    exact Manager.CallAll_frame (fun i => i.Release L) s.relations _ s.toTrackIdentifier hne

/-- Instance of amended C12: in scenario S2 loco 1 has reserved and locked the
route; after `Release` the route and switch 1 are free and track 2 is still
hard-locked by loco 1. -/
theorem release_after_lock_witness :
    ((reservedScenario.1.Lock reservedScenario.2 1).2.1.Release
        (reservedScenario.1.Lock reservedScenario.2 1).2.2 1).1 = true
      ∧ ((reservedScenario.1.Lock reservedScenario.2 1).2.1.Release
          (reservedScenario.1.Lock reservedScenario.2 1).2.2 1).2.1.toLockableItem
          = { lockState := LockStateFree, locoID := LocoNone }
      ∧ (∀ r ∈ reservedScenario.1.relations,
          ((reservedScenario.1.Lock reservedScenario.2 1).2.1.Release
            (reservedScenario.1.Lock reservedScenario.2 1).2.2 1).2.2.objects r.target
            = some { lockState := LockStateFree, locoID := LocoNone })
      ∧ (reservedScenario.1.automode = AutomodeYes →
          ((reservedScenario.1.Lock reservedScenario.2 1).2.1.Release
            (reservedScenario.1.Lock reservedScenario.2 1).2.2 1).2.2.GetTrack
              reservedScenario.1.toTrack
              = (reservedScenario.1.Lock reservedScenario.2 1).2.2.GetTrack
                  reservedScenario.1.toTrack
            ∧ (reservedScenario.1.Lock reservedScenario.2 1).2.2.Holds
                (fun i => i.HardLockedBy 1) reservedScenario.1.toTrackIdentifier)
      ∧ ((∀ r ∈ reservedScenario.1.relations,
            r.target ≠ reservedScenario.1.toTrackIdentifier) →
          ((reservedScenario.1.Lock reservedScenario.2 1).2.1.Release
            (reservedScenario.1.Lock reservedScenario.2 1).2.2 1).2.2.GetTrack
              reservedScenario.1.toTrack
            = (reservedScenario.1.Lock reservedScenario.2 1).2.2.GetTrack
                reservedScenario.1.toTrack) :=
  release_after_lock reservedScenario.1 reservedScenario.2 1 (by decide)

/-! ## Order of the relation traversals -/

theorem HandleRouteSave.relationsAtLockLoop_priorities (relType relId relState : Nat → Nat)
    (fromTrack toTrack : ObjectIdentifier) (remaining relationId priorityAtLock : Nat) :
    (HandleRouteSave.relationsAtLockLoop relType relId relState fromTrack toTrack
        remaining relationId priorityAtLock).map Relation.priority
      = List.range' priorityAtLock
          (HandleRouteSave.relationsAtLockLoop relType relId relState fromTrack toTrack
            remaining relationId priorityAtLock).length := by
  induction remaining generalizing relationId priorityAtLock with
  | zero => rfl
  | succ n ih =>
    simp only [HandleRouteSave.relationsAtLockLoop]
    split_ifs
    · exact ih _ _
    · exact ih _ _
    · exact ih _ _
    · simp only [List.map_cons, List.length_cons, List.range'_succ, ih]

/-- Writing back an object that exists does not change which targets exist. -/
theorem Manager.SetObject_hasTarget (m : Manager) (k : ObjectIdentifier) (i : LockableItem)
    (hk : (m.objects k).isSome = true) (r : Relation) :
    Relation.HasTarget (m.SetObject k i) r = Relation.HasTarget m r := by
  simp only [Relation.HasTarget, Relation.GetObject2, Manager.SetObject]
  split_ifs with h
  · rw [h, hk]
    rfl
  · rfl

/-- A call through a relation does not change which targets exist. -/
theorem Manager.CallOn_hasTarget (m : Manager) (r : Relation)
    (f : LockableItem → Bool × LockableItem) (r2 : Relation) :
    Relation.HasTarget (m.CallOn r f).2 r2 = Relation.HasTarget m r2 := by
  simp only [Relation.HasTarget, Relation.GetObject2, Manager.CallOn_objects]
  split_ifs <;> simp

/-- The loop that calls all the relations records them in list order, each
after the calls recorded before: the relations whose target exists. -/
theorem Manager.CallAll_calls (f : LockableItem → Bool × LockableItem) (rs : List Relation) :
    ∀ m : Manager,
      (Manager.CallAll f m rs).calls = m.calls ++ rs.filter (Relation.HasTarget m)
        ∧ ∀ r, Relation.HasTarget (Manager.CallAll f m rs) r = Relation.HasTarget m r := by
  induction rs with
  | nil =>
    intro m
    simp [Manager.CallAll]
  | cons r0 rest ih =>
    intro m
    obtain ⟨h1, h2⟩ := ih (m.CallOn r0 f).2
    have hfilter : rest.filter (Relation.HasTarget (m.CallOn r0 f).2)
        = rest.filter (Relation.HasTarget m) :=
      List.filter_congr (fun x _ => Manager.CallOn_hasTarget m r0 f x)
    simp only [Manager.CallAll]
    refine ⟨?_, fun r => (h2 r).trans (Manager.CallOn_hasTarget m r0 f r)⟩
    rw [h1, hfilter, Manager.CallOn_calls, List.filter_cons]
    simp only [Relation.HasTarget, Relation.GetObject2]
    split_ifs <;> simp

/-- The loop that stops at the first failure records the relations it has
called, in list order: a prefix of the list, which is the whole list when the
loop returns true and is not empty when it returns false. -/
theorem Manager.CallUntilFailure_calls (f : LockableItem → Bool × LockableItem)
    (rs : List Relation) :
    ∀ m : Manager,
      (∃ visited, visited <+: rs
        ∧ (Manager.CallUntilFailure f m rs).2.calls
            = m.calls ++ visited.filter (Relation.HasTarget m)
        ∧ ((Manager.CallUntilFailure f m rs).1 = true →
            visited = rs ∧ rs.filter (Relation.HasTarget m) = rs)
        ∧ ((Manager.CallUntilFailure f m rs).1 = false → visited ≠ []))
      ∧ ∀ r, Relation.HasTarget (Manager.CallUntilFailure f m rs).2 r
          = Relation.HasTarget m r := by
  induction rs with
  | nil =>
    intro m
    refine ⟨⟨[], List.prefix_refl _, by simp [Manager.CallUntilFailure], ?_, ?_⟩, fun r => rfl⟩
    · intro _
      exact ⟨rfl, rfl⟩
    · intro h
      simp [Manager.CallUntilFailure] at h
  | cons r0 rest ih =>
    intro m
    simp only [Manager.CallUntilFailure]
    by_cases h0 : (m.CallOn r0 f).1 = false
    · rw [if_pos h0]
      refine ⟨⟨[r0], ⟨rest, rfl⟩, ?_, ?_, ?_⟩, fun r => Manager.CallOn_hasTarget m r0 f r⟩
      · rw [Manager.CallOn_calls, List.filter_cons]
        simp only [Relation.HasTarget, Relation.GetObject2, List.filter_nil]
      · intro h
        exact (Bool.false_ne_true h).elim
      · intro _
        simp
    · rw [if_neg h0]
      obtain ⟨⟨visited, hpre, hcalls, htrue, hfalse⟩, hex⟩ := ih (m.CallOn r0 f).2
      obtain ⟨li, hli, -⟩ := Manager.CallOn_true m r0 f (by simpa using h0)
      have hr0 : Relation.HasTarget m r0 = true := by
        simp [Relation.HasTarget, Relation.GetObject2, hli]
      have hfilter : ∀ l : List Relation,
          l.filter (Relation.HasTarget (m.CallOn r0 f).2) = l.filter (Relation.HasTarget m) :=
        fun l => List.filter_congr (fun x _ => Manager.CallOn_hasTarget m r0 f x)
      refine ⟨⟨r0 :: visited, (List.prefix_cons_inj r0).mpr hpre, ?_, ?_, ?_⟩,
        fun r => (hex r).trans (Manager.CallOn_hasTarget m r0 f r)⟩
      · rw [hcalls, hfilter, Manager.CallOn_calls, List.filter_cons, hr0]
        simp [hli]
      · intro h
        obtain ⟨e1, e2⟩ := htrue h
        rw [hfilter] at e2
        refine ⟨by rw [e1], ?_⟩
        rw [List.filter_cons, hr0, if_pos rfl, e2]
      · intro _
        simp

/-- The loop of `Street.Execute` records the relations it has executed, in list
order: the whole list when it returns true, and a prefix of it, up to the
relation whose target does not exist, when it returns false. -/
theorem Street.ExecuteRelations_log (delay : Nat) (rs : List Relation) :
    ∀ m : Manager,
      ((Street.ExecuteRelations m delay rs).1 = true →
          (Street.ExecuteRelations m delay rs).2.calls = m.calls ++ rs)
        ∧ ((Street.ExecuteRelations m delay rs).1 = false →
          ∃ pre r post, rs = pre ++ r :: post
            ∧ (Street.ExecuteRelations m delay rs).2.calls = m.calls ++ pre) := by
  induction rs with
  | nil =>
    intro m
    simp [Street.ExecuteRelations]
  | cons r0 rest ih =>
    intro m
    simp only [Street.ExecuteRelations]
    by_cases h0 : (Relation.Execute m r0 delay).1 = false
    · rw [if_pos h0]
      refine ⟨fun h => (Bool.false_ne_true h).elim, fun _ => ⟨[], r0, rest, rfl, ?_⟩⟩
      rw [Relation.Execute_false m r0 delay h0]
      simp
    · rw [if_neg h0]
      have hcalls : (Relation.Execute m r0 delay).2.calls = m.calls ++ [r0] := by
        unfold Relation.Execute at h0 ⊢
        cases hk : r0.GetObject2 m with
        | none => simp [hk] at h0
        | some li => simp [Manager.Called]
      obtain ⟨i1, i2⟩ := ih (Relation.Execute m r0 delay).2
      refine ⟨?_, ?_⟩
      · intro h
        rw [i1 h, hcalls]
        simp
      · intro h
        obtain ⟨pre, r, post, hsplit, hc⟩ := i2 h
        refine ⟨r0 :: pre, r, post, by rw [hsplit]; rfl, ?_⟩
        rw [hc, hcalls]
        simp

/-- The destination track block of `Street.Reserve` calls no relation and does
not change which targets exist. -/
theorem Street.ReserveToTrack_calls (s : Street) (m : Manager) (L : locoID_t) :
    (Street.ReserveToTrack s m L).2.calls = m.calls
      ∧ ∀ r, Relation.HasTarget (Street.ReserveToTrack s m L).2 r = Relation.HasTarget m r := by
  unfold Street.ReserveToTrack
  split_ifs
  · cases ht : m.GetTrack s.toTrack with
    | none => exact ⟨rfl, fun r => rfl⟩
    | some track =>
      exact ⟨rfl, fun r => Manager.SetObject_hasTarget m _ _
        (by rw [show m.objects _ = some track from ht]; rfl) r⟩
  · exact ⟨rfl, fun r => rfl⟩

/-- The destination track block of `Street.Lock` calls no relation and does not
change which targets exist. -/
theorem Street.LockToTrack_calls (s : Street) (m : Manager) (L : locoID_t) :
    (Street.LockToTrack s m L).2.calls = m.calls
      ∧ ∀ r, Relation.HasTarget (Street.LockToTrack s m L).2 r = Relation.HasTarget m r := by
  unfold Street.LockToTrack
  split_ifs
  · cases ht : m.GetTrack s.toTrack with
    | none => exact ⟨rfl, fun r => rfl⟩
    | some track =>
      exact ⟨rfl, fun r => Manager.SetObject_hasTarget m _ _
        (by rw [show m.objects _ = some track from ht]; rfl) r⟩
  · exact ⟨rfl, fun r => rfl⟩

/-- The release loop of a route, run by `Street.ReleaseInternal`, records the
relations of the route in list order after the calls recorded before. -/
theorem Street.ReleaseInternal_calls (s : Street) (m : Manager) (L : locoID_t) :
    (s.ReleaseInternal m L).2.2.calls
      = m.calls ++ s.relations.filter (Relation.HasTarget m) := by
  simp only [Street.ReleaseInternal, Street.ReleaseRelations_eq]
  exact (Manager.CallAll_calls _ s.relations m).1

/-- `Street.ReleaseInternalWithToTrack` records the relations of the route in
list order after the calls recorded before. -/
theorem Street.ReleaseInternalWithToTrack_calls (s : Street) (m : Manager) (L : locoID_t) :
    (s.ReleaseInternalWithToTrack m L).2.calls
      = m.calls ++ s.relations.filter (Relation.HasTarget m) := by
  unfold Street.ReleaseInternalWithToTrack
  cases ht : m.GetTrack s.toTrack with
  | none => exact Street.ReleaseInternal_calls s m L
  | some track =>
    simp only []
    rw [Street.ReleaseInternal_calls]
    have hfilter : s.relations.filter (Relation.HasTarget
          (m.SetObject { objectType := ObjectTypeTrack, objectID := s.toTrack }
            (track.Release L).2))
        = s.relations.filter (Relation.HasTarget m) :=
      List.filter_congr (fun x _ => Manager.SetObject_hasTarget m _ _
        (by rw [show m.objects _ = some track from ht]; rfl) x)
    rw [hfilter]
    rfl

/-- C13, as stated, fails: in scenario S3 the relations carry the priorities 1
and 2. `Street.Release` calls `Release` through the relation with priority 1
first and through the one with priority 2 second. The failed `Street.Reserve`
of loco 1 calls `Reserve` on switch 1 and on switch 2, which fails, and its
rollback then calls `Release` on switch 1 and on switch 2, in that order. The
failed `Street.Lock` of loco 1, where switch 2 is reserved by loco 2, calls
`Lock` on switch 1 and on switch 2 and then rolls back on switch 1 and on
switch 2. Neither the release nor a rollback visits the relations in the
reverse of the list. -/
theorem release_visits_forward :
    rollbackStreet.relations.map Relation.priority = [1, 2]
      ∧ rollbackManager.calls = []
      ∧ (rollbackStreet.Release rollbackManager 1).2.2.calls.map Relation.priority = [1, 2]
      ∧ (rollbackStreet.Release rollbackManager 1).2.2.calls = rollbackStreet.relations
      ∧ (rollbackStreet.Release rollbackManager 1).2.2.calls
          ≠ rollbackStreet.relations.reverse
      ∧ (rollbackStreet.Reserve rollbackManager 1).1 = false
      ∧ (rollbackStreet.Reserve rollbackManager 1).2.2.calls.map Relation.priority
          = [1, 2, 1, 2]
      ∧ (({ rollbackStreet with lockState := LockStateReserved, locoID := 1 } : Street).Lock
          lockRollbackManager 1).1 = false
      ∧ (({ rollbackStreet with lockState := LockStateReserved, locoID := 1 } : Street).Lock
          lockRollbackManager 1).2.2.calls.map Relation.priority = [1, 2, 1, 2] := by
  decide

/-- C13, amended: the relation list that `HandleRouteSave` builds carries the
consecutive priorities 1, 2, ..., k in list order. The registry records every
call made on a target through a relation. A `Street.Reserve`, `Street.Lock` or
`Street.Execute` that returns true has called all the relations of the route,
in list order. `Street.Release`, like `Street.ReleaseInternal`, calls the
relations of the route in that same list order (those whose target exists),
and not in reverse. A `Street.Reserve` or `Street.Lock` that returns false has
called a prefix of the list, in list order, and then, when it rolls back, has
released the relations of the whole list in list order again. A
`Street.Execute` that returns false has executed a prefix of the list and
nothing after it. So on a list with the priorities 1, 2, ..., k every one of
these traversals, release and rollback included, is in ascending priority
order. -/
theorem relation_traversal_order :
    (∀ (relationCountAtLock : Nat) (relType relId relState : Nat → Nat)
        (fromTrack toTrack : ObjectIdentifier),
      (HandleRouteSave.relationsAtLock relationCountAtLock relType relId relState
          fromTrack toTrack).map Relation.priority
        = List.range' 1 (HandleRouteSave.relationsAtLock relationCountAtLock relType relId
            relState fromTrack toTrack).length) ∧
    (∀ (s : Street) (m : Manager) (L : locoID_t) (now : Nat),
      ((s.Reserve m L).1 = true → (s.Reserve m L).2.2.calls = m.calls ++ s.relations)
        ∧ ((s.Lock m L).1 = true → (s.Lock m L).2.2.calls = m.calls ++ s.relations)
        ∧ ((s.Execute m now).1 = true → (s.Execute m now).2.2.calls = m.calls ++ s.relations)) ∧
    (∀ (s : Street) (m : Manager) (L : locoID_t),
      (s.Release m L).2.2.calls = m.calls ++ s.relations.filter (Relation.HasTarget m)
        ∧ (s.ReleaseInternal m L).2.2.calls
            = m.calls ++ s.relations.filter (Relation.HasTarget m)
        ∧ ((∀ r ∈ s.relations, Relation.HasTarget m r = true) →
            (s.Release m L).2.2.calls = m.calls ++ s.relations
              ∧ ((s.Release m L).2.2.calls.drop m.calls.length).map Relation.priority
                  = s.relations.map Relation.priority)) ∧
    (∀ (s : Street) (m : Manager) (L : locoID_t) (now : Nat),
      ((s.Reserve m L).1 = false →
          ∃ visited rolled, visited <+: s.relations ∧ (rolled = [] ∨ rolled = s.relations)
            ∧ (s.Reserve m L).2.2.calls
                = m.calls ++ visited.filter (Relation.HasTarget m)
                    ++ rolled.filter (Relation.HasTarget m))
        ∧ ((s.Lock m L).1 = false →
          ∃ visited rolled, visited <+: s.relations ∧ (rolled = [] ∨ rolled = s.relations)
            ∧ (s.Lock m L).2.2.calls
                = m.calls ++ visited.filter (Relation.HasTarget m)
                    ++ rolled.filter (Relation.HasTarget m))
        ∧ ((s.Execute m now).1 = false →
          ∃ visited, visited <+: s.relations
            ∧ (s.Execute m now).2.2.calls = m.calls ++ visited)) := by
  refine ⟨?_, ?_, ?_, ?_⟩
  · intro count relType relId relState fromTrack toTrack
    exact HandleRouteSave.relationsAtLockLoop_priorities _ _ _ _ _ _ _ _
  · intro s m L now
    refine ⟨?_, ?_, ?_⟩
    · intro h
      obtain ⟨-, -, -, hloop, -, hm⟩ := Street.Reserve_true s m L h
      rw [Street.ReserveRelations_eq] at hloop hm
      obtain ⟨⟨visited, -, hcalls, htrue, -⟩, -⟩ :=
        Manager.CallUntilFailure_calls (fun i => i.Reserve L) s.relations
          (Street.ReserveToTrack s m L).2
      obtain ⟨e1, e2⟩ := htrue hloop
      rw [hm, hcalls, e1, e2, (Street.ReserveToTrack_calls s m L).1]
    · intro h
      obtain ⟨-, -, -, hloop, -, hm⟩ := Street.Lock_true s m L h
      rw [Street.LockRelations_eq] at hloop hm
      obtain ⟨⟨visited, -, hcalls, htrue, -⟩, -⟩ :=
        Manager.CallUntilFailure_calls (fun i => i.Lock L) s.relations
          (Street.LockToTrack s m L).2
      obtain ⟨e1, e2⟩ := htrue hloop
      rw [hm, hcalls, e1, e2, (Street.LockToTrack_calls s m L).1]
    · intro h
      by_cases h1 : m.Booster = BoosterStop
      · rw [Street.Execute, if_pos h1] at h
        exact (Bool.false_ne_true h).elim
      by_cases h2 : (Street.ExecuteRelations m s.delay s.relations).1 = false
      · rw [Street.Execute, if_neg h1] at h
        simp only [if_pos h2] at h
        exact (Bool.false_ne_true h).elim
      · rw [Street.Execute, if_neg h1]
        simp only [if_neg h2]
        exact (Street.ExecuteRelations_log s.delay s.relations m).1 (by simpa using h2)
  · intro s m L
    have hrel : (s.Release m L).2.2.calls
        = m.calls ++ s.relations.filter (Relation.HasTarget m) :=
      Street.ReleaseInternal_calls s m L
    refine ⟨hrel, Street.ReleaseInternal_calls s m L, ?_⟩
    intro hall
    have hfilter : s.relations.filter (Relation.HasTarget m) = s.relations :=
      List.filter_eq_self.mpr hall
    rw [hrel, hfilter]
    exact ⟨rfl, by rw [List.drop_left]⟩
  · intro s m L now
    refine ⟨?_, ?_, ?_⟩
    · intro hfail
      rcases Street.Reserve_false s m L hfail with ⟨-, h⟩ | ⟨-, -, -, h⟩ | ⟨-, -, -, h⟩
      · exact ⟨[], [], List.nil_prefix, Or.inl rfl, by rw [h]; simp⟩
      · refine ⟨[], s.relations, List.nil_prefix, Or.inr rfl, ?_⟩
        rw [h, Street.ReleaseInternal_calls, (Street.ReserveToTrack_calls s m L).1]
        have hfilter : s.relations.filter
              (Relation.HasTarget (Street.ReserveToTrack s m L).2)
            = s.relations.filter (Relation.HasTarget m) :=
          List.filter_congr (fun x _ => (Street.ReserveToTrack_calls s m L).2 x)
        simp only [hfilter, List.filter_nil, List.append_nil]
      · obtain ⟨⟨visited, hpre, hcalls, -, -⟩, hex⟩ :=
          Manager.CallUntilFailure_calls (fun i => i.Reserve L) s.relations
            (Street.ReserveToTrack s m L).2
        have hex2 : ∀ r, Relation.HasTarget
            (Manager.CallUntilFailure (fun i => i.Reserve L)
              (Street.ReserveToTrack s m L).2 s.relations).2 r = Relation.HasTarget m r :=
          fun r => (hex r).trans ((Street.ReserveToTrack_calls s m L).2 r)
        refine ⟨visited, s.relations, hpre, Or.inr rfl, ?_⟩
        rw [h, Street.ReleaseInternal_calls, Street.ReserveRelations_eq, hcalls,
          (Street.ReserveToTrack_calls s m L).1,
          List.filter_congr (fun x _ => hex2 x),
          List.filter_congr (fun x _ => (Street.ReserveToTrack_calls s m L).2 x)]
    · intro hfail
      rcases Street.Lock_false s m L hfail with ⟨-, h⟩ | ⟨-, -, -, h⟩ | ⟨-, -, -, h⟩
      · exact ⟨[], [], List.nil_prefix, Or.inl rfl, by rw [h]; simp⟩
      · refine ⟨[], s.relations, List.nil_prefix, Or.inr rfl, ?_⟩
        rw [h, Street.ReleaseInternal_calls, (Street.LockToTrack_calls s m L).1]
        have hfilter : s.relations.filter
              (Relation.HasTarget (Street.LockToTrack s m L).2)
            = s.relations.filter (Relation.HasTarget m) :=
          List.filter_congr (fun x _ => (Street.LockToTrack_calls s m L).2 x)
        simp only [hfilter, List.filter_nil, List.append_nil]
      · obtain ⟨⟨visited, hpre, hcalls, -, -⟩, hex⟩ :=
          Manager.CallUntilFailure_calls (fun i => i.Lock L) s.relations
            (Street.LockToTrack s m L).2
        have hex2 : ∀ r, Relation.HasTarget
            (Manager.CallUntilFailure (fun i => i.Lock L)
              (Street.LockToTrack s m L).2 s.relations).2 r = Relation.HasTarget m r :=
          fun r => (hex r).trans ((Street.LockToTrack_calls s m L).2 r)
        refine ⟨visited, s.relations, hpre, Or.inr rfl, ?_⟩
        rw [h, Street.ReleaseInternalWithToTrack_calls, Street.LockRelations_eq, hcalls,
          (Street.LockToTrack_calls s m L).1,
          List.filter_congr (fun x _ => hex2 x),
          List.filter_congr (fun x _ => (Street.LockToTrack_calls s m L).2 x)]
    · intro h
      by_cases h1 : m.Booster = BoosterStop
      · rw [Street.Execute, if_pos h1]
        exact ⟨[], List.nil_prefix, by simp⟩
      by_cases h2 : (Street.ExecuteRelations m s.delay s.relations).1 = false
      · rw [Street.Execute, if_neg h1]
        simp only [if_pos h2]
        obtain ⟨pre, r, post, hsplit, hc⟩ :=
          (Street.ExecuteRelations_log s.delay s.relations m).2 h2
        exact ⟨pre, ⟨r :: post, hsplit.symm⟩, hc⟩
      · rw [Street.Execute, if_neg h1] at h
        simp only [if_neg h2] at h
        exact (Bool.false_ne_true h.symm).elim

/-- Instance of amended C13, scenario S3, where all targets exist: the calls
that `Street.Release` makes are those of the relation list, with the
priorities 1 and 2 in this order. -/
theorem relation_traversal_order_witness :
    ((∀ r ∈ rollbackStreet.relations, Relation.HasTarget rollbackManager r = true)
      ∧ rollbackStreet.relations.map Relation.priority = [1, 2]
      ∧ (rollbackStreet.Release rollbackManager 1).2.2.calls.map Relation.priority = [1, 2]) ∧
    ((rollbackStreet.Release rollbackManager 1).2.2.calls
        = rollbackManager.calls ++ rollbackStreet.relations
      ∧ ((rollbackStreet.Release rollbackManager 1).2.2.calls.drop
            rollbackManager.calls.length).map Relation.priority
          = rollbackStreet.relations.map Relation.priority) :=
  ⟨by decide,
    (relation_traversal_order.2.2.1 rollbackStreet rollbackManager 1).2.2 (by decide)⟩

/-! ## Loco functions -/

/-- Below `maxCount`, `GetFunction` after `SetFunction` returns the state set,
and the other slots are as they were. -/
theorem LocoFunctions.GetFunction_SetFunction (f : LocoFunctions) (nr other : function_t)
    (state : Bool) (h : nr < LocoFunctions.maxCount) :
    (f.SetFunction nr state).GetFunction nr = state
      ∧ (other ≠ nr → (f.SetFunction nr state).GetFunction other = f.GetFunction other) := by
  have hn : ¬ nr ≥ LocoFunctions.maxCount := Nat.not_le.mpr h
  constructor
  · simp [LocoFunctions.SetFunction, LocoFunctions.GetFunction, hn]
  · intro hne
    simp only [LocoFunctions.SetFunction, LocoFunctions.GetFunction, dif_neg hn]
    split_ifs with h1 h2
    · rfl
    · exact absurd (congrArg Fin.val h2) hne
    · rfl

/-- C19 at the failing input: `maxCount` is 31, so function number 31 is
refused: after `SetFunction(31, true)` on a newly constructed object, and on
any other, `GetFunction(31)` returns false, while number 30 is stored. -/
theorem setFunction_31_refused :
    LocoFunctions.maxCount = 31
      ∧ (LocoFunctions.construct.SetFunction 31 true).GetFunction 31 = false
      ∧ (∀ f : LocoFunctions, (f.SetFunction 31 true).GetFunction 31 = false)
      ∧ (LocoFunctions.construct.SetFunction 30 true).GetFunction 30 = true := by
  refine ⟨by decide, by decide, fun f => ?_, by decide⟩
  simp [LocoFunctions.GetFunction, LocoFunctions.maxCount, LocoFunctions.maxFunctions]

/-! ## Candidate routes -/

theorem Track.getValidStreetsLoop_eq {σ : Type}
    (gate : σ → trackID_t → direction_t → Bool) (t : Track) (streets validStreets : List σ) :
    Track.getValidStreetsLoop gate t streets validStreets
      = validStreets ++ streets.filter (fun street => gate street t.objectID t.locoDirection) := by
  induction streets generalizing validStreets with
  | nil => simp [Track.getValidStreetsLoop]
  | cons street rest ih =>
    simp only [Track.getValidStreetsLoop, List.filter_cons]
    split_ifs <;> simp [ih]

theorem Block.getValidStreetsLoop_filter {σ : Type}
    (gate : σ → objectID_t → direction_t → Bool) (b : Block) (streets validStreets : List σ) :
    Block.getValidStreetsLoop gate b streets validStreets
      = validStreets ++ streets.filter (fun street => gate street b.objectID b.locoDirection) := by
  induction streets generalizing validStreets with
  | nil => simp [Block.getValidStreetsLoop]
  | cons street rest ih =>
    simp only [Block.getValidStreetsLoop, List.filter_cons]
    split_ifs <;> simp [ih]

/-- C20: `getValidStreets` of a track, and of a block, returns true; the list
passed in is, after the call, the list passed in followed by those streets of
the track that pass the gate `fromTrackDirection(objectID, locoDirection)`, in
the order in which they are stored; the street list of the track is
unchanged. -/
theorem getValidStreets_contract {σ : Type} (gate : σ → trackID_t → direction_t → Bool)
    (t : Track) (streets validStreets : List σ) :
    ((Track.getValidStreets gate t streets validStreets).1 = true
      ∧ (Track.getValidStreets gate t streets validStreets).2.1
          = validStreets
            ++ streets.filter (fun street => gate street t.objectID t.locoDirection)
      ∧ (Track.getValidStreets gate t streets validStreets).2.2 = streets) ∧
    ((Block.getValidStreets gate t streets validStreets).1 = true
      ∧ (Block.getValidStreets gate t streets validStreets).2.1
          = validStreets
            ++ streets.filter (fun street => gate street t.objectID t.locoDirection)
      ∧ (Block.getValidStreets gate t streets validStreets).2.2 = streets) :=
  ⟨⟨rfl, Track.getValidStreetsLoop_eq gate t streets validStreets, rfl⟩,
   ⟨rfl, Block.getValidStreetsLoop_filter gate t streets validStreets, rfl⟩⟩

/-! ## Persistence of routes -/

/-- C17, as stated, fails: for the route `manualStreet`, which is not in
automode, deserializing its serialized form into the route `plainStreet`
returns true and leaves destination track, push-pull policy and maximal train
length as they are in `plainStreet`; serializing the result does not give the
serialized form of `manualStreet`. Into whatever route the form is
deserialized, the destination track of that route is kept. -/
theorem street_roundtrip_fails_without_automode :
    (Street.Deserialize 250 (plainStreet AutomodeNo) manualStreet.Serialize).1 = true
      ∧ manualStreet.toTrack = 6
      ∧ (Street.Deserialize 250 (plainStreet AutomodeNo) manualStreet.Serialize).2.toTrack = 2
      ∧ manualStreet.pushpull = PushpullTypeOnly
      ∧ (Street.Deserialize 250 (plainStreet AutomodeNo) manualStreet.Serialize).2.pushpull
          = PushpullTypeBoth
      ∧ manualStreet.maxTrainLength = 20
      ∧ (Street.Deserialize 250 (plainStreet AutomodeNo)
          manualStreet.Serialize).2.maxTrainLength = 0
      ∧ (Street.Deserialize 250 (plainStreet AutomodeNo) manualStreet.Serialize).2.Serialize
          ≠ manualStreet.Serialize
      ∧ (∀ fresh : Street,
          (Street.Deserialize 250 fresh manualStreet.Serialize).2.toTrack = fresh.toTrack) := by
  refine ⟨by decide, by decide, by decide, by decide, by decide, by decide, by decide,
    by decide, fun fresh => ?_⟩
  simp [Street.Deserialize, Street.Serialize, manualStreet, plainStreet, GetStringMapEntry,
    GetIntegerMapEntry, GetBoolMapEntry, List.lookup, boolToNat, AutomodeNo]

/-- C17, amended: deserializing the serialized form of a route `r` into any
route returns true. When `r` is in automode, every attribute that `Serialize`
writes (delay, pushpull, minimal and maximal train length, `lastUsed`, counter,
automode, from and to track and direction, the four feedback ids,
`waitAfterRelease`) is that of `r` afterwards, and serializing the result gives
the serialized form of `r` again. When `r` is not in automode, delay,
`lastUsed`, counter and automode are those of `r` and every other attribute is
left as it was in the route deserialized into. -/
theorem street_roundtrip (defaultDelay : Int) (fresh r : Street) :
    (r.automode = AutomodeYes →
      Street.Deserialize defaultDelay fresh r.Serialize
          = (true, { r with toLockableItem := fresh.toLockableItem,
                            relations := fresh.relations })
        ∧ (Street.Deserialize defaultDelay fresh r.Serialize).2.Serialize = r.Serialize) ∧
    (r.automode = AutomodeNo →
      Street.Deserialize defaultDelay fresh r.Serialize
        = (true, { fresh with delay := r.delay, lastUsed := r.lastUsed, counter := r.counter,
                              automode := AutomodeNo })) := by
  obtain ⟨⟨ls, lo⟩, a1, a2, a3, a4, a5, a6, a7, a8, a9, a10, a11, a12, a13, a14, a15, a16, rel⟩ := r
  constructor
  · intro h
    simp only [AutomodeYes] at h
    subst h
    have hd : Street.Deserialize defaultDelay fresh
        (Street.Serialize ⟨⟨ls, lo⟩, a1, a2, a3, a4, a5, a6, true, a8, a9, a10, a11, a12, a13,
          a14, a15, a16, rel⟩)
        = (true, { (⟨⟨ls, lo⟩, a1, a2, a3, a4, a5, a6, true, a8, a9, a10, a11, a12, a13,
            a14, a15, a16, rel⟩ : Street) with
              toLockableItem := fresh.toLockableItem, relations := fresh.relations }) := by
      simp [Street.Deserialize, Street.Serialize, GetStringMapEntry, GetIntegerMapEntry,
        GetBoolMapEntry, List.lookup, boolToNat, AutomodeNo]
    refine ⟨hd, ?_⟩
    rw [hd]
    rfl
  · intro h
    simp only [AutomodeNo] at h
    subst h
    simp [Street.Deserialize, Street.Serialize, GetStringMapEntry, GetIntegerMapEntry,
      GetBoolMapEntry, List.lookup, boolToNat, AutomodeNo]

/-- Instances of amended C17: the automode route of scenario S3 and the route
`manualStreet`, each deserialized into the route `plainStreet` without
automode. -/
theorem street_roundtrip_witness :
    (Street.Deserialize 250 (plainStreet AutomodeNo) rollbackStreet.Serialize
        = (true, { rollbackStreet with
            toLockableItem := (plainStreet AutomodeNo).toLockableItem,
            relations := (plainStreet AutomodeNo).relations })
      ∧ (Street.Deserialize 250 (plainStreet AutomodeNo) rollbackStreet.Serialize).2.Serialize
          = rollbackStreet.Serialize) ∧
    Street.Deserialize 250 (plainStreet AutomodeNo) manualStreet.Serialize
      = (true, { plainStreet AutomodeNo with
          delay := manualStreet.delay, lastUsed := manualStreet.lastUsed,
          counter := manualStreet.counter, automode := AutomodeNo }) :=
  ⟨(street_roundtrip 250 (plainStreet AutomodeNo) rollbackStreet).1 (by decide),
   (street_roundtrip 250 (plainStreet AutomodeNo) manualStreet).2 (by decide)⟩

/-! ## The kind of a serialized entity -/

/-- The serialized form of each kind starts with the item `objectType=<Kind>`.
`Street.Deserialize` returns true exactly when the `objectType` of the
arguments is `Street`, and leaves the route as it is when it returns false;
`Signal.Deserialize` returns false and leaves the signal as it is when the
`objectType` is not `Signal`; `Block.deserialize` and `Track.deserialize`
return false exactly when the `objectType` is not their kind, after
`LayoutItem.deserialize` has been applied. -/
theorem deserialize_kind_checks (defaultDelay : Int) (s : Street) (t : Track)
    (arguments rest : Arguments) :
    (s.Serialize.head? = some ("objectType", .text "Street")
      ∧ (Signal.Serialize rest).head? = some ("objectType", .text "Signal")
      ∧ (Block.serialize t).head? = some ("objectType", .text "Block")
      ∧ (Track.serialize t).head? = some ("objectType", .text "Track")) ∧
    (((Street.Deserialize defaultDelay s arguments).1 = true
        ↔ GetStringMapEntry arguments "objectType" = "Street")
      ∧ ((Street.Deserialize defaultDelay s arguments).1 = false →
          (Street.Deserialize defaultDelay s arguments).2 = s)) ∧
    (∀ (σ : Type) (accessoryDeserialize : σ → Arguments → Bool × σ) (signal : σ),
      GetStringMapEntry arguments "objectType" ≠ "Signal" →
        Signal.Deserialize accessoryDeserialize signal arguments = (false, signal)) ∧
    ((GetStringMapEntry arguments "objectType" ≠ "Block" →
        Block.deserialize t arguments = some (false, LayoutItem.deserialize t arguments))
      ∧ (GetStringMapEntry arguments "objectType" ≠ "Track" →
        Track.deserialize t arguments = some (false, LayoutItem.deserialize t arguments))) := by
  refine ⟨⟨rfl, rfl, rfl, rfl⟩, ⟨?_, ?_⟩, ?_, ⟨?_, ?_⟩⟩
  · simp only [Street.Deserialize]
    split_ifs <;> simp_all
  · simp only [Street.Deserialize]
    split_ifs <;> simp_all
  · intro σ accessoryDeserialize signal h
    simp only [Signal.Deserialize]
    rw [if_pos h]
  · intro h
    simp only [Block.deserialize]
    rw [if_neg (fun hc => h hc.2)]
  · intro h
    simp only [Track.deserialize]
    rw [if_neg (fun hc => h hc.2)]

/-- C18 at the failing input: block 1 and track 1 are newly constructed; the
block is asked to deserialize the serialized form of track 5, and the track
that of block 5. Each call returns false, and the object that refused the
arguments has the object id 5 afterwards: it is not left unchanged. -/
theorem deserialize_wrong_type_overwrites :
    Block.deserialize (Block.construct 1) (Track.serialize (Track.construct 5))
        = some (false, { Block.construct 1 with objectID := 5 })
      ∧ Track.deserialize (Track.construct 1) (Block.serialize (Block.construct 5))
        = some (false, { Track.construct 1 with objectID := 5 })
      ∧ ({ Block.construct 1 with objectID := 5 } : Block) ≠ Block.construct 1 := by
  decide

/-! ## Lock states that the protocol produces -/

/-- A call of `reserve`, `lock` or `release` on an item that is not
soft-locked leaves an item that is not soft-locked. -/
theorem call_not_softLocked (k : ItemKind) (j : Track) (c : LockCall)
    (h : j.lockState ≠ LockStateSoftLocked) :
    (k.call j c).2.lockState ≠ LockStateSoftLocked := by
  revert h
  cases k <;> cases c <;>
    simp only [ItemKind.call, ItemKind.reserve, ItemKind.lock, ItemKind.release,
      Block.reserve, Block.lock, Block.release, Track.reserve, Track.lock, Track.release] <;>
    split_ifs <;> simp_all

/-- Every item that a sequence of calls passes through, started on an item
that is not soft-locked, is not soft-locked. -/
theorem trace_not_softLocked (k : ItemKind) (cs : List LockCall) :
    ∀ j : Track, j.lockState ≠ LockStateSoftLocked →
      (k.run j cs).lockState ≠ LockStateSoftLocked
        ∧ ∀ e ∈ k.trace j cs, e.after.lockState ≠ LockStateSoftLocked := by
  induction cs with
  | nil =>
    intro j hj
    exact ⟨hj, by simp [ItemKind.trace]⟩
  | cons c cs ih =>
    intro j hj
    have hstep := call_not_softLocked k j c hj
    obtain ⟨hrun, htrace⟩ := ih (k.call j c).2 hstep
    refine ⟨hrun, ?_⟩
    intro e he
    simp only [ItemKind.trace, List.mem_cons] at he
    rcases he with rfl | he
    · exact hstep
    · exact htrace e he

/-- A lock state other than soft-locked is one of free, reserved and
hard-locked. -/
theorem lockState_cases (s : lockState_t) (h : s ≠ LockStateSoftLocked) :
    s = LockStateFree ∨ s = LockStateReserved ∨ s = LockStateHardLocked := by
  cases s <;> simp_all

/-- C25: a newly constructed block or track is free, and after any sequence of
`reserve`, `lock` and `release` calls, with any loco ids, the item reached and
every item passed through on the way has the lock state free, reserved or
hard-locked; none of them is soft-locked. -/
theorem softLocked_never_produced (k : ItemKind) (id : objectID_t) (cs : List LockCall) :
    (k.construct id).lockState = LockStateFree
      ∧ ((k.run (k.construct id) cs).lockState = LockStateFree
          ∨ (k.run (k.construct id) cs).lockState = LockStateReserved
          ∨ (k.run (k.construct id) cs).lockState = LockStateHardLocked)
      ∧ ∀ e ∈ k.trace (k.construct id) cs,
          (e.after.lockState = LockStateFree ∨ e.after.lockState = LockStateReserved
            ∨ e.after.lockState = LockStateHardLocked)
          ∧ e.after.lockState ≠ LockStateSoftLocked := by
  have h0 : (k.construct id).lockState = LockStateFree := by
    cases k <;> rfl
  have hne : (k.construct id).lockState ≠ LockStateSoftLocked := by
    rw [h0]; decide
  obtain ⟨hrun, htrace⟩ := trace_not_softLocked k cs (k.construct id) hne
  exact ⟨h0, lockState_cases _ hrun,
    fun e he => ⟨lockState_cases _ (htrace e he), htrace e he⟩⟩

/-! ## Persistence of blocks and tracks -/

/-- C24: for every block `b` and every block `b0` that reads it back,
`Block.deserialize b0 (Block.serialize b)` returns true and leaves the block
`b` itself, so lock state, owner and direction are those of `b`; the same
holds for `Track.deserialize` on `Track.serialize`. An item owned by loco `L`
when it was written is owned by `L` in the same lock state when read back. -/
theorem block_track_roundtrip (b b0 : Track) :
    Block.deserialize b0 (Block.serialize b) = some (true, b)
      ∧ Track.deserialize b0 (Track.serialize b) = some (true, b)
      ∧ (Block.deserialize b0 (Block.serialize b)).map
            (fun r => (r.1, r.2.lockState, r.2.locoID, r.2.locoDirection))
          = some (true, b.lockState, b.locoID, b.locoDirection)
      ∧ (Track.deserialize b0 (Track.serialize b)).map
            (fun r => (r.1, r.2.lockState, r.2.locoID, r.2.locoDirection))
          = some (true, b.lockState, b.locoID, b.locoDirection) := by
  have hb : Block.deserialize b0 (Block.serialize b) = some (true, b) := by
    obtain ⟨id, ls, lo, ld⟩ := b
    cases ls <;> cases ld <;>
      simp [Block.deserialize, Block.serialize, LayoutItem.serialize, LayoutItem.deserialize,
        Arguments.count, Arguments.stoi, GetStringMapEntry, List.lookup, lockState_t.toNat,
        lockState_t.ofInt, boolToNat]
  have ht : Track.deserialize b0 (Track.serialize b) = some (true, b) := by
    obtain ⟨id, ls, lo, ld⟩ := b
    cases ls <;> cases ld <;>
      simp [Track.deserialize, Track.serialize, LayoutItem.serialize, LayoutItem.deserialize,
        Arguments.count, GetStringMapEntry, GetIntegerMapEntry, GetBoolMapEntry, List.lookup,
        lockState_t.toNat, lockState_t.ofInt, boolToNat]
  refine ⟨hb, ht, ?_, ?_⟩
  · rw [hb]; rfl
  · rw [ht]; rfl

/-! ## Releasing a signal -/

/-- C26: `Signal.Release` returns what `LockableItem.Release` returns and
leaves the lockable part that it leaves. When the release of the lockable item
returns false, the signal is not free and owned by another loco, the signal is
as it was and no call is made on the manager. When it returns true, the signal
is free afterwards and exactly one call is made on the manager: the signal
state `SignalStateRed`, with control type `ControlTypeInternal` and the force
flag set. -/
theorem signal_release_contract {κ ς : Type} (ControlTypeInternal : κ) (SignalStateRed : ς)
    (signal : LockableItem) (L : locoID_t) :
    (Signal.Release ControlTypeInternal SignalStateRed signal L).1 = (signal.Release L).1
      ∧ (Signal.Release ControlTypeInternal SignalStateRed signal L).2.1 = (signal.Release L).2
      ∧ ((signal.Release L).1 = false →
          (signal.lockState ≠ LockStateFree ∧ signal.locoID ≠ L)
            ∧ Signal.Release ControlTypeInternal SignalStateRed signal L = (false, signal, []))
      ∧ ((signal.Release L).1 = true →
          (Signal.Release ControlTypeInternal SignalStateRed signal L).1 = true
            ∧ (Signal.Release ControlTypeInternal SignalStateRed signal L).2.1.lockState
                = LockStateFree
            ∧ (Signal.Release ControlTypeInternal SignalStateRed signal L).2.2
                = [{ controlType := ControlTypeInternal, signalState := SignalStateRed,
                     force := true }]) := by
  simp only [Signal.Release, LockableItem.Release]
  split_ifs <;> simp_all

/-! ## Speed commands to the driver -/

/-- A command that comes from the hardware control itself is not passed on:
`HardwareHandler.locoSpeed`, `go` and `stop` make no call on the driver. -/
theorem hardware_own_command_not_sent (CONTROL_ID_HARDWARE : controlID_t)
    (PROTOCOL_DCC : protocol_t) (locoID : locoID_t) (speed : speed_t) :
    HardwareHandler.locoSpeed CONTROL_ID_HARDWARE PROTOCOL_DCC CONTROL_ID_HARDWARE locoID speed
        = []
      ∧ HardwareHandler.go CONTROL_ID_HARDWARE CONTROL_ID_HARDWARE = []
      ∧ HardwareHandler.stop CONTROL_ID_HARDWARE CONTROL_ID_HARDWARE = [] := by
  simp [HardwareHandler.locoSpeed, HardwareHandler.go, HardwareHandler.stop]

/-- C23 at the failing input: loco 1 has protocol `ProtocolMM2` and address 3,
and a control other than the hardware control commands speed 100 for it.
Whatever the values of the two macros, the driver receives the protocol
`PROTOCOL_DCC` and the address 1028, which is not the protocol and address of
loco 1; and the command is the same for every loco id. -/
theorem locoSpeed_sends_fixed_address (CONTROL_ID_HARDWARE : controlID_t)
    (PROTOCOL_DCC : protocol_t) :
    HardwareHandler.locoSpeed CONTROL_ID_HARDWARE PROTOCOL_DCC (CONTROL_ID_HARDWARE + 1) 1 100
        = [DriverCall.locoSpeed PROTOCOL_DCC 1028 100]
      ∧ HardwareHandler.locoSpeed CONTROL_ID_HARDWARE PROTOCOL_DCC (CONTROL_ID_HARDWARE + 1) 1 100
        ≠ [DriverCall.locoSpeed
            ({ protocol := ProtocolMM2, address := 3 } : LocoAddress).protocol
            ({ protocol := ProtocolMM2, address := 3 } : LocoAddress).address 100]
      ∧ ∀ (locoID locoID2 : locoID_t) (speed : speed_t),
          HardwareHandler.locoSpeed CONTROL_ID_HARDWARE PROTOCOL_DCC (CONTROL_ID_HARDWARE + 1)
              locoID speed
            = HardwareHandler.locoSpeed CONTROL_ID_HARDWARE PROTOCOL_DCC
              (CONTROL_ID_HARDWARE + 1) locoID2 speed := by
  refine ⟨?_, ?_, fun _ _ _ => rfl⟩
  · simp [HardwareHandler.locoSpeed]
  · simp [HardwareHandler.locoSpeed]

/-! ## Speeds of a saved locomotive -/

theorem toSpeed_of_range (v : Int) (h0 : 0 ≤ v) (h1 : v < 65536) : (toSpeed v : Int) = v := by
  unfold toSpeed
  rw [Int.emod_eq_of_lt h0 h1]
  exact Int.toNat_of_nonneg h0

/-- C30, as stated, fails. The request submits the speeds 65537, 1000, 500 and
100, which respect the order; `WebClient.HandleLocoSave` hands the speed 1 to
the manager four times, so none of the submitted values is passed through
unchanged. The defaults are not read, since the request has all four values. -/
theorem locoSave_wide_speed_changed :
    WebClient.HandleLocoSave 0 0 0 (speedArguments 65537 1000 500 100)
        = { maxSpeed := 1, travelSpeed := 1, reducedSpeed := 1, creepingSpeed := 1 }
      ∧ (100 : Int) ≤ 500 ∧ (500 : Int) ≤ 1000 ∧ (1000 : Int) ≤ 65537 := by
  decide

/-- C30, amended: for every request, the speeds that `WebClient.HandleLocoSave`
hands to the manager satisfy creeping ≤ reduced ≤ travel ≤ max. When the four
submitted values lie within the range of the speed type, 0 to 65535, the max
speed is handed on as submitted and each of the other three is cut to the
speed handed on before it; so submitted values in that range that respect the
order are passed through unchanged. -/
theorem locoSave_speeds_ordered (DefaultTravelSpeed DefaultReducedSpeed DefaultCreepingSpeed : speed_t)
    (arguments : Arguments) (m t r c : Nat)
    (hm : m < 65536) (ht : t < 65536) (hr : r < 65536) (hc : c < 65536) :
    ((WebClient.HandleLocoSave DefaultTravelSpeed DefaultReducedSpeed DefaultCreepingSpeed
          arguments).creepingSpeed
        ≤ (WebClient.HandleLocoSave DefaultTravelSpeed DefaultReducedSpeed DefaultCreepingSpeed
          arguments).reducedSpeed
      ∧ (WebClient.HandleLocoSave DefaultTravelSpeed DefaultReducedSpeed DefaultCreepingSpeed
          arguments).reducedSpeed
        ≤ (WebClient.HandleLocoSave DefaultTravelSpeed DefaultReducedSpeed DefaultCreepingSpeed
          arguments).travelSpeed
      ∧ (WebClient.HandleLocoSave DefaultTravelSpeed DefaultReducedSpeed DefaultCreepingSpeed
          arguments).travelSpeed
        ≤ (WebClient.HandleLocoSave DefaultTravelSpeed DefaultReducedSpeed DefaultCreepingSpeed
          arguments).maxSpeed)
      ∧ WebClient.HandleLocoSave DefaultTravelSpeed DefaultReducedSpeed DefaultCreepingSpeed
          (speedArguments m t r c)
        = { maxSpeed := m, travelSpeed := min t m, reducedSpeed := min r (min t m),
            creepingSpeed := min c (min r (min t m)) }
      ∧ (c ≤ r → r ≤ t → t ≤ m →
          WebClient.HandleLocoSave DefaultTravelSpeed DefaultReducedSpeed DefaultCreepingSpeed
              (speedArguments m t r c)
            = { maxSpeed := m, travelSpeed := t, reducedSpeed := r, creepingSpeed := c }) := by
  have hs : ∀ n : Nat, n < 65536 → toSpeed (n : Int) = n := by
    intro n hn
    have h := toSpeed_of_range (n : Int) (Int.ofNat_nonneg n) (by exact_mod_cast hn)
    exact_mod_cast h
  have hget : ∀ d : Int,
      GetIntegerMapEntry (speedArguments m t r c) "maxspeed" d = m
        ∧ GetIntegerMapEntry (speedArguments m t r c) "travelspeed" d = t
        ∧ GetIntegerMapEntry (speedArguments m t r c) "reducedspeed" d = r
        ∧ GetIntegerMapEntry (speedArguments m t r c) "creepingspeed" d = c := by
    intro d
    simp [GetIntegerMapEntry, speedArguments, List.lookup]
  have hval : WebClient.HandleLocoSave DefaultTravelSpeed DefaultReducedSpeed
      DefaultCreepingSpeed (speedArguments m t r c)
        = { maxSpeed := m, travelSpeed := min t m, reducedSpeed := min r (min t m),
            creepingSpeed := min c (min r (min t m)) } := by
    simp only [WebClient.HandleLocoSave, (hget _).1, (hget _).2.1, (hget _).2.2.1,
      (hget _).2.2.2, hs m hm, hs t ht, hs r hr, hs c hc]
    simp only [LocoSpeeds.mk.injEq, true_and]
    refine ⟨?_, ?_, ?_⟩
    all_goals
      simp only [Nat.min_def]
      split_ifs <;> dsimp only [speed_t] at * <;> omega
  refine ⟨⟨?_, ?_, ?_⟩, hval, ?_⟩
  · simp only [WebClient.HandleLocoSave]
    split_ifs <;> dsimp only [speed_t] at * <;> omega
  · simp only [WebClient.HandleLocoSave]
    split_ifs <;> dsimp only [speed_t] at * <;> omega
  · simp only [WebClient.HandleLocoSave]
    split_ifs <;> dsimp only [speed_t] at * <;> omega
  · intro h1 h2 h3
    rw [hval]
    simp only [LocoSpeeds.mk.injEq, true_and, Nat.min_def]
    refine ⟨?_, ?_, ?_⟩
    · rw [if_pos h3]
    · rw [if_pos h3, if_pos h2]
    · rw [if_pos h3, if_pos h2, if_pos h1]

/-- Instance of amended C30: the request submits the speeds 1000, 800, 900 and
100; the reduced speed 900 is cut to the travel speed 800, the other three are
handed on as submitted. -/
theorem locoSave_speeds_ordered_witness :
    ((WebClient.HandleLocoSave 700 400 100 (speedArguments 1000 800 900 100)).creepingSpeed
        ≤ (WebClient.HandleLocoSave 700 400 100 (speedArguments 1000 800 900 100)).reducedSpeed
      ∧ (WebClient.HandleLocoSave 700 400 100 (speedArguments 1000 800 900 100)).reducedSpeed
        ≤ (WebClient.HandleLocoSave 700 400 100 (speedArguments 1000 800 900 100)).travelSpeed
      ∧ (WebClient.HandleLocoSave 700 400 100 (speedArguments 1000 800 900 100)).travelSpeed
        ≤ (WebClient.HandleLocoSave 700 400 100 (speedArguments 1000 800 900 100)).maxSpeed)
      ∧ WebClient.HandleLocoSave 700 400 100 (speedArguments 1000 800 900 100)
        = { maxSpeed := 1000, travelSpeed := min 800 1000, reducedSpeed := min 900 (min 800 1000),
            creepingSpeed := min 100 (min 900 (min 800 1000)) }
      ∧ (100 ≤ 900 → 900 ≤ 800 → 800 ≤ 1000 →
          WebClient.HandleLocoSave 700 400 100 (speedArguments 1000 800 900 100)
            = { maxSpeed := 1000, travelSpeed := 800, reducedSpeed := 900,
                creepingSpeed := 100 }) :=
  locoSave_speeds_ordered 700 400 100 (speedArguments 1000 800 900 100) 1000 800 900 100
    (by decide) (by decide) (by decide) (by decide)

/-! ## The count of loco functions and their text form -/

/-- The loop of `LocoFunctions.Serialize` over indices inside the array
appends one character per index: `1` for a function that is on, `0` for one
that is off. -/
theorem LocoFunctions.SerializeLoop_eq (f : LocoFunctions) (indices : List function_t) :
    ∀ out : String, (∀ i ∈ indices, i < LocoFunctions.maxCount) →
      LocoFunctions.SerializeLoop f indices out
        = some (out ++ String.mk (indices.map (fun i => if f.GetFunction i then '1' else '0'))) := by
  induction indices with
  | nil =>
    intro out _
    simp only [LocoFunctions.SerializeLoop, List.map_nil]
    congr 1
    apply String.ext
    simp
  | cons i rest ih =>
    intro out h
    have hi : i < LocoFunctions.maxCount := h i (List.mem_cons_self i rest)
    have hread : f.readState i = some (f.GetFunction i) := by
      simp only [LocoFunctions.readState, LocoFunctions.GetFunction, dif_pos hi,
        dif_neg (Nat.not_le.mpr hi)]
    simp only [LocoFunctions.SerializeLoop, hread, List.map_cons]
    rw [ih _ (fun j hj => h j (List.mem_cons_of_mem i hj))]
    congr 1
    apply String.ext
    cases f.GetFunction i <;> simp

/-- The loop of `LocoFunctions.Deserialize` writes the slots whose index is in
the list and leaves the others. -/
theorem LocoFunctions.DeserializeLoop_apply (serialized : String) (indices : List function_t) :
    ∀ (states : Fin LocoFunctions.maxCount → Bool) (j : Fin LocoFunctions.maxCount),
      LocoFunctions.DeserializeLoop serialized indices states j
        = if j.val ∈ indices then decide (serialized.data.getD j.val '0' = '1') else states j := by
  induction indices with
  | nil =>
    intro states j
    simp [LocoFunctions.DeserializeLoop]
  | cons i rest ih =>
    intro states j
    simp only [LocoFunctions.DeserializeLoop, ih, List.mem_cons]
    by_cases h1 : j.val ∈ rest
    · simp [h1]
    · by_cases h2 : j.val = i
      · simp [h1, h2]
      · simp [h1, h2]

/-- The count that `LocoFunctions.Deserialize` leaves: the size of the string
modulo 256, cut to 31. -/
theorem LocoFunctions.Deserialize_count (f : LocoFunctions) (s : String) :
    (f.Deserialize s).count = min (s.length % 256) 31 := by
  have hmax : LocoFunctions.maxCount = 31 := rfl
  simp only [LocoFunctions.Deserialize, hmax]
  split_ifs <;> dsimp only [function_t] at * <;> omega

/-- The text that `LocoFunctions.Serialize` returns after
`LocoFunctions.Deserialize`, for every string of the characters `0` and `1`:
the first `min (length % 256) 31` characters of the string. -/
theorem LocoFunctions.Serialize_Deserialize (f : LocoFunctions) (s : String)
    (hs : ∀ c ∈ s.data, c = '0' ∨ c = '1') :
    (f.Deserialize s).Serialize
      = some (String.mk (s.data.take (min (s.length % 256) 31))) := by
  have hmax : LocoFunctions.maxCount = 31 := rfl
  have hcount := LocoFunctions.Deserialize_count f s
  have hle : (f.Deserialize s).count ≤ 31 := by
    rw [hcount]; exact Nat.min_le_right _ _
  have hlen : (f.Deserialize s).count ≤ s.data.length := by
    rw [hcount]
    exact Nat.le_trans (Nat.min_le_left _ _) (Nat.mod_le _ _)
  unfold LocoFunctions.Serialize
  rw [LocoFunctions.SerializeLoop_eq _ _ "" (fun i hi => by
    rw [hmax]
    exact Nat.lt_of_lt_of_le (List.mem_range.mp hi) hle)]
  rw [← hcount]
  congr 1
  apply String.ext
  have hempty : ("" : String).data = [] := rfl
  simp only [String.data_append, hempty, List.nil_append]
  apply List.ext_getElem
  · simp only [List.length_map, List.length_range, List.length_take]
    exact (Nat.min_eq_left hlen).symm
  · intro n h1 h2
    simp only [List.length_map, List.length_range] at h1
    have hn : n < LocoFunctions.maxCount := by
      rw [hmax]
      exact Nat.lt_of_lt_of_le h1 hle
    have hnl : n < s.data.length := Nat.lt_of_lt_of_le h1 hlen
    simp only [List.getElem_map, List.getElem_range, List.getElem_take]
    have hget : (f.Deserialize s).GetFunction n = decide (s.data[n] = '1') := by
      simp only [LocoFunctions.GetFunction, dif_neg (Nat.not_le.mpr hn)]
      show LocoFunctions.DeserializeLoop s (List.range (f.Deserialize s).count) f.states ⟨n, hn⟩
        = decide (s.data[n] = '1')
      rw [LocoFunctions.DeserializeLoop_apply]
      have hmem : n ∈ List.range (f.Deserialize s).count := List.mem_range.mpr h1
      simp only [hmem, if_true, List.getD_eq_getElem?_getD, List.getElem?_eq_getElem hnl,
        Option.getD_some]
    rw [hget]
    rcases hs s.data[n] (List.getElem_mem hnl) with h | h
    · rw [h]; decide
    · rw [h]; decide

/-- The count stays within the array as long as `SetNrOfFunctions` is not
called with a number above 30: then `LocoFunctions.Serialize` returns a string
of `count` characters. -/
theorem LocoFunctions.run_count_le (cs : List LocoFunctionsCall) :
    ∀ f : LocoFunctions, f.count ≤ LocoFunctions.maxCount →
      (∀ nr, LocoFunctionsCall.SetNrOfFunctions nr ∈ cs → nr % 256 < 31) →
      (f.run cs).count ≤ LocoFunctions.maxCount
        ∧ ∃ out : String, (f.run cs).Serialize = some out ∧ out.length = (f.run cs).count := by
  induction cs with
  | nil =>
    intro f hf _
    refine ⟨hf, _, LocoFunctions.SerializeLoop_eq _ _ ""
      (fun i hi => Nat.lt_of_lt_of_le (List.mem_range.mp hi) hf), ?_⟩
    rw [String.length_append]
    show 0 + (List.map _ (List.range f.count)).length = f.count
    rw [List.length_map, List.length_range, Nat.zero_add]
  | cons c cs ih =>
    intro f hf h
    refine ih (f.call c) ?_ (fun nr hnr => h nr (List.mem_cons_of_mem c hnr))
    cases c with
    | SetNrOfFunctions nr =>
      have hnr := h nr (List.mem_cons_self _ _)
      have hmax : LocoFunctions.maxCount = 31 := rfl
      simp only [LocoFunctions.call, LocoFunctions.SetNrOfFunctions, hmax]
      dsimp only [function_t] at *
      omega
    | SetFunction nr state =>
      simp only [LocoFunctions.call, LocoFunctions.SetFunction]
      split_ifs <;> exact hf
    | Deserialize serialized =>
      have hmax : LocoFunctions.maxCount = 31 := rfl
      simp only [LocoFunctions.call, LocoFunctions.Deserialize, hmax]
      split_ifs <;> dsimp only [function_t] at * <;> omega

/-- C27 at the failing input: after `SetNrOfFunctions(31)` on a new object the
count is 32, above the array size 31, and `Serialize` reads outside the array
(the model has no result). After `SetNrOfFunctions(200)` the count is 201.
After `Deserialize` of the empty string the count is 0: `Serialize` returns the
empty string, while `GetNrOfFunctions() + 1` is 256. -/
theorem setNrOfFunctions_exceeds_array :
    LocoFunctions.maxCount = 31
      ∧ (LocoFunctions.run LocoFunctions.construct [.SetNrOfFunctions 31]).count = 32
      ∧ (LocoFunctions.run LocoFunctions.construct [.SetNrOfFunctions 31]).Serialize = none
      ∧ (LocoFunctions.run LocoFunctions.construct [.SetNrOfFunctions 200]).count = 201
      ∧ (LocoFunctions.run LocoFunctions.construct [.Deserialize ""]).Serialize = some ""
      ∧ (LocoFunctions.run LocoFunctions.construct [.Deserialize ""]).GetNrOfFunctions + 1
          = 256 := by
  decide

/-- The string of 256 characters `0`. -/
theorem zeros256_spec :
    (String.mk (List.replicate 256 '0')).length = 256
      ∧ ∀ c ∈ (String.mk (List.replicate 256 '0')).data, c = '0' ∨ c = '1' := by
  refine ⟨List.length_replicate 256 '0', ?_⟩
  intro c hc
  exact Or.inl (List.eq_of_mem_replicate hc)

/-- C28 at the failing input: the string of 256 characters `0`. Its size 256
is stored in the `unsigned char` count as 0 before the count is compared with
`maxCount`, so `Serialize` after `Deserialize` returns the empty string and not
the first 31 characters of the string. -/
theorem deserialize_long_string_truncated :
    (LocoFunctions.construct.Deserialize (String.mk (List.replicate 256 '0'))).count = 0
      ∧ (LocoFunctions.construct.Deserialize (String.mk (List.replicate 256 '0'))).Serialize
          = some ""
      ∧ String.mk ((String.mk (List.replicate 256 '0')).data.take
            (min (String.mk (List.replicate 256 '0')).length 31))
          = "0000000000000000000000000000000"
      ∧ (some "" : Option String) ≠ some "0000000000000000000000000000000" := by
  have hlen : (String.mk (List.replicate 256 '0')).length = 256 :=
    List.length_replicate 256 '0'
  have hser := LocoFunctions.Serialize_Deserialize LocoFunctions.construct
    (String.mk (List.replicate 256 '0'))
    (fun c hc => Or.inl (List.eq_of_mem_replicate hc))
  rw [hlen] at hser
  refine ⟨?_, ?_, ?_, by decide⟩
  · rw [LocoFunctions.Deserialize_count, hlen]
    decide
  · rw [hser]
    rfl
  · rw [hlen]
    show String.mk (List.take (min 256 31) (List.replicate 256 '0')) = _
    rw [List.take_replicate]
    decide

/-! ## Decoding of request arguments -/

theorem bytesFind_none (c : Nat) (s : List Nat) : bytesFind c s = none ↔ c ∉ s := by
  induction s with
  | nil => simp [bytesFind]
  | cons x rest ih =>
    simp only [bytesFind, List.mem_cons]
    split_ifs with h
    · simp [h]
    · simp only [Option.map_eq_none', ih]
      constructor
      · intro h1 h2
        rcases h2 with h2 | h2
        · exact h h2.symm
        · exact h1 h2
      · intro h1 h2
        exact h1 (Or.inr h2)

theorem bytesFind_some (c : Nat) (s : List Nat) :
    ∀ pos, bytesFind c s = some pos →
      s[pos]? = some c ∧ ∀ p, s[p]? = some c → pos ≤ p := by
  induction s with
  | nil => intro pos h; simp [bytesFind] at h
  | cons x rest ih =>
    intro pos h
    simp only [bytesFind] at h
    split_ifs at h with hx
    · cases h
      exact ⟨by simp [hx], fun p _ => Nat.zero_le p⟩
    · cases hr : bytesFind c rest with
      | none => simp [hr] at h
      | some q =>
        simp only [hr, Option.map_some', Option.some.injEq] at h
        subst h
        obtain ⟨h1, h2⟩ := ih q hr
        refine ⟨by simpa using h1, ?_⟩
        intro p hp
        cases p with
        | zero =>
          simp only [List.getElem?_cons_zero, Option.some.injEq] at hp
          exact absurd hp hx
        | succ p =>
          simp only [List.getElem?_cons_succ] at hp
          exact Nat.succ_le_succ (h2 p hp)

theorem WebClient.UrlDecodeRound_length (signedChar : Bool) (s next : List Nat)
    (h : WebClient.UrlDecodeRound signedChar s = some next) :
    next.length + 2 = s.length ∧ 3 ≤ s.length := by
  unfold WebClient.UrlDecodeRound at h
  split at h
  · cases h
  · split_ifs at h with hlen
    cases h
    simp only [List.length_append, List.length_take, List.length_drop, List.length_singleton]
    omega

theorem WebClient.UrlDecode_of_none (signedChar : Bool) (s : List Nat)
    (h : WebClient.UrlDecodeRound signedChar s = none) : WebClient.UrlDecode signedChar s = s := by
  rw [WebClient.UrlDecode]
  simp [h]

theorem WebClient.UrlDecode_of_some (signedChar : Bool) (s next : List Nat)
    (h : WebClient.UrlDecodeRound signedChar s = some next) :
    WebClient.UrlDecode signedChar s = WebClient.UrlDecode signedChar next := by
  rw [WebClient.UrlDecode]
  simp [h]

/-- The loop has been left when `WebClient.UrlDecode` returns: no further round
is possible on its result; and the result is shorter than the argument by an
even number of bytes. -/
theorem WebClient.UrlDecode_done (signedChar : Bool) :
    ∀ (n : Nat) (s : List Nat), s.length = n →
      WebClient.UrlDecodeRound signedChar (WebClient.UrlDecode signedChar s) = none
        ∧ ∃ rounds, (WebClient.UrlDecode signedChar s).length + 2 * rounds = s.length := by
  intro n
  induction n using Nat.strong_induction_on with
  | _ n ih =>
    intro s hs
    cases hr : WebClient.UrlDecodeRound signedChar s with
    | none =>
      rw [WebClient.UrlDecode_of_none signedChar s hr]
      exact ⟨hr, 0, rfl⟩
    | some next =>
      rw [WebClient.UrlDecode_of_some signedChar s next hr]
      have hlen := (WebClient.UrlDecodeRound_length signedChar s next hr).1
      obtain ⟨h1, rounds, h2⟩ := ih next.length (by omega) next rfl
      exact ⟨h1, rounds + 1, by omega⟩

theorem WebClient.UrlDecodeRound_none (signedChar : Bool) (s : List Nat)
    (h : WebClient.UrlDecodeRound signedChar s = none) :
    ∀ p, s[p]? = some 37 → s.length < p + 3 := by
  intro p hp
  unfold WebClient.UrlDecodeRound at h
  split at h
  · rename_i hfind
    have hmem : (37 : Nat) ∈ s := List.mem_iff_getElem?.mpr ⟨p, hp⟩
    exact absurd hmem ((bytesFind_none 37 s).mp hfind)
  · rename_i pos hfind
    split_ifs at h with hlen
    have := (bytesFind_some 37 s pos hfind).2 p hp
    omega

theorem ConvertHexToInt_hexDigit (signedChar upper : Bool) (d : Nat) (hd : d < 16) :
    WebClient.ConvertHexToInt signedChar (charValue signedChar (hexDigit upper d)) = d := by
  interval_cases d <;> cases signedChar <;> cases upper <;> decide

theorem toByte_toChar (signedChar : Bool) (b : Nat) (hb : b < 256) :
    toByte (toChar signedChar (b : Int)) = b := by
  have h1 : toByte (b : Int) = b := by
    unfold toByte
    omega
  unfold toChar
  rw [h1]
  unfold charValue toByte
  split_ifs <;> omega

theorem WebClient.UrlDecode_short (signedChar : Bool) (s : List Nat) (h : s.length < 3) :
    WebClient.UrlDecode signedChar s = s := by
  cases hr : WebClient.UrlDecodeRound signedChar s with
  | none => exact WebClient.UrlDecode_of_none signedChar s hr
  | some next =>
    have hlen := (WebClient.UrlDecodeRound_length signedChar s next hr).2
    exact absurd hlen (by omega)

/-- C29: the loop of `WebClient.UrlDecode` ends on every string: a round that
is not the last one shortens the string by two bytes, and no further round is
possible on the result, which is shorter than the argument by two bytes per
round. A string without `%` (byte 37) is returned unchanged. In the result
every `%` has fewer than two bytes after it. And for every byte `b`, the three
bytes `%`, `X`, `Y`, where `X` and `Y` are the hexadecimal digits of `b`, each
in upper or in lower case, are decoded to the one byte `b`; this holds whether
`char` is signed or not. -/
theorem urlDecode_contract (signedChar upperX upperY : Bool) (s : List Nat) (b : Nat)
    (hb : b < 256) :
    (∀ next, WebClient.UrlDecodeRound signedChar s = some next → next.length + 2 = s.length)
      ∧ WebClient.UrlDecodeRound signedChar (WebClient.UrlDecode signedChar s) = none
      ∧ (∃ rounds, (WebClient.UrlDecode signedChar s).length + 2 * rounds = s.length)
      ∧ (37 ∉ s → WebClient.UrlDecode signedChar s = s)
      ∧ (∀ p, (WebClient.UrlDecode signedChar s)[p]? = some 37 →
          (WebClient.UrlDecode signedChar s).length < p + 3)
      ∧ WebClient.UrlDecode signedChar [37, hexDigit upperX (b / 16), hexDigit upperY (b % 16)]
          = [b] := by
  obtain ⟨hdone, hrounds⟩ := WebClient.UrlDecode_done signedChar s.length s rfl
  refine ⟨fun next h => (WebClient.UrlDecodeRound_length signedChar s next h).1, hdone, hrounds,
    ?_, WebClient.UrlDecodeRound_none signedChar _ hdone, ?_⟩
  · intro h
    apply WebClient.UrlDecode_of_none
    unfold WebClient.UrlDecodeRound
    rw [(bytesFind_none 37 s).mpr h]
  · have hx : b / 16 < 16 := by omega
    have hy : b % 16 < 16 := by omega
    have hround : WebClient.UrlDecodeRound signedChar
        [37, hexDigit upperX (b / 16), hexDigit upperY (b % 16)] = some [b] := by
      simp only [WebClient.UrlDecodeRound, bytesFind, if_true, List.length_cons,
        List.length_nil]
      simp only [Nat.zero_add, List.getD_cons_succ, List.getD_cons_zero,
        ConvertHexToInt_hexDigit signedChar upperX _ hx,
        ConvertHexToInt_hexDigit signedChar upperY _ hy]
      have hval : ((b / 16 : Nat) : Int) * 16 + ((b % 16 : Nat) : Int) = (b : Int) := by
        omega
      rw [hval, toByte_toChar signedChar b hb]
      simp
    rw [WebClient.UrlDecode_of_some signedChar _ _ hround]
    exact WebClient.UrlDecode_short signedChar [b] (by simp)

/-- Instance of C29: the string `a%4Ab` is decoded to `aJb` (byte 74 is `J`),
and `%e9`, the lower-case form of byte 233, to that byte, with a signed
`char`. -/
theorem urlDecode_contract_witness :
    (233 < 256) ∧
    ((∀ next, WebClient.UrlDecodeRound true [97, 37, 52, 65, 98] = some next →
          next.length + 2 = [97, 37, 52, 65, 98].length)
      ∧ WebClient.UrlDecodeRound true (WebClient.UrlDecode true [97, 37, 52, 65, 98]) = none
      ∧ (∃ rounds, (WebClient.UrlDecode true [97, 37, 52, 65, 98]).length + 2 * rounds
          = [97, 37, 52, 65, 98].length)
      ∧ (37 ∉ [97, 37, 52, 65, 98] → WebClient.UrlDecode true [97, 37, 52, 65, 98]
          = [97, 37, 52, 65, 98])
      ∧ (∀ p, (WebClient.UrlDecode true [97, 37, 52, 65, 98])[p]? = some 37 →
          (WebClient.UrlDecode true [97, 37, 52, 65, 98]).length < p + 3)
      ∧ WebClient.UrlDecode true [37, hexDigit false (233 / 16), hexDigit false (233 % 16)]
          = [233]) :=
  ⟨by decide, urlDecode_contract true false false [97, 37, 52, 65, 98] 233 (by decide)⟩

/-! ## What a failed reservation releases -/

/-- The destination track block of `Street.Reserve` keeps every property of an
object that a `Reserve` for `L` keeps. -/
theorem Street.ReserveToTrack_pointwise (s : Street) (m : Manager) (L : locoID_t)
    (Q : Option LockableItem → Prop)
    (hQ : ∀ o, Q o → Q (o.map (fun li => (li.Reserve L).2)))
    (k : ObjectIdentifier) (h : Q (m.objects k)) :
    Q ((Street.ReserveToTrack s m L).2.objects k) := by
  unfold Street.ReserveToTrack
  split_ifs
  · cases ht : m.GetTrack s.toTrack with
    | none => exact h
    | some track =>
      simp only [Manager.SetObject]
      split_ifs with hkey
      · have hpre : m.objects k = some track := by rw [hkey]; exact ht
        have h0 := hQ _ h
        rw [hpre] at h0
        exact h0
      · exact h
  · exact h

/-- C22, as stated, fails. In scenario S3 with the route and switch 1
hard-locked by loco 1 before the call, `Street.Reserve` for loco 1 returns
false, because switch 2 is owned by loco 2, and leaves the route and switch 1
free, with no owner. -/
theorem reserve_failure_releases_hardlocked :
    hardLockedStreet.toLockableItem.HardLockedBy 1
      ∧ (rollbackManagerWith { lockState := LockStateHardLocked, locoID := 1 }).Holds
          (fun i => i.HardLockedBy 1) { objectType := ObjectTypeSwitch, objectID := 1 }
      ∧ (hardLockedStreet.Reserve
          (rollbackManagerWith { lockState := LockStateHardLocked, locoID := 1 }) 1).1 = false
      ∧ (hardLockedStreet.Reserve
          (rollbackManagerWith { lockState := LockStateHardLocked, locoID := 1 }) 1).2.1.toLockableItem
          = { lockState := LockStateFree, locoID := LocoNone }
      ∧ (hardLockedStreet.Reserve
          (rollbackManagerWith { lockState := LockStateHardLocked, locoID := 1 }) 1).2.2.objects
            { objectType := ObjectTypeSwitch, objectID := 1 }
          = some { lockState := LockStateFree, locoID := LocoNone }
      ∧ ¬ (hardLockedStreet.Reserve
          (rollbackManagerWith { lockState := LockStateHardLocked, locoID := 1 }) 1).2.2.Holds
            (fun i => i.HardLockedBy 1) { objectType := ObjectTypeSwitch, objectID := 1 } := by
  decide

/-- An object owned by another loco is left as it is by `Reserve` and by
`Release` for `L`. -/
theorem LockableItem.other_owner_same (i : LockableItem) (L L2 : locoID_t)
    (h : i.OwnedBy L2) (hne : L2 ≠ L) :
    (i.Reserve L).2 = i ∧ (i.Release L).2 = i := by
  refine ⟨LockableItem.Reserve_false_same i L (LockableItem.Reserve_other_false i L2 L h hne),
    LockableItem.Release_notHeld_same i L ?_⟩
  obtain ⟨h1, h2⟩ := h
  exact Or.inr ⟨h2, by rw [h1]; exact hne⟩

/-- C22, amended: let `Street.Reserve` return false for loco `L`. When the call
fails at the booster check or at the route itself, the route and the registry
are as they were, so whatever `L` had hard-locked is still hard-locked by `L`.
When it fails later, at the destination track or at a relation, the rollback
releases for `L` the route and every relation target: the route is free with no
owner afterwards, no relation target is owned by `L`, and a relation target
that `L` had hard-locked before the call is free with no owner. In every case
a relation target owned by another loco is as it was before the call. -/
theorem reserve_failure_releases_own (s : Street) (m : Manager) (L : locoID_t)
    (hfail : (s.Reserve m L).1 = false) :
    ((m.booster = BoosterStop ∨ (s.toLockableItem.Reserve L).1 = false) →
        (s.Reserve m L).2 = (s, m))
      ∧ ((m.booster ≠ BoosterStop ∧ (s.toLockableItem.Reserve L).1 = true) →
        (s.Reserve m L).2.1.toLockableItem = { lockState := LockStateFree, locoID := LocoNone }
          ∧ (∀ r ∈ s.relations,
              ¬ (s.Reserve m L).2.2.Holds (fun i => i.OwnedBy L) r.target)
          ∧ (∀ r ∈ s.relations, m.Holds (fun i => i.HardLockedBy L) r.target →
              (s.Reserve m L).2.2.objects r.target
                = some { lockState := LockStateFree, locoID := LocoNone }))
      ∧ (∀ r ∈ s.relations, ∀ L2, L2 ≠ L → m.Holds (fun i => i.OwnedBy L2) r.target →
          (s.Reserve m L).2.2.objects r.target = m.objects r.target) := by
  -- what the rollback does to the route and to the relation targets
  have hroute : (s.toLockableItem.Reserve L).1 = true →
      (LockableItem.Release (s.toLockableItem.Reserve L).2 L).2
        = { lockState := LockStateFree, locoID := LocoNone } := fun hself =>
    (LockableItem.Release_owned _ L (LockableItem.Reserve_true_owned _ L hself)).2
  have hownedReserve : ∀ o : Option LockableItem, (∃ li, o = some li ∧ li.OwnedBy L) →
      ∃ li, o.map (fun li => (li.Reserve L).2) = some li ∧ li.OwnedBy L := by
    rintro o ⟨li, rfl, hli⟩
    exact ⟨li, by simp [LockableItem.Reserve_owned_same li L hli], hli⟩
  have hfreed : ∀ (M : Manager) (r : Relation), r ∈ s.relations →
      (∃ li, M.objects r.target = some li ∧ li.OwnedBy L) →
      (Street.ReleaseRelations M L s.relations).objects r.target
        = some { lockState := LockStateFree, locoID := LocoNone } := by
    intro M r hr hown
    rw [Street.ReleaseRelations_eq]
    refine Manager.CallAll_target (fun i => i.Release L)
      (fun o => ∃ li, o = some li ∧ li.OwnedBy L)
      (fun o => o = some { lockState := LockStateFree, locoID := LocoNone })
      ?_ ?_ s.relations M r hr hown
    · rintro o rfl
      simp [LockableItem.Release_free]
    · rintro o ⟨li, rfl, hli⟩
      simp [(LockableItem.Release_owned li L hli).2]
  have hhard : ∀ r : Relation, m.Holds (fun i => i.HardLockedBy L) r.target →
      ∃ li, m.objects r.target = some li ∧ li.OwnedBy L := by
    rintro r ⟨li, hli, h1, h2⟩
    exact ⟨li, hli, h2, by rw [h1]; decide⟩
  have hother : ∀ (r : Relation) (L2 : locoID_t), L2 ≠ L →
      m.Holds (fun i => i.OwnedBy L2) r.target →
      (∀ o : Option LockableItem, o = m.objects r.target →
          o.map (fun li => (li.Reserve L).2) = m.objects r.target)
        ∧ (∀ o : Option LockableItem, o = m.objects r.target →
          o.map (fun li => (li.Release L).2) = m.objects r.target) := by
    rintro r L2 hne ⟨li, hli, hown⟩
    obtain ⟨e1, e2⟩ := LockableItem.other_owner_same li L L2 hown hne
    refine ⟨?_, ?_⟩
    · rintro o rfl
      rw [hli]
      simp [e1]
    · rintro o rfl
      rw [hli]
      simp [e2]
  rcases Street.Reserve_false s m L hfail with ⟨hc, h⟩ | ⟨hb, hself, htrack, h⟩
      | ⟨hb, hself, htrack, h⟩
  · refine ⟨fun _ => h, ?_, ?_⟩
    · rintro ⟨hb, hself⟩
      rcases hc with hc | hc
      · exact absurd hc hb
      · rw [hself] at hc
        exact (Bool.false_ne_true hc.symm).elim
    · intro r _ L2 _ _
      rw [h]
  · refine ⟨?_, ?_, ?_⟩
    · rintro (hc | hc)
      · exact absurd hc hb
      · rw [hself] at hc
        exact (Bool.false_ne_true hc.symm).elim
    · intro _
      rw [h]
      simp only [Street.ReleaseInternal]
      refine ⟨hroute hself, ?_, ?_⟩
      · intro r hr
        exact Street.ReleaseRelations_not_owned _ L s.relations r hr
      · intro r hr hheld
        exact hfreed _ r hr
          (Street.ReserveToTrack_pointwise s m L _ hownedReserve r.target (hhard r hheld))
    · intro r hr L2 hne hheld
      obtain ⟨e1, e2⟩ := hother r L2 hne hheld
      rw [h]
      simp only [Street.ReleaseInternal, Street.ReleaseRelations_eq]
      exact Manager.CallAll_pointwise (fun i => i.Release L) (fun o => o = m.objects r.target)
        e2 s.relations _ r.target
        (Street.ReserveToTrack_pointwise s m L (fun o => o = m.objects r.target) e1 r.target rfl)
  · refine ⟨?_, ?_, ?_⟩
    · rintro (hc | hc)
      · exact absurd hc hb
      · rw [hself] at hc
        exact (Bool.false_ne_true hc.symm).elim
    · intro _
      rw [h]
      simp only [Street.ReleaseInternal]
      refine ⟨hroute hself, ?_, ?_⟩
      · intro r hr
        exact Street.ReleaseRelations_not_owned _ L s.relations r hr
      · intro r hr hheld
        refine hfreed _ r hr ?_
        rw [Street.ReserveRelations_eq]
        exact Manager.CallUntilFailure_pointwise (fun i => i.Reserve L)
          (fun o => ∃ li, o = some li ∧ li.OwnedBy L) hownedReserve s.relations _ r.target
          (Street.ReserveToTrack_pointwise s m L _ hownedReserve r.target (hhard r hheld))
    · intro r hr L2 hne hheld
      obtain ⟨e1, e2⟩ := hother r L2 hne hheld
      rw [h]
      simp only [Street.ReleaseInternal, Street.ReleaseRelations_eq, Street.ReserveRelations_eq]
      refine Manager.CallAll_pointwise (fun i => i.Release L) (fun o => o = m.objects r.target)
        e2 s.relations _ r.target ?_
      exact Manager.CallUntilFailure_pointwise (fun i => i.Reserve L)
        (fun o => o = m.objects r.target) e1 s.relations _ r.target
        (Street.ReserveToTrack_pointwise s m L (fun o => o = m.objects r.target) e1 r.target rfl)

/-- Instance of amended C22: scenario S3 with the route and switch 1
hard-locked by loco 1; loco 1 fails to reserve the route at switch 2. -/
theorem reserve_failure_releases_own_witness :
    (hardLockedStreet.Reserve
        (rollbackManagerWith { lockState := LockStateHardLocked, locoID := 1 }) 1).1 = false ∧
    (((rollbackManagerWith { lockState := LockStateHardLocked, locoID := 1 }).booster
          = BoosterStop ∨ (hardLockedStreet.toLockableItem.Reserve 1).1 = false) →
        (hardLockedStreet.Reserve
            (rollbackManagerWith { lockState := LockStateHardLocked, locoID := 1 }) 1).2
          = (hardLockedStreet,
              rollbackManagerWith { lockState := LockStateHardLocked, locoID := 1 }))
      ∧ (((rollbackManagerWith { lockState := LockStateHardLocked, locoID := 1 }).booster
            ≠ BoosterStop ∧ (hardLockedStreet.toLockableItem.Reserve 1).1 = true) →
        (hardLockedStreet.Reserve
            (rollbackManagerWith { lockState := LockStateHardLocked, locoID := 1 }) 1).2.1.toLockableItem
            = { lockState := LockStateFree, locoID := LocoNone }
          ∧ (∀ r ∈ hardLockedStreet.relations,
              ¬ (hardLockedStreet.Reserve
                  (rollbackManagerWith { lockState := LockStateHardLocked, locoID := 1 })
                  1).2.2.Holds (fun i => i.OwnedBy 1) r.target)
          ∧ (∀ r ∈ hardLockedStreet.relations,
              (rollbackManagerWith { lockState := LockStateHardLocked, locoID := 1 }).Holds
                (fun i => i.HardLockedBy 1) r.target →
              (hardLockedStreet.Reserve
                  (rollbackManagerWith { lockState := LockStateHardLocked, locoID := 1 })
                  1).2.2.objects r.target
                = some { lockState := LockStateFree, locoID := LocoNone }))
      ∧ (∀ r ∈ hardLockedStreet.relations, ∀ L2, L2 ≠ 1 →
          (rollbackManagerWith { lockState := LockStateHardLocked, locoID := 1 }).Holds
            (fun i => i.OwnedBy L2) r.target →
          (hardLockedStreet.Reserve
              (rollbackManagerWith { lockState := LockStateHardLocked, locoID := 1 })
              1).2.2.objects r.target
            = (rollbackManagerWith { lockState := LockStateHardLocked, locoID := 1 }).objects
                r.target) :=
  ⟨by decide,
    reserve_failure_releases_own hardLockedStreet
      (rollbackManagerWith { lockState := LockStateHardLocked, locoID := 1 }) 1 (by decide)⟩

/-! ## Order of the updates sent to a web client -/

/-- The replies of the instance above: the ids sent are 1, 3 and 4. -/
theorem handleUpdater_example :
    (WebClient.HandleUpdater 2 (WebServer.construct "started") 1
        [UpdaterEvent.round, UpdaterEvent.AddUpdate "a" "b", UpdaterEvent.AddUpdate "c" "d",
          UpdaterEvent.AddUpdate "e" "f", UpdaterEvent.round, UpdaterEvent.round]).map
        (fun d => (d.updateID, d.text, d.requested))
      = [(1, "started", 1), (3, WebServer.updateText "c" "d", 2),
          (4, WebServer.updateText "e" "f", 4)] := by
  decide

end RailControl
